import Mathlib

/-! # Media-session stream orchestration of liblinphone

A shallow embedding of the stream layer found in
`src/conference/session/streams.cpp` and `src/conference/session/streams-group.cpp`,
followed by theorems about it.

Conventions of the embedding.

* A C++ `int` is an `Int`.  The unsigned arithmetic of `Stream::selectRandomPort`
  is reduced modulo `2 ^ 32` explicitly.
* `std::vector<std::unique_ptr<Stream>>` is a `List (Option Stream)`: `none` is an
  empty (null) slot.
* A member function that dereferences a pointer without a test returns `Option`:
  `none` stands for the dereference of a null pointer, after which the C++
  program has no defined result.
* Calls into the media engine and into the session listener are recorded as a
  list of `Effect` values, in call order.
* What the media engine reports about a stream (secured, muted) is a field of
  the stream.
* The calls that the operations of a group make on its streams, its timer, its
  hooks and the ICE agent are recorded as a list of `GroupEffect` values, in call
  order.
* Functions that the two files call but do not define (`PayloadTypeHandler`, the
  computation of the change masks of a render) are parameters of the model.
-/

set_option autoImplicit false

namespace Linphone

/-! ## Data model -/

/-- Media type of one stream of a session description (`SalStreamType`). -/
inductive SalStreamType where
  | SalAudio
  | SalVideo
  | SalText
  | SalOther
  deriving DecidableEq, Repr

/-- Modelled from the spec: the enumeration `SalMulticastRole`, declared in a
header that is not part of the sources.  Section 3 lists the roles none, sender
and receiver; the sources name `SalMulticastSender` and `SalMulticastReceiver`. -/
inductive SalMulticastRole where
  | SalMulticastInactive
  | SalMulticastSender
  | SalMulticastReceiver
  deriving DecidableEq, Repr

/-- Modelled from the spec: the enumeration `SalStreamDir`, declared in a header
that is not part of the sources.  The sources name `SalStreamInactive` and
`SalStreamRecvOnly`; the two other directions are those of a stream that
sends. -/
inductive SalStreamDir where
  | SalStreamSendRecv
  | SalStreamSendOnly
  | SalStreamRecvOnly
  | SalStreamInactive
  deriving DecidableEq, Repr

/-- Lifecycle state of a stream (`Stream::State`; the three states are those the
sources name, the declaration being in a header that is not part of them). -/
inductive State where
  | Stopped
  | Preparing
  | Running
  deriving DecidableEq, Repr

/-- Port configuration of a stream (`Stream::PortConfig`), with the members the
sources name. -/
structure PortConfig where
  multicastIp : String
  multicastBindIp : String
  rtpPort : Int
  rtcpPort : Int
  multicastRole : SalMulticastRole
  deriving DecidableEq, Repr

/-- Payload type of the RTP library, reduced to the fields read by this layer. -/
structure OrtpPayloadType where
  mime_type : String
  clock_rate : Int
  normal_bitrate : Int
  flags : Nat
  number : Int
  send_fmtp : List String
  deriving DecidableEq, Repr

/-- RTP profile: the table from payload-type numbers to payload types. -/
structure RtpProfile where
  name : String
  payload : List (Int × OrtpPayloadType)
  deriving DecidableEq, Repr

/-! ## Session descriptions and the offer/answer context -/

/-- One stream of a session description (`SalStreamDescription`), reduced to the
fields read by the modelled code. -/
structure SalStreamDescription where
  type : SalStreamType
  multicast_role : SalMulticastRole
  rtp_port : Int
  bandwidth : Int
  payloads : List OrtpPayloadType := []
  ptime : Int := 0
  maxptime : Int := 0
  dir : SalStreamDir := SalStreamDir.SalStreamSendRecv
  rtcp_fb_tmmbr_enabled : Bool := false
  deriving DecidableEq, Repr

/-- A whole session description (`SalMediaDescription`); `nb_streams` is the
length of `streams`. -/
structure SalMediaDescription where
  streams : List SalStreamDescription
  bandwidth : Int
  deriving DecidableEq, Repr

/-- Field `nb_streams` of `SalMediaDescription`. -/
def SalMediaDescription.nb_streams (md : SalMediaDescription) : Nat :=
  md.streams.length

/-- The three session descriptions of one offer/answer round and the three stream
descriptions they are scoped to (`OfferAnswerContext`).  A null pointer is `none`. -/
structure OfferAnswerContext where
  localMediaDescription : Option SalMediaDescription
  remoteMediaDescription : Option SalMediaDescription
  resultMediaDescription : Option SalMediaDescription
  localIsOfferer : Bool
  streamIndex : Nat
  localStreamDescription : Option SalStreamDescription
  remoteStreamDescription : Option SalStreamDescription
  resultStreamDescription : Option SalStreamDescription
  localStreamDescriptionChanges : Nat := 0
  resultStreamDescriptionChanges : Nat := 0
  deriving DecidableEq, Repr

/-- A context without any description: the retained context of a group that has
not rendered yet, and the result of `OfferAnswerContext::clear`. -/
def OfferAnswerContext.cleared : OfferAnswerContext :=
  { localMediaDescription := none
    remoteMediaDescription := none
    resultMediaDescription := none
    localIsOfferer := false
    streamIndex := 0
    localStreamDescription := none
    remoteStreamDescription := none
    resultStreamDescription := none }

/-- `OfferAnswerContext::scopeStreamToIndex`.  An index beyond the streams of a
description is treated like a null description: the scoped pointer is `none`. -/
def OfferAnswerContext.scopeStreamToIndex (params : OfferAnswerContext) (index : Nat) :
    OfferAnswerContext :=
  { params with
    streamIndex := index
    localStreamDescription := params.localMediaDescription.bind (fun md => md.streams[index]?)
    remoteStreamDescription := params.remoteMediaDescription.bind (fun md => md.streams[index]?)
    resultStreamDescription := params.resultMediaDescription.bind (fun md => md.streams[index]?) }

/-- One media stream (`Stream` with the members of `MS2Stream`).

`ident` is the identity of the allocated C++ object.  `secured` is what
`media_stream_secured(getMediaStream())` reports and `muted` what the virtual
`isMuted()` reports.  `zrtp_context` tells whether `mSessions.zrtp_context`, which
`getZrtpContext()` returns, is non-null.  `rtpEndpoint` and `rtcpEndpoint` tell
whether `meta_rtp_transport_get_endpoint` returns an endpoint for the RTP and for
the RTCP transport of `mSessions.rtp_session`. -/
structure Stream where
  ident : Nat
  mStreamType : SalStreamType
  mIndex : Nat
  mState : State
  mPortConfig : PortConfig
  mIsMain : Bool
  secured : Bool
  muted : Bool
  mRtpProfile : Option RtpProfile
  mRtpIoProfile : Option RtpProfile
  mTimer : Bool
  zrtp_context : Bool := false
  rtpEndpoint : Bool := false
  rtcpEndpoint : Bool := false
  deriving DecidableEq, Repr

/-- The group of streams of one call (`StreamsGroup`), reduced to its collection
of owning slots, its bandwidth timer handle, its audio bandwidth, its queue of
post-render hooks (a hook is known by a number), the context retained by the
last render, and the authentication token with its verification flag. -/
structure StreamsGroup where
  mStreams : List (Option Stream)
  mBandwidthReportTimer : Bool
  mAudioBandwidth : Int
  mPostRenderHooks : List Nat := []
  mCurrentOfferAnswerState : OfferAnswerContext := OfferAnswerContext.cleared
  mAuthToken : String := ""
  mAuthTokenVerified : Bool := false
  deriving DecidableEq, Repr

namespace Stream

/-- `Stream::getState`. -/
def getState (s : Stream) : State := s.mState

/-- `Stream::getType`. -/
def getType (s : Stream) : SalStreamType := s.mStreamType

/-- `Stream::getIndex`. -/
def getIndex (s : Stream) : Nat := s.mIndex

/-- `Stream::isMain`. -/
def isMain (s : Stream) : Bool := s.mIsMain

/-- `MS2Stream::isEncrypted`: `media_stream_secured(getMediaStream())`. -/
def isEncrypted (s : Stream) : Bool := s.secured

/-- `Stream::isMuted` (virtual, answered by the concrete stream kind). -/
def isMuted (s : Stream) : Bool := s.muted

end Stream

namespace StreamsGroup

/-- Loop of `StreamsGroup::allStreamsEncrypted` over the remaining slots, with the
current value of `activeStreamsCount`. -/
def allStreamsEncryptedLoop : List (Option Stream) → Int → Option Bool
  | [], activeStreamsCount => some (decide (activeStreamsCount > 0))
  | none :: _, _ => none
  | some stream :: rest, activeStreamsCount =>
    if stream.getState = State.Running then
      if !stream.isEncrypted then some false
      else allStreamsEncryptedLoop rest (activeStreamsCount + 1)
    else allStreamsEncryptedLoop rest activeStreamsCount

/-- `StreamsGroup::allStreamsEncrypted`. -/
def allStreamsEncrypted (g : StreamsGroup) : Option Bool :=
  allStreamsEncryptedLoop g.mStreams 0

/-- Loop of `StreamsGroup::isMuted` over the remaining slots. -/
def isMutedLoop : List (Option Stream) → Option Bool
  | [] => some true
  | none :: _ => none
  | some stream :: rest =>
    if stream.getState = State.Running then
      if stream.isMuted == false then some false
      else isMutedLoop rest
    else isMutedLoop rest

/-- `StreamsGroup::isMuted`. -/
def isMuted (g : StreamsGroup) : Option Bool :=
  isMutedLoop g.mStreams

/-- Every slot of the collection holds a stream: the loops that dereference each
slot without a test are defined exactly on such groups. -/
def noEmptySlot (g : StreamsGroup) : Prop :=
  ∀ slot ∈ g.mStreams, slot ≠ none

/-- The stream `s` is owned by the group: some slot holds it. -/
def owns (g : StreamsGroup) (s : Stream) : Prop :=
  some s ∈ g.mStreams

end StreamsGroup

/-! ## Port bookkeeping -/

namespace Stream

/-- `Stream::isPortUsed`. -/
def isPortUsed (s : Stream) (port : Int) : Bool :=
  port == s.mPortConfig.rtpPort || port == s.mPortConfig.rtcpPort

/-- `Stream::setRandomPortConfig`. -/
def setRandomPortConfig (s : Stream) : Stream :=
  { s with mPortConfig := { s.mPortConfig with rtpPort := -1, rtcpPort := -1 } }

end Stream

namespace StreamsGroup

/-- Loop of `StreamsGroup::isPortUsed` over the remaining slots. -/
def isPortUsedLoop : List (Option Stream) → Int → Bool
  | [], _ => false
  | none :: rest, port => isPortUsedLoop rest port
  | some stream :: rest, port =>
    if stream.isPortUsed port then true else isPortUsedLoop rest port

/-- `StreamsGroup::isPortUsed`. -/
def isPortUsed (g : StreamsGroup) (port : Int) : Bool :=
  if port = -1 then false else isPortUsedLoop g.mStreams port

/-- `StreamsGroup::getStream`: the stream of slot `index`, `none` for a null
pointer (index out of range, or empty slot). -/
def getStream (g : StreamsGroup) (index : Nat) : Option Stream :=
  if index ≥ g.mStreams.length then none else g.mStreams.getD index none

end StreamsGroup

/-- Inner loop shared by `Stream::selectRandomPort` and `Stream::selectFixedPort`:
walk the calls of the core and set `alreadyUsed` as soon as the stream group of
one active session uses `triedPort`. -/
def alreadyUsed : List StreamsGroup → Int → Bool
  | [], _ => false
  | g :: rest, triedPort =>
    if g.isPortUsed triedPort then true else alreadyUsed rest triedPort

/-- Conversion of a 32-bit unsigned value to `int`. -/
def toInt32 (x : Nat) : Int :=
  if x % 2 ^ 32 < 2 ^ 31 then (x % 2 ^ 32 : Nat) else ((x % 2 ^ 32 : Nat) : Int) - 2 ^ 32

/-- Conversion of an `int` to `unsigned int`. -/
def toUInt32 (x : Int) : Nat :=
  (x % 2 ^ 32).toNat

namespace Stream

/-- Loop of `Stream::selectFixedPort`, stepping `triedPort` by two while it is
below `portRange.first + 100`.  The loop variant `portRange.first + 100 - triedPort`
is at most `2 * fuel` at every entry, so the first case is never the reason for
the result (see `selectFixedPortLoop_fuel`). -/
def selectFixedPortLoop (calls : List StreamsGroup) (portRange : Int × Int) : Nat → Int → Int
  | 0, _ => -1
  | fuel + 1, triedPort =>
    if triedPort < portRange.1 + 100 then
      if !alreadyUsed calls triedPort then triedPort
      else selectFixedPortLoop calls portRange fuel (triedPort + 2)
    else -1

/-- `Stream::selectFixedPort`. -/
def selectFixedPort (calls : List StreamsGroup) (portRange : Int × Int) : Int :=
  selectFixedPortLoop calls portRange 100 portRange.1

/-- Candidate port of one iteration of `Stream::selectRandomPort`, from the value
`r` returned by `bctbx_random()`.  `rangeSize` is not zero at the only call site:
`setPortConfig` calls `selectRandomPort` when the two bounds differ. -/
def randomTriedPort (portRange : Int × Int) (r : Nat) : Int :=
  let rangeSize := toUInt32 (portRange.2 - portRange.1)
  let randomInRangeSize := ((r % 2 ^ 32) % rangeSize) &&& 0xFFFFFFFE
  toInt32 randomInRangeSize + portRange.1

/-- Loop of `Stream::selectRandomPort`.  `random n` is the value of the `n`-th call
of `bctbx_random()` and `draws` counts the calls made so far; the result is the
selected port with the new count.  At every entry `100 - nbTries` is at most
`fuel`, so the first case is never the reason for the result (see
`selectRandomPortLoop_fuel`). -/
def selectRandomPortLoop (random : Nat → Nat) (calls : List StreamsGroup)
    (portRange : Int × Int) : Nat → Nat → Nat → Int × Nat
  | 0, _, draws => (-1, draws)
  | fuel + 1, nbTries, draws =>
    if nbTries < 100 then
      let triedPort := randomTriedPort portRange (random draws)
      if !alreadyUsed calls triedPort then (triedPort, draws + 1)
      else selectRandomPortLoop random calls portRange fuel (nbTries + 1) (draws + 1)
    else (-1, draws)

/-- `Stream::selectRandomPort`. -/
def selectRandomPort (random : Nat → Nat) (calls : List StreamsGroup)
    (portRange : Int × Int) (draws : Nat) : Int × Nat :=
  selectRandomPortLoop random calls portRange 100 0 draws

/-- The port returned by the selection that `setPortConfig` runs for a configured
`portRange`: `selectFixedPort` for a single value, `selectRandomPort` otherwise. -/
def selectedPort (random : Nat → Nat) (calls : List StreamsGroup) (portRange : Int × Int)
    (draws : Nat) : Int :=
  if portRange.1 = portRange.2 then selectFixedPort calls portRange
  else (selectRandomPort random calls portRange draws).1

/-- Fixed or ranged port selection succeeded: a range is configured and the
selection it calls for found a port. -/
def portSelectionSucceeded (random : Nat → Nat) (calls : List StreamsGroup)
    (portRange : Int × Int) (draws : Nat) : Prop :=
  ¬ (portRange.1 ≤ 0 ∧ portRange.2 ≤ 0) ∧ selectedPort random calls portRange draws ≠ -1

instance (random : Nat → Nat) (calls : List StreamsGroup) (portRange : Int × Int) (draws : Nat) :
    Decidable (portSelectionSucceeded random calls portRange draws) := by
  unfold portSelectionSucceeded
  infer_instance

/-- `Stream::setPortConfig(pair<int, int> portRange)`. -/
def setPortConfig (random : Nat → Nat) (calls : List StreamsGroup) (s : Stream)
    (portRange : Int × Int) (draws : Nat) : Stream × Nat :=
  let r : Stream × Nat :=
    if portRange.1 ≤ 0 ∧ portRange.2 ≤ 0 then
      (s.setRandomPortConfig, draws)
    else if portRange.1 = portRange.2 then
      ({ s with mPortConfig := { s.mPortConfig with rtpPort := selectFixedPort calls portRange } },
        draws)
    else
      let sel := selectRandomPort random calls portRange draws
      ({ s with mPortConfig := { s.mPortConfig with rtpPort := sel.1 } }, sel.2)
  if r.1.mPortConfig.rtpPort = -1 then (r.1.setRandomPortConfig, r.2)
  else
    ({ r.1 with mPortConfig := { r.1.mPortConfig with rtcpPort := r.1.mPortConfig.rtpPort + 1 } },
      r.2)

end Stream

/-- The transport factory of the core (`LinphoneRtpTransportFactory`, the field
`rtptf` of the core), a structure of a header that is not part of the sources,
reduced to the four function pointers that `MS2Stream::prepare` reads: a field
is `none` when the pointer is null, and otherwise tells whether the function
returns an endpoint (`true`) or a null pointer (`false`). -/
structure LinphoneRtpTransportFactory where
  audio_rtp_func : Option Bool
  audio_rtcp_func : Option Bool
  video_rtp_func : Option Bool
  video_rtcp_func : Option Bool
  deriving DecidableEq, Repr

/-- What stream construction reads from the core and from the media session that
owns the group.

* the three port ranges are what `linphone_core_get_audio_port_range` and its
  video and text siblings return;
* `calls` holds the stream groups of the active sessions of the other calls of
  `linphone_core_get_calls`, and `sessionInCalls` tells whether the session that
  owns the group under construction is among those calls as well;
* `random n` is the value of the `n`-th call of `bctbx_random()`;
* `listener` tells whether a call-session listener is registered;
* `uploadBandwidth` is what `linphone_core_get_upload_bandwidth` returns and
  `upBandwidth` what `getParams()->getPrivate()->getUpBandwidth()` returns;
* `upPtime` is what `getParams()->getPrivate()->getUpPtime()` returns and
  `uploadPtime` what `linphone_core_get_upload_ptime` returns;
* `mediaDescriptionContainsVideoStream` stands for the function
  `linphone_core_media_description_contains_video_stream` of the core, which is
  not part of the sources; its default value, used by the concrete instances,
  is modelled from the spec ("video present"): some stream of the description
  has type video;
* `adaptiveRateControlEnabled` is what `linphone_core_adaptive_rate_control_enabled`
  returns and `adaptiveRateAlgorithm` what `linphone_core_get_adaptive_rate_algorithm`
  returns;
* `rtptf` is the field `getCCore()->rtptf`, `none` when it is null. -/
structure Core where
  audioPortRange : Int × Int
  videoPortRange : Int × Int
  textPortRange : Int × Int
  audioMulticastEnabled : Bool
  videoMulticastEnabled : Bool
  audioMulticastAddr : String
  videoMulticastAddr : String
  calls : List StreamsGroup
  sessionInCalls : Bool
  random : Nat → Nat
  listener : Bool
  uploadBandwidth : Int := 0
  upBandwidth : Int := 0
  upPtime : Int := 0
  uploadPtime : Int := 0
  mediaDescriptionContainsVideoStream : SalMediaDescription → Bool :=
    fun md => md.streams.any (fun d => d.type == SalStreamType.SalVideo)
  adaptiveRateControlEnabled : Bool := false
  adaptiveRateAlgorithm : String := ""
  rtptf : Option LinphoneRtpTransportFactory := none

/-- Mutable state threaded through the operations of one media session: its
stream group, the number of `Stream` objects allocated so far and the number of
calls of `bctbx_random()` made so far. -/
structure SessionState where
  group : StreamsGroup
  allocated : Nat
  draws : Nat
  deriving DecidableEq, Repr

/-- The stream groups visited by the port probes: the groups of all calls of the
core, the group under construction included when its session is one of them. -/
def Core.allCalls (core : Core) (g : StreamsGroup) : List StreamsGroup :=
  if core.sessionInCalls then g :: core.calls else core.calls

/-! ## Stream construction -/

namespace Stream

/-- Modelled from the spec: the member initialisers of the class declarations of
`streams.h`, which is not part of the sources.  A new stream is in state Stopped
(the initial state of section 4.2), is not the main stream, holds no profile and
no timer, and its port configuration is unset until `setPortConfig` runs. -/
def fresh (ident : Nat) (type : SalStreamType) (index : Nat) : Stream :=
  { ident := ident
    mStreamType := type
    mIndex := index
    mState := State.Stopped
    mPortConfig :=
      { multicastIp := ""
        multicastBindIp := ""
        rtpPort := -1
        rtcpPort := -1
        multicastRole := SalMulticastRole.SalMulticastInactive }
    mIsMain := false
    secured := false
    muted := false
    mRtpProfile := none
    mRtpIoProfile := none
    mTimer := false }

/-- The `switch` of `Stream::setPortConfig()`: `minPort` and `maxPort` start at 0
and are filled from the port range of the stream type. -/
def portRangeOfType (core : Core) (type : SalStreamType) : Int × Int :=
  match type with
  | SalStreamType.SalAudio => core.audioPortRange
  | SalStreamType.SalVideo => core.videoPortRange
  | SalStreamType.SalText => core.textPortRange
  | SalStreamType.SalOther => (0, 0)

/-- `Stream::setPortConfig()`: the port range of the stream type, then
`setPortConfig(pair)`. -/
def setPortConfigOfType (core : Core) (calls : List StreamsGroup) (s : Stream) (draws : Nat) :
    Stream × Nat :=
  s.setPortConfig core.random calls (portRangeOfType core s.getType) draws

/-- `Stream::fillMulticastMediaAddresses`. -/
def fillMulticastMediaAddresses (core : Core) (s : Stream) : Stream :=
  let cleared : Stream := { s with mPortConfig := { s.mPortConfig with multicastIp := "" } }
  if s.getType = SalStreamType.SalAudio ∧ core.audioMulticastEnabled = true then
    { cleared with
      mPortConfig := { cleared.mPortConfig with multicastIp := core.audioMulticastAddr } }
  else if s.getType = SalStreamType.SalVideo ∧ core.videoMulticastEnabled = true then
    { cleared with
      mPortConfig := { cleared.mPortConfig with multicastIp := core.videoMulticastAddr } }
  else cleared

/-- Constructor `Stream::Stream(StreamsGroup &, const OfferAnswerContext &)`.  It
reads `params.localStreamDescription->type`, hence `none` on a null description. -/
def construct (core : Core) (calls : List StreamsGroup) (params : OfferAnswerContext)
    (ident : Nat) (draws : Nat) : Option (Stream × Nat) :=
  match params.localStreamDescription with
  | none => none
  | some localStreamDescription =>
    let s := fresh ident localStreamDescription.type params.streamIndex
    let r := s.setPortConfigOfType core calls draws
    some (r.1.fillMulticastMediaAddresses core, r.2)

end Stream

namespace MS2Stream

/-- The role read by the first statement of `MS2Stream::initMulticast`: that of the
local stream description when the local side is the offerer, that of the remote
one otherwise; `none` when the description read is null. -/
def multicastRoleOf (params : OfferAnswerContext) : Option SalMulticastRole :=
  if params.localIsOfferer then
    params.localStreamDescription.map (fun d => d.multicast_role)
  else
    params.remoteStreamDescription.map (fun d => d.multicast_role)

/-- `MS2Stream::initMulticast`.  The two assignments of the receiver branch are
those of the source, both to `rtpPort`. -/
def initMulticast (s : Stream) (params : OfferAnswerContext) : Option Stream :=
  match multicastRoleOf params with
  | none => none
  | some multicastRole =>
    let s1 : Stream := { s with mPortConfig := { s.mPortConfig with multicastRole := multicastRole } }
    if multicastRole = SalMulticastRole.SalMulticastReceiver then
      match params.remoteStreamDescription with
      | none => none
      | some remoteStreamDescription =>
        let s2 : Stream :=
          { s1 with mPortConfig := { s1.mPortConfig with rtpPort := remoteStreamDescription.rtp_port } }
        some { s2 with mPortConfig := { s2.mPortConfig with rtpPort := 0 } }
    else some s1

/-- Constructor `MS2Stream::MS2Stream`: the base constructor, then
`initMulticast`.  The constructors of `MS2AudioStream`, `MS2VideoStream` and
`MS2RTTStream` are not part of the sources; the three kinds are built through
this constructor. -/
def construct (core : Core) (calls : List StreamsGroup) (params : OfferAnswerContext)
    (ident : Nat) (draws : Nat) : Option (Stream × Nat) :=
  match Stream.construct core calls params ident draws with
  | none => none
  | some r =>
    match initMulticast r.1 params with
    | none => none
    | some s => some (s, r.2)

end MS2Stream

/-! ## Creation of the streams of a group -/

namespace StreamsGroup

/-- The assignment `mStreams.resize(streamIndex + 1)` guarded by
`streamIndex >= mStreams.size()`: new slots are empty. -/
def resizeFor (slots : List (Option Stream)) (streamIndex : Nat) : List (Option Stream) :=
  if streamIndex ≥ slots.length then
    slots ++ List.replicate (streamIndex + 1 - slots.length) none
  else slots

/-- `StreamsGroup::createStream`.  The result pairs the new state with the
returned pointer (`none` is `nullptr`); the outer `none` is the dereference of a
null description. -/
def createStream (core : Core) (st : SessionState) (params : OfferAnswerContext) :
    Option (SessionState × Option Stream) :=
  match params.localStreamDescription with
  | none => none
  | some localStreamDescription =>
    let ret : Option (Option (Stream × Nat)) :=
      match localStreamDescription.type with
      | SalStreamType.SalAudio =>
        (MS2Stream.construct core (core.allCalls st.group) params st.allocated st.draws).map some
      | SalStreamType.SalVideo =>
        (MS2Stream.construct core (core.allCalls st.group) params st.allocated st.draws).map some
      | SalStreamType.SalText =>
        (MS2Stream.construct core (core.allCalls st.group) params st.allocated st.draws).map some
      | SalStreamType.SalOther => some none
    match ret with
    | none => none
    | some none => some (st, none)
    | some (some r) =>
      let slots := (resizeFor st.group.mStreams params.streamIndex).set params.streamIndex (some r.1)
      some ({ group := { st.group with mStreams := slots }
              allocated := st.allocated + 1
              draws := r.2 }, some r.1)

/-- Body of the loop of `StreamsGroup::createStreams` for one `index`.  When the
slot holds a stream the two branches of the type comparison differ by an error
log only, which is not modelled. -/
def createStreamsStep (core : Core) (params : OfferAnswerContext) (st : SessionState)
    (index : Nat) : Option SessionState :=
  let ctx := params.scopeStreamToIndex index
  match st.group.getStream index with
  | none => (createStream core st ctx).map (fun r => r.1)
  | some s =>
    match ctx.localStreamDescription with
    | none => none
    | some localStreamDescription =>
      if s.getType ≠ localStreamDescription.type then some st else some st

/-- `StreamsGroup::createStreams`: the loop over `index = 0 .. nb_streams - 1`. -/
def createStreams (core : Core) (params : OfferAnswerContext) (st : SessionState) :
    Option SessionState :=
  match params.localMediaDescription with
  | none => none
  | some localMediaDescription =>
    (List.range localMediaDescription.nb_streams).foldlM (createStreamsStep core params) st

end StreamsGroup

/-! ## Stopping a stream -/

/-- Modelled from the spec: the statistics types `LINPHONE_CALL_STATS_AUDIO`,
`LINPHONE_CALL_STATS_VIDEO` and `LINPHONE_CALL_STATS_TEXT`, constants of a header
that is not part of the sources.  The local variable `int statsType` of
`MS2Stream::stop` is an `Option LinphoneCallStats`, its initial value `-1`
being `none`. -/
inductive LinphoneCallStats where
  | LINPHONE_CALL_STATS_AUDIO
  | LINPHONE_CALL_STATS_VIDEO
  | LINPHONE_CALL_STATS_TEXT
  deriving DecidableEq, Repr

/-- Calls that `MS2Stream::stop`, `MS2Stream::prepare` and
`MS2Stream::configureAdaptiveRateControl` make on the listener, the core, the
ICE agent, the RTP library, the media engine and on the stream itself.  The two
calls of `meta_rtp_transport_set_endpoint` carry the port passed to the function
of the transport factory that builds the endpoint. -/
inductive Effect where
  | onUpdateMediaInfoForReporting (statsType : LinphoneCallStats)
  | onCallSessionConferenceStreamStopping
  | bandwidthControllerRemoveStream
  | rtpProfileDestroy (profile : RtpProfile)
  | updateStats
  | handleEvents
  | destroyTimer
  | prepareIceForStream
  | createTimer
  | metaRtpTransportSetEndpoint (rtpPort : Int)
  | metaRtcpTransportSetEndpoint (rtcpPort : Int)
  | bandwidthControllerAddStream
  | setAdaptiveBitrateAlgorithmSimple
  | enableAdaptiveBitrateControl (enabled : Bool)
  deriving DecidableEq, Repr

/-- The effect is a notification of the call-session listener. -/
def Effect.isListenerNotification : Effect → Bool
  | Effect.onUpdateMediaInfoForReporting _ => true
  | Effect.onCallSessionConferenceStreamStopping => true
  | _ => false

/-- `Stream::stop`. -/
def Stream.stop (s : Stream) : Stream :=
  { s with mState := State.Stopped }

namespace MS2Stream

/-- `MS2Stream::stop`, with the calls it makes in order.  `listener` tells whether
`getCallSessionListener()` is non-null.  `updateStats()` and `handleEvents()` are
recorded as calls; what they do inside the media engine is not modelled. -/
def stop (listener : Bool) (s : Stream) : Stream × List Effect :=
  let statsType : Option LinphoneCallStats :=
    match s.getType with
    | SalStreamType.SalAudio => some LinphoneCallStats.LINPHONE_CALL_STATS_AUDIO
    | SalStreamType.SalVideo => some LinphoneCallStats.LINPHONE_CALL_STATS_VIDEO
    | SalStreamType.SalText => some LinphoneCallStats.LINPHONE_CALL_STATS_TEXT
    | SalStreamType.SalOther => none
  let notified : List Effect :=
    if listener then
      (if statsType ≠ none then
          [Effect.onUpdateMediaInfoForReporting LinphoneCallStats.LINPHONE_CALL_STATS_AUDIO]
        else [])
      ++ (if s.getType = SalStreamType.SalAudio then [Effect.onCallSessionConferenceStreamStopping]
        else [])
    else []
  let profile : List Effect :=
    match s.mRtpProfile with
    | some p => [Effect.rtpProfileDestroy p]
    | none => []
  let ioProfile : List Effect :=
    match s.mRtpIoProfile with
    | some p => [Effect.rtpProfileDestroy p]
    | none => []
  let timer : List Effect := if s.mTimer then [Effect.destroyTimer] else []
  let s1 : Stream := { s with mRtpProfile := none, mRtpIoProfile := none, mTimer := false }
  (Stream.stop s1,
    notified ++ [Effect.bandwidthControllerRemoveStream] ++ profile ++ ioProfile
      ++ [Effect.updateStats, Effect.handleEvents] ++ timer)

end MS2Stream

/-! ## Concrete streams and groups used as instances -/

/-- A stream with the given identity, index, type, state, RTP port and engine
reports; its RTCP port is the RTP port plus one. -/
def Stream.sample (ident index : Nat) (type : SalStreamType) (state : State) (rtpPort : Int)
    (secured muted : Bool) : Stream :=
  { Stream.fresh ident type index with
    mState := state
    secured := secured
    muted := muted
    mPortConfig :=
      { (Stream.fresh ident type index).mPortConfig with
        rtpPort := rtpPort
        rtcpPort := rtpPort + 1 } }

/-- A group that owns the given slots, without timer. -/
def StreamsGroup.ofSlots (slots : List (Option Stream)) : StreamsGroup :=
  { mStreams := slots, mBandwidthReportTimer := false, mAudioBandwidth := 0 }

/-- An audio stream and a video stream, both Running, secured and muted, followed
by a stopped text stream that is neither. -/
def sampleRunningGroup : StreamsGroup :=
  StreamsGroup.ofSlots
    [some (Stream.sample 0 0 SalStreamType.SalAudio State.Running 7078 true true),
     some (Stream.sample 1 1 SalStreamType.SalVideo State.Running 9078 true true),
     some (Stream.sample 2 2 SalStreamType.SalText State.Stopped 11078 false false)]

instance (g : StreamsGroup) : Decidable g.noEmptySlot := by
  unfold StreamsGroup.noEmptySlot
  infer_instance

instance (g : StreamsGroup) (s : Stream) : Decidable (g.owns s) := by
  unfold StreamsGroup.owns
  infer_instance

/-- A Running main audio stream with ports 7078 and 7079 that holds an event timer
and an RTP profile. -/
def sampleAudioStream : Stream :=
  { Stream.sample 0 0 SalStreamType.SalAudio State.Running 7078 false false with
    mIsMain := true
    mTimer := true
    mRtpProfile := some { name := "Call profile", payload := [] } }

/-- A group whose only stream was built without port range: both ports are -1
until the transport layer has allocated them. -/
def sampleAutomaticGroup : StreamsGroup :=
  StreamsGroup.ofSlots [some (Stream.fresh 0 SalStreamType.SalAudio 0)]

/-- A group with one audio stream on ports 7078 and 7079. -/
def sampleAudioGroup : StreamsGroup :=
  StreamsGroup.ofSlots [some sampleAudioStream]

/-- Fifty calls, call `j` having one audio stream on ports `7078 + 2 j` and
`7079 + 2 j`: what a fixed audio port 7078 yields after fifty calls. -/
def sampleFiftyCalls : List StreamsGroup :=
  (List.range 50).map (fun j =>
    StreamsGroup.ofSlots
      [some (Stream.sample j 0 SalStreamType.SalAudio State.Running (7078 + 2 * (j : Int))
        false false)])

/-- A sequence of draws for `bctbx_random()`. -/
def sampleRandom : Nat → Nat :=
  fun n => 1103515245 * n + 12345

/-- A core with the fixed audio port 7078, the video port range [9078, 9178], no
text port range and no other call. -/
def sampleCore : Core :=
  { audioPortRange := (7078, 7078)
    videoPortRange := (9078, 9178)
    textPortRange := (0, 0)
    audioMulticastEnabled := false
    videoMulticastEnabled := false
    audioMulticastAddr := "224.1.2.3"
    videoMulticastAddr := "224.1.2.3"
    calls := []
    sessionInCalls := true
    random := sampleRandom
    listener := true }

/-- A unicast stream description of the given type. -/
def sampleDescription (type : SalStreamType) : SalStreamDescription :=
  { type := type
    multicast_role := SalMulticastRole.SalMulticastInactive
    rtp_port := 5004
    bandwidth := 0 }

/-- The context of a local offer with an audio stream and a video stream, not yet
answered. -/
def sampleOffer : OfferAnswerContext :=
  { localMediaDescription := some
      { streams := [sampleDescription SalStreamType.SalAudio,
                    sampleDescription SalStreamType.SalVideo]
        bandwidth := 0 }
    remoteMediaDescription := none
    resultMediaDescription := none
    localIsOfferer := true
    streamIndex := 0
    localStreamDescription := none
    remoteStreamDescription := none
    resultStreamDescription := none }

/-- The context of a remote offer of one multicast audio stream on port 5004, for
which the local side is the receiver. -/
def sampleMulticastOffer : OfferAnswerContext :=
  { localMediaDescription := some
      { streams := [sampleDescription SalStreamType.SalAudio], bandwidth := 0 }
    remoteMediaDescription := some
      { streams := [{ sampleDescription SalStreamType.SalAudio with
                      multicast_role := SalMulticastRole.SalMulticastReceiver }]
        bandwidth := 0 }
    resultMediaDescription := none
    localIsOfferer := false
    streamIndex := 0
    localStreamDescription := none
    remoteStreamDescription := none
    resultStreamDescription := none }

/-- The stream descriptions that `MS2Stream::initMulticast` dereferences are
present: the one the role is read from, and the remote one when that role is
receiver. -/
def MS2Stream.initMulticastDefined (params : OfferAnswerContext) : Bool :=
  match MS2Stream.multicastRoleOf params with
  | none => false
  | some role =>
    role != SalMulticastRole.SalMulticastReceiver || params.remoteStreamDescription.isSome

/-- The session state of a new call: no stream, nothing allocated, nothing drawn. -/
def sampleEmptyState : SessionState :=
  { group := StreamsGroup.ofSlots [], allocated := 0, draws := 0 }

/-- The context of a local answer whose first stream has a type that is neither
audio, video nor text, followed by an audio stream. -/
def sampleOtherOffer : OfferAnswerContext :=
  { sampleOffer with
    localMediaDescription := some
      { streams := [sampleDescription SalStreamType.SalOther,
                    sampleDescription SalStreamType.SalAudio]
        bandwidth := 0 } }

/-- The descriptions read when `createStreams` builds the stream of `index` are
present: the local stream description and, unless its type is other (no stream
is built then), those read by `MS2Stream::initMulticast`. -/
def StreamsGroup.createStreamDefined (params : OfferAnswerContext) (index : Nat) : Bool :=
  match (params.scopeStreamToIndex index).localStreamDescription with
  | none => false
  | some l =>
    l.type == SalStreamType.SalOther ||
      MS2Stream.initMulticastDefined (params.scopeStreamToIndex index)

/-- The group that `createStreams` builds for `sampleOtherOffer` on a new session:
an empty slot at index 0 and a Stopped audio stream at index 1. -/
def sampleSparseGroup : StreamsGroup :=
  StreamsGroup.ofSlots
    [none, some (Stream.sample 0 1 SalStreamType.SalAudio State.Stopped 7078 false false)]

/-- The context of a renegotiation whose local description swaps the two streams of
`sampleOffer`: video at index 0, audio at index 1. -/
def sampleSwappedOffer : OfferAnswerContext :=
  { sampleOffer with
    localMediaDescription := some
      { streams := [sampleDescription SalStreamType.SalVideo,
                    sampleDescription SalStreamType.SalAudio]
        bandwidth := 0 } }

/-- The session state after `createStreams` for `sampleOffer` on a new session: an
audio stream on port 7078 at index 0 and a video stream on port 9122 at index 1. -/
def sampleTwoStreamState : SessionState :=
  { group := StreamsGroup.ofSlots
      [some (Stream.sample 0 0 SalStreamType.SalAudio State.Stopped 7078 false false),
       some (Stream.sample 1 1 SalStreamType.SalVideo State.Stopped 9122 false false)]
    allocated := 2
    draws := 1 }

/-- Group invariant of section 3 for a local description: every stream that the
group owns sits at an index of the description and has the type of the stream of
that index. -/
def StreamsGroup.typesConsistent (g : StreamsGroup) (md : SalMediaDescription) : Prop :=
  ∀ i s, g.getStream i = some s → ∃ l, md.streams[i]? = some l ∧ s.getType = l.type

/-! ## Operations of the group on all its streams -/

/-- Calls made by the operations of `StreamsGroup`, in call order: the calls of the
`stop` or of the `prepare` of one of its streams, the second preparation phase
and the rendering of a stream, the creation and the destruction of the
bandwidth-report timer, the invocation of a post-render hook, the calls on the
ICE agent and on the DTLS side of a stream, and the two ZRTP calls that accept
or reject the authentication string on the context of a stream. -/
inductive GroupEffect where
  | streamEffect (ident : Nat) (effect : Effect)
  | finishPrepare (ident : Nat)
  | render (ident : Nat)
  | createTimer
  | destroyTimer
  | hook (h : Nat)
  | startConnectivityChecks
  | startDtls (ident : Nat)
  | zrtpSasVerified (ident : Nat)
  | zrtpSasResetVerified (ident : Nat)
  deriving DecidableEq, Repr

namespace StreamsGroup

/-- Loop of `StreamsGroup::stop` over the remaining slots: `stop` is called on every
slot that holds a stream whose state is not Stopped. -/
def stopLoop (listener : Bool) : List (Option Stream) → List (Option Stream) × List GroupEffect
  | [] => ([], [])
  | none :: rest => (none :: (stopLoop listener rest).1, (stopLoop listener rest).2)
  | some stream :: rest =>
    if stream.getState ≠ State.Stopped then
      (some (MS2Stream.stop listener stream).1 :: (stopLoop listener rest).1,
        (MS2Stream.stop listener stream).2.map (GroupEffect.streamEffect stream.ident)
          ++ (stopLoop listener rest).2)
    else (some stream :: (stopLoop listener rest).1, (stopLoop listener rest).2)

/-- `StreamsGroup::stop`.  The test of the timer handle is that of the source:
`if (!mBandwidthReportTimer)`. -/
def stop (listener : Bool) (g : StreamsGroup) : StreamsGroup × List GroupEffect :=
  let timer : Bool × List GroupEffect :=
    if !g.mBandwidthReportTimer then (false, [GroupEffect.destroyTimer])
    else (g.mBandwidthReportTimer, [])
  ({ g with
      mBandwidthReportTimer := timer.1
      mStreams := (stopLoop listener g.mStreams).1 },
    timer.2 ++ (stopLoop listener g.mStreams).2)

end StreamsGroup

/-! ## Bandwidth and profile of a stream -/

/-- The static functions of `PayloadTypeHandler` that the modelled code calls.  The
class belongs to a file that is not part of the sources, so its functions are
parameters of the model. -/
structure PayloadTypeHandler where
  getMinBandwidth : Int → Int → Int
  bandwidthIsGreater : Int → Int → Bool
  getRemainingBandwidthForVideo : Int → Int → Int
  getAudioPayloadTypeBandwidth : OrtpPayloadType → Int → Int

/-- Modelled from the spec: the functions of `PayloadTypeHandler`, which is not
part of the sources, as section 4.3 words them: the minimum of two bandwidths,
the strict comparison of the step table (">512 → 100"), the budget that remains
after the audio allocation, and the bandwidth cap as the allocation of the
selected codec.  Used for concrete instances only. -/
def PayloadTypeHandler.ofSpec : PayloadTypeHandler :=
  { getMinBandwidth := fun a b => min a b
    bandwidthIsGreater := fun a b => decide (a > b)
    getRemainingBandwidthForVideo := fun total audio => total - audio
    getAudioPayloadTypeBandwidth := fun _ maxbw => maxbw }

/-- Modelled from the spec: the flag `PAYLOAD_TYPE_FLAG_CAN_SEND` ("can send" of
section 4.3), a constant of a header that is not part of the sources.  The
theorems do not depend on its value. -/
def PAYLOAD_TYPE_FLAG_CAN_SEND : Nat := 64

/-- Modelled from the spec: the flag `PAYLOAD_TYPE_BITRATE_OVERRIDE` ("explicit
bitrate override" of section 4.3), a constant of a header that is not part of
the sources.  The theorems do not depend on its value. -/
def PAYLOAD_TYPE_BITRATE_OVERRIDE : Nat := 128

/-- The test `strcasecmp(a, b) == 0`: equality up to the case of the letters. -/
def strcasecmpEq (a b : String) : Bool :=
  a.data.map Char.toLower == b.data.map Char.toLower

/-- Modelled from the spec: `rtp_profile_get_payload` of the RTP library, the entry
of the table for a payload-type number (null when there is none). -/
def rtp_profile_get_payload (profile : RtpProfile) (number : Int) : Option OrtpPayloadType :=
  match profile.payload.find? (fun e => e.1 == number) with
  | some e => some e.2
  | none => none

/-- Modelled from the spec: `rtp_profile_set_payload` of the RTP library, which
puts a payload type in the entry of a payload-type number (the new pair comes
first in the list and hides an older pair of the same number). -/
def rtp_profile_set_payload (profile : RtpProfile) (number : Int) (pt : OrtpPayloadType) :
    RtpProfile :=
  { profile with payload := (number, pt) :: profile.payload }

/-- `payload_type_get_number`. -/
def payload_type_get_number (pt : OrtpPayloadType) : Int := pt.number

/-- `payload_type_append_send_fmtp`. -/
def payload_type_append_send_fmtp (pt : OrtpPayloadType) (fmtp : String) : OrtpPayloadType :=
  { pt with send_fmtp := pt.send_fmtp ++ [fmtp] }

namespace MS2Stream

/-- The local variable `remoteBandwidth` of `MS2Stream::getIdealAudioBandwidth`:
the bandwidth declared for the stream, else the one declared for the session,
else 0. -/
def remoteBandwidthOf (md : SalMediaDescription) (desc : SalStreamDescription) : Int :=
  if desc.bandwidth > 0 then desc.bandwidth
  else if md.bandwidth > 0 then md.bandwidth
  else 0

/-- `MS2Stream::getIdealAudioBandwidth`. -/
def getIdealAudioBandwidth (handler : PayloadTypeHandler) (core : Core)
    (md : SalMediaDescription) (desc : SalStreamDescription) : Int :=
  let remoteBandwidth : Int := remoteBandwidthOf md desc
  let forced : Bool := decide (core.upBandwidth > 0)
  let uploadBandwidth : Int :=
    handler.getMinBandwidth
      (if core.upBandwidth > 0 then core.upBandwidth else core.uploadBandwidth)
      remoteBandwidth
  if !core.mediaDescriptionContainsVideoStream md || forced then uploadBandwidth
  else if handler.bandwidthIsGreater uploadBandwidth 512 then 100
  else if handler.bandwidthIsGreater uploadBandwidth 256 then 64
  else if handler.bandwidthIsGreater uploadBandwidth 128 then 40
  else if handler.bandwidthIsGreater uploadBandwidth 0 then 24
  else uploadBandwidth

end MS2Stream

namespace StreamsGroup

/-- `StreamsGroup::updateAllocatedAudioBandwidth`: the new group and the returned
bandwidth. -/
def updateAllocatedAudioBandwidth (handler : PayloadTypeHandler) (g : StreamsGroup)
    (pt : OrtpPayloadType) (maxbw : Int) : StreamsGroup × Int :=
  ({ g with mAudioBandwidth := handler.getAudioPayloadTypeBandwidth pt maxbw },
    handler.getAudioPayloadTypeBandwidth pt maxbw)

/-- `StreamsGroup::getVideoBandwidth`. -/
def getVideoBandwidth (handler : PayloadTypeHandler) (core : Core) (g : StreamsGroup)
    (md : SalMediaDescription) (desc : SalStreamDescription) : Int :=
  let remoteBandwidth : Int :=
    if desc.bandwidth > 0 then desc.bandwidth
    else if md.bandwidth > 0 then
      handler.getRemainingBandwidthForVideo md.bandwidth g.mAudioBandwidth
    else 0
  handler.getMinBandwidth
    (handler.getRemainingBandwidthForVideo core.uploadBandwidth g.mAudioBandwidth)
    remoteBandwidth

end StreamsGroup

namespace MS2Stream

/-- The variables that the loop of `MS2Stream::makeProfile` updates: `first`,
`*usedPt`, `bandwidth`, the group (for its allocated audio bandwidth) and the
profile under construction. -/
structure MakeProfileLoop where
  first : Bool
  usedPt : Int
  bandwidth : Int
  group : StreamsGroup
  profile : RtpProfile
  deriving DecidableEq, Repr

/-- The block of the loop of `makeProfile` guarded by
`(pt->flags & PAYLOAD_TYPE_FLAG_CAN_SEND) && first`: the group, `bandwidth`,
`upPtime` and `first` after it. -/
def makeProfileSelect (handler : PayloadTypeHandler) (core : Core) (desc : SalStreamDescription)
    (st : MakeProfileLoop) (pt : OrtpPayloadType) : StreamsGroup × Int × Int × Bool :=
  if (pt.flags &&& PAYLOAD_TYPE_FLAG_CAN_SEND != 0) && st.first then
    if desc.type = SalStreamType.SalAudio then
      ((st.group.updateAllocatedAudioBandwidth handler pt st.bandwidth).1,
        (st.group.updateAllocatedAudioBandwidth handler pt st.bandwidth).2,
        (if core.upPtime = 0 then core.uploadPtime else core.upPtime),
        false)
    else (st.group, st.bandwidth, 0, false)
  else (st.group, st.bandwidth, 0, st.first)

/-- The clone of `pt` at the point where the loop of `makeProfile` looks it up in
the profile: bitrate set from `bandwidth` (the value after the selection block),
then `maxptime` and `ptime` appended to the send format parameters. -/
def makeProfilePayload (handler : PayloadTypeHandler) (desc : SalStreamDescription)
    (bandwidth upPtime0 : Int) (pt : OrtpPayloadType) : OrtpPayloadType :=
  let pt1 : OrtpPayloadType :=
    if pt.flags &&& PAYLOAD_TYPE_BITRATE_OVERRIDE != 0 then
      { pt with normal_bitrate := handler.getMinBandwidth pt.normal_bitrate (bandwidth * 1000) }
    else { pt with normal_bitrate := bandwidth * 1000 }
  let pt2 : OrtpPayloadType :=
    if desc.maxptime > 0 then
      payload_type_append_send_fmtp pt1 ("maxptime=" ++ toString desc.maxptime)
    else pt1
  let upPtime : Int := if desc.ptime > 0 then desc.ptime else upPtime0
  if upPtime > 0 then payload_type_append_send_fmtp pt2 ("ptime=" ++ toString upPtime)
  else pt2

/-- Body of the loop of `MS2Stream::makeProfile` for one element of
`desc->payloads`. -/
def makeProfileStep (handler : PayloadTypeHandler) (core : Core) (desc : SalStreamDescription)
    (st : MakeProfileLoop) (elem : OrtpPayloadType) : MakeProfileLoop :=
  let sel := makeProfileSelect handler core desc st elem
  let usedPt : Int :=
    if st.usedPt = -1 then
      if !strcasecmpEq elem.mime_type "telephone-event" then payload_type_get_number elem
      else st.usedPt
    else st.usedPt
  let pt := makeProfilePayload handler desc sel.2.1 sel.2.2.1 elem
  let number := payload_type_get_number pt
  let profile : RtpProfile :=
    if (rtp_profile_get_payload st.profile number).isSome then st.profile
    else rtp_profile_set_payload st.profile number pt
  { first := sel.2.2.2
    usedPt := usedPt
    bandwidth := sel.2.1
    group := sel.1
    profile := profile }

/-- The loop of `MS2Stream::makeProfile` over the payload types of the list. -/
def makeProfileLoop (handler : PayloadTypeHandler) (core : Core) (desc : SalStreamDescription)
    (st : MakeProfileLoop) (payloads : List OrtpPayloadType) : MakeProfileLoop :=
  payloads.foldl (makeProfileStep handler core desc) st

/-- The variables of `makeProfile` at the entry of its loop. -/
def makeProfileInit (handler : PayloadTypeHandler) (core : Core) (g : StreamsGroup)
    (md : SalMediaDescription) (desc : SalStreamDescription) : MakeProfileLoop :=
  { first := true
    usedPt := -1
    bandwidth :=
      if desc.type = SalStreamType.SalAudio then getIdealAudioBandwidth handler core md desc
      else if desc.type = SalStreamType.SalVideo then g.getVideoBandwidth handler core md desc
      else 0
    group := g
    profile := { name := "Call profile", payload := [] } }

/-- What `MS2Stream::makeProfile` leaves: the group, the stream with its new
profile, the value stored in `*usedPt`, the returned profile and the calls
made. -/
structure MakeProfileResult where
  group : StreamsGroup
  stream : Stream
  usedPt : Int
  profile : RtpProfile
  effects : List Effect
  deriving DecidableEq, Repr

/-- `MS2Stream::makeProfile`. -/
def makeProfile (handler : PayloadTypeHandler) (core : Core) (g : StreamsGroup) (s : Stream)
    (md : SalMediaDescription) (desc : SalStreamDescription) : MakeProfileResult :=
  let r := makeProfileLoop handler core desc (makeProfileInit handler core g md desc)
    desc.payloads
  { group := r.group
    stream := { s with mRtpProfile := some r.profile }
    usedPt := r.usedPt
    profile := r.profile
    effects :=
      match s.mRtpProfile with
      | some old => [Effect.rtpProfileDestroy old]
      | none => [] }

end MS2Stream

/-- A session description with an audio stream for which the remote side declares
600 kbit/s, and a video stream. -/
def sampleAudioVideoDescription : SalMediaDescription :=
  { streams := [{ sampleDescription SalStreamType.SalAudio with bandwidth := 600 },
                sampleDescription SalStreamType.SalVideo]
    bandwidth := 0 }

/-- The core of `sampleCore` with an upload bandwidth of 1000 kbit/s and no forced
up-bandwidth. -/
def sampleBandwidthCore : Core :=
  { sampleCore with uploadBandwidth := 1000 }

/-- The core of `sampleBandwidthCore` for a call whose parameters force an
up-bandwidth of 600 kbit/s. -/
def sampleForcedCore : Core :=
  { sampleCore with uploadBandwidth := 1000, upBandwidth := 600 }

/-- The members that a clone registered by `makeProfile` shares with the payload
type it was cloned from: mime type, clock rate, number and flags. -/
def OrtpPayloadType.identity (pt : OrtpPayloadType) : String × Int × Int × Nat :=
  (pt.mime_type, pt.clock_rate, pt.number, pt.flags)

/-- A PCMU payload type of number 0 that can be sent and carries an explicit
bitrate of 64000 bit/s. -/
def samplePcmu : OrtpPayloadType :=
  { mime_type := "PCMU"
    clock_rate := 8000
    normal_bitrate := 64000
    flags := PAYLOAD_TYPE_FLAG_CAN_SEND + PAYLOAD_TYPE_BITRATE_OVERRIDE
    number := 0
    send_fmtp := [] }

/-- A telephone-event payload type of number 101, mime type in mixed case. -/
def sampleTelephoneEvent : OrtpPayloadType :=
  { mime_type := "Telephone-Event"
    clock_rate := 8000
    normal_bitrate := 0
    flags := PAYLOAD_TYPE_FLAG_CAN_SEND
    number := 101
    send_fmtp := [] }

/-- A PCMA payload type that was given the number 0 as well, without explicit
bitrate. -/
def samplePcma : OrtpPayloadType :=
  { mime_type := "PCMA"
    clock_rate := 8000
    normal_bitrate := 0
    flags := PAYLOAD_TYPE_FLAG_CAN_SEND
    number := 0
    send_fmtp := [] }

/-- An audio stream description for which the remote side declares 24 kbit/s, with
the payload types telephone-event (101), PCMU (0) and PCMA (0 again). -/
def sampleAudioDescription : SalStreamDescription :=
  { sampleDescription SalStreamType.SalAudio with
    bandwidth := 24
    payloads := [sampleTelephoneEvent, samplePcmu, samplePcma] }

/-- The session description that holds `sampleAudioDescription` only. -/
def sampleAudioOnlyDescription : SalMediaDescription :=
  { streams := [sampleAudioDescription], bandwidth := 0 }

/-! ## Rendering the streams of a group -/

/-- Modelled from the spec: the bit `SAL_MEDIA_DESCRIPTION_NETWORK_XXXCAST_CHANGED`
of the change masks ("network cast type changed" of section 4.1), a constant of
a header that is not part of the sources.  The theorems do not depend on its
value. -/
def SAL_MEDIA_DESCRIPTION_NETWORK_XXXCAST_CHANGED : Nat := 32

/-- Modelled from the spec: `OfferAnswerContext::scopeStreamToIndexWithDiff`, which
is not part of the sources.  As section 4.1 says it scopes the context like
`scopeStreamToIndex` and stores the two change masks computed against the
retained context; `changes index` stands for the pair (local mask, result mask)
that this computation yields for `index`. -/
def OfferAnswerContext.scopeStreamToIndexWithDiff (params : OfferAnswerContext)
    (changes : Nat → Nat × Nat) (index : Nat) : OfferAnswerContext :=
  { params.scopeStreamToIndex index with
    localStreamDescriptionChanges := (changes index).1
    resultStreamDescriptionChanges := (changes index).2 }

/-- The test of `StreamsGroup::render` on the two change masks of the scoped
context: the cast (unicast or multicast) has changed. -/
def OfferAnswerContext.castChanged (ctx : OfferAnswerContext) : Bool :=
  (ctx.resultStreamDescriptionChanges &&& SAL_MEDIA_DESCRIPTION_NETWORK_XXXCAST_CHANGED != 0)
    || (ctx.localStreamDescriptionChanges &&& SAL_MEDIA_DESCRIPTION_NETWORK_XXXCAST_CHANGED != 0)

/-- `Stream::render`. -/
def Stream.render (s : Stream) : Stream :=
  { s with mState := State.Running }

/-- `MS2Stream::render`, reduced to the descriptions it dereferences and to its
last statement, the call of `Stream::render`.  It reads the result stream
description and the direction of the local one, and the RTCP-XR configuration of
the remote one unless the local direction is inactive; `none` when one of them
is null.  The configuration calls on the media engine are not modelled. -/
def MS2Stream.render (s : Stream) (ctx : OfferAnswerContext) : Option Stream :=
  match ctx.resultStreamDescription, ctx.localStreamDescription with
  | some _, some localStreamDescription =>
    if localStreamDescription.dir = SalStreamDir.SalStreamInactive then some s.render
    else
      match ctx.remoteStreamDescription with
      | some _ => some s.render
      | none => none
  | _, _ => none

namespace StreamsGroup

/-- `StreamsGroup::addPostRenderHook`; a hook is known by a number. -/
def addPostRenderHook (g : StreamsGroup) (l : Nat) : StreamsGroup :=
  { g with mPostRenderHooks := g.mPostRenderHooks ++ [l] }

/-- The last two statements of the body of the loop of `StreamsGroup::render`, for
the stream `streamPtr` that lives in `slot`: `finishPrepare` when it is
Preparing, then `render`. -/
def renderStream (st : SessionState) (ctx : OfferAnswerContext) (slot : Nat)
    (streamPtr : Stream) (effects : List GroupEffect) :
    Option (SessionState × List GroupEffect) :=
  match MS2Stream.render streamPtr ctx with
  | none => none
  | some rendered =>
    some ({ st with group := { st.group with
              mStreams := st.group.mStreams.set slot (some rendered) } },
      effects
        ++ (if streamPtr.getState = State.Preparing then [GroupEffect.finishPrepare streamPtr.ident]
            else [])
        ++ [GroupEffect.render streamPtr.ident])

/-- Body of the first loop of `StreamsGroup::render` for the slot at position `k`.
An empty slot is dereferenced (`none`).  On a cast change the stream is stopped
and `createStream` runs for the index of the stream: a null result is
dereferenced, and an index beyond the collection would resize the vector under
the running loop (both `none`). -/
def renderStep (core : Core) (changes : Nat → Nat × Nat) (params : OfferAnswerContext)
    (acc : SessionState × List GroupEffect) (k : Nat) :
    Option (SessionState × List GroupEffect) :=
  match acc.1.group.mStreams.getD k none with
  | none => none
  | some stream =>
    let ctx := params.scopeStreamToIndexWithDiff changes stream.getIndex
    if ctx.castChanged then
      let stopped := MS2Stream.stop core.listener stream
      let st1 : SessionState :=
        { acc.1 with group := { acc.1.group with
            mStreams := acc.1.group.mStreams.set k (some stopped.1) } }
      if stream.getIndex ≥ st1.group.mStreams.length then none
      else
        match createStream core st1 ctx with
        | some (st2, some created) =>
          renderStream st2 ctx stream.getIndex created
            (acc.2 ++ stopped.2.map (GroupEffect.streamEffect stream.ident))
        | _ => none
    else renderStream acc.1 ctx k stream acc.2

/-- Loop of `StreamsGroup::startDtls`: every slot is dereferenced. -/
def startDtlsLoop : List (Option Stream) → Option (List GroupEffect)
  | [] => some []
  | none :: _ => none
  | some stream :: rest =>
    match startDtlsLoop rest with
    | none => none
    | some effects => some (GroupEffect.startDtls stream.ident :: effects)

/-- `StreamsGroup::startDtls`. -/
def startDtls (g : StreamsGroup) : Option (List GroupEffect) :=
  startDtlsLoop g.mStreams

/-- `StreamsGroup::render`.  `changes` stands for the change masks of each index
(see `scopeStreamToIndexWithDiff`) and `hasCompleted` for what
`getIceAgent().hasCompleted()` returns when the function asks.  The context
retained at the end is the one passed to the function (`dupFrom` is not part of
the sources, and the scoping that the loop leaves in `params` is not tracked).
What a hook does when it is invoked is outside the model. -/
def render (core : Core) (changes : Nat → Nat × Nat) (hasCompleted : Bool)
    (params : OfferAnswerContext) (st : SessionState) :
    Option (SessionState × List GroupEffect) :=
  match (List.range st.group.mStreams.length).foldlM (renderStep core changes params)
      (st, []) with
  | none => none
  | some rendered =>
    let timer : List GroupEffect :=
      if !rendered.1.group.mBandwidthReportTimer then [GroupEffect.createTimer] else []
    let hooks : List GroupEffect := rendered.1.group.mPostRenderHooks.map GroupEffect.hook
    let ice : Option (List GroupEffect) :=
      if !hasCompleted then some [GroupEffect.startConnectivityChecks]
      else startDtls rendered.1.group
    match ice with
    | none => none
    | some iceEffects =>
      some ({ rendered.1 with group := { rendered.1.group with
                mBandwidthReportTimer := true
                mPostRenderHooks := []
                mCurrentOfferAnswerState := params } },
        rendered.2 ++ timer ++ hooks ++ iceEffects)

end StreamsGroup

/-- The context of an answered offer: the local, the remote and the result
description each have a unicast audio stream and a unicast video stream. -/
def sampleAnswer : OfferAnswerContext :=
  { localMediaDescription := some
      { streams := [sampleDescription SalStreamType.SalAudio,
                    sampleDescription SalStreamType.SalVideo]
        bandwidth := 0 }
    remoteMediaDescription := some
      { streams := [sampleDescription SalStreamType.SalAudio,
                    sampleDescription SalStreamType.SalVideo]
        bandwidth := 0 }
    resultMediaDescription := some
      { streams := [sampleDescription SalStreamType.SalAudio,
                    sampleDescription SalStreamType.SalVideo]
        bandwidth := 0 }
    localIsOfferer := true
    streamIndex := 0
    localStreamDescription := none
    remoteStreamDescription := none
    resultStreamDescription := none }

/-- The session state of `sampleTwoStreamState` after `prepare`: both streams are
Preparing. -/
def samplePreparingState : SessionState :=
  { group := StreamsGroup.ofSlots
      [some (Stream.sample 0 0 SalStreamType.SalAudio State.Preparing 7078 false false),
       some (Stream.sample 1 1 SalStreamType.SalVideo State.Preparing 9122 false false)]
    allocated := 2
    draws := 1 }

/-- Change masks of a render in which no description has changed. -/
def sampleNoChange : Nat → Nat × Nat :=
  fun _ => (0, 0)

/-- Change masks of a render in which the result description of the stream of
index 1 has changed its cast, and nothing else has changed. -/
def sampleCastChange : Nat → Nat × Nat :=
  fun index => if index = 1 then (0, SAL_MEDIA_DESCRIPTION_NETWORK_XXXCAST_CHANGED) else (0, 0)

/-! ## Classes of calls in the trace of a render -/

namespace GroupEffect

/-- The call is the invocation of a post-render hook. -/
def isHook : GroupEffect → Bool
  | hook _ => true
  | _ => false

/-- The call is the `render` of a stream. -/
def isRender : GroupEffect → Bool
  | render _ => true
  | _ => false

/-- The call is made by the loop over the streams: a call of the `stop` of a
stream, `finishPrepare` or `render`. -/
def isStreamLevel : GroupEffect → Bool
  | streamEffect _ _ => true
  | finishPrepare _ => true
  | render _ => true
  | _ => false

/-- The call is the `startDtls` of a stream. -/
def isStartDtls : GroupEffect → Bool
  | startDtls _ => true
  | _ => false

/-- The call starts the connectivity checks of the ICE agent or the DTLS
handshake of a stream. -/
def isIceOrDtls : GroupEffect → Bool
  | startConnectivityChecks => true
  | startDtls _ => true
  | _ => false

end GroupEffect

/-- The stream of every slot has the index of its slot, as `createStream` stores
the stream of index `i` in the slot `i`. -/
def StreamsGroup.indexed (g : StreamsGroup) : Prop :=
  ∀ (k : Nat) (s : Stream), g.mStreams[k]? = some (some s) → s.getIndex = k

/-- The streams that the group owns, in the order of their slots. -/
def StreamsGroup.ownedStreams (g : StreamsGroup) : List Stream :=
  g.mStreams.filterMap id

/-- The calls of `MS2Stream::stop` on the stream `s`, as calls of the group. -/
def StreamsGroup.stopCalls (listener : Bool) (s : Stream) : List GroupEffect :=
  (MS2Stream.stop listener s).2.map (GroupEffect.streamEffect s.ident)

/-- A rendered group with the given slots: it has a timer, an empty hook queue,
and retains `sampleAnswer`. -/
def sampleRenderedGroup (slots : List (Option Stream)) : StreamsGroup :=
  { mStreams := slots
    mBandwidthReportTimer := true
    mAudioBandwidth := 0
    mPostRenderHooks := []
    mCurrentOfferAnswerState := sampleAnswer }

/-- The session state after a render of `samplePreparingState` without change: the
two streams are Running. -/
def sampleRenderedState : SessionState :=
  { group := sampleRenderedGroup
      [some (Stream.sample 0 0 SalStreamType.SalAudio State.Running 7078 false false),
       some (Stream.sample 1 1 SalStreamType.SalVideo State.Running 9122 false false)]
    allocated := 2
    draws := 1 }

/-- The session state after a render of `samplePreparingState` with
`sampleCastChange`: the video stream is a new instance, the third allocated, on
port 9168. -/
def sampleRecastState : SessionState :=
  { group := sampleRenderedGroup
      [some (Stream.sample 0 0 SalStreamType.SalAudio State.Running 7078 false false),
       some (Stream.sample 2 1 SalStreamType.SalVideo State.Running 9168 false false)]
    allocated := 3
    draws := 2 }

/-- The calls of the render of `samplePreparingState` with the hooks 4 and 2
registered, without change, while ICE has not completed. -/
def sampleHookedTrace : List GroupEffect :=
  [GroupEffect.finishPrepare 0, GroupEffect.render 0, GroupEffect.finishPrepare 1,
   GroupEffect.render 1, GroupEffect.createTimer, GroupEffect.hook 4, GroupEffect.hook 2,
   GroupEffect.startConnectivityChecks]

/-- The calls of the render of `samplePreparingState` with `sampleCastChange` once
ICE has completed. -/
def sampleRecastTrace : List GroupEffect :=
  [GroupEffect.finishPrepare 0, GroupEffect.render 0]
    ++ StreamsGroup.stopCalls true
        (Stream.sample 1 1 SalStreamType.SalVideo State.Preparing 9122 false false)
    ++ [GroupEffect.render 2, GroupEffect.createTimer, GroupEffect.startDtls 0,
        GroupEffect.startDtls 2]

/-- What a render has done for the slot `k` that held the stream `old`, read off
the slot afterwards and the trace: the slot holds a Running stream of index `k`.
When the cast has changed (`changed`) this stream was allocated during the
render (`allocated` is the allocation count before it), and the round of the
slot, which follows `k` calls of `render`, is made of the calls of the `stop` of
`old` and of the `render` of the new stream.  Otherwise the stream is `old`,
rendered by the round of the slot. -/
def StreamsGroup.renderedSlot (listener changed : Bool) (allocated k : Nat) (old : Stream)
    (slot : Option (Option Stream)) (trace : List GroupEffect) : Prop :=
  ∃ new, slot = some (some new) ∧ new.getIndex = k ∧ new.getState = State.Running ∧
    (changed = true →
      allocated ≤ new.ident ∧
      ∃ pre post, trace = pre ++ StreamsGroup.stopCalls listener old
          ++ [GroupEffect.render new.ident] ++ post ∧
        pre.countP GroupEffect.isRender = k) ∧
    (changed = false →
      new = old.render ∧
      ∃ pre post, trace = pre ++ [GroupEffect.render old.ident] ++ post ∧
        pre.countP GroupEffect.isRender = k)

/-! ## Preparing the streams of a group -/

/-- `Stream::prepare`. -/
def Stream.prepare (s : Stream) : Stream :=
  { s with mState := State.Preparing }

namespace MS2Stream

/-- The local variables `rtpFunc` and `rtcpFunc` of `MS2Stream::prepare` after its
`switch` on the type of the stream.  Both stay null for the types text and
other. -/
def transportFuncs (rtptf : LinphoneRtpTransportFactory) (type : SalStreamType) :
    Option Bool × Option Bool :=
  match type with
  | SalStreamType.SalAudio => (rtptf.audio_rtp_func, rtptf.audio_rtcp_func)
  | SalStreamType.SalVideo => (rtptf.video_rtp_func, rtptf.video_rtcp_func)
  | SalStreamType.SalText => (none, none)
  | SalStreamType.SalOther => (none, none)

/-- The block of `MS2Stream::prepare` guarded by `getCCore()->rtptf`: for the RTP
and then for the RTCP transport, when the transport has no endpoint, the
function of the factory is called with the port and its result is installed as
endpoint.  The call of a null function pointer is `none`. -/
def prepareTransports (rtptf : LinphoneRtpTransportFactory) (s : Stream) :
    Option (Stream × List Effect) :=
  let rtp : Option (Stream × List Effect) :=
    if !s.rtpEndpoint then
      match (transportFuncs rtptf s.getType).1 with
      | none => none
      | some endpoint =>
        some ({ s with rtpEndpoint := endpoint },
          [Effect.metaRtpTransportSetEndpoint s.mPortConfig.rtpPort])
    else some (s, [])
  match rtp with
  | none => none
  | some r =>
    if !r.1.rtcpEndpoint then
      match (transportFuncs rtptf s.getType).2 with
      | none => none
      | some endpoint =>
        some ({ r.1 with rtcpEndpoint := endpoint },
          r.2 ++ [Effect.metaRtcpTransportSetEndpoint r.1.mPortConfig.rtcpPort])
    else some r

/-- `MS2Stream::prepare`: the block of the transport factory when the core has
one, then the ICE agent is prepared for the stream, the event timer is created
and stored in `mTimer`, and `Stream::prepare` runs.  The function does not look
at the state of the stream.  `none` is the call of a null function of the
factory. -/
def prepare (core : Core) (s : Stream) : Option (Stream × List Effect) :=
  let transports : Option (Stream × List Effect) :=
    match core.rtptf with
    | none => some (s, [])
    | some rtptf => prepareTransports rtptf s
  match transports with
  | none => none
  | some r =>
    some (Stream.prepare { r.1 with mTimer := true },
      r.2 ++ [Effect.prepareIceForStream, Effect.createTimer])

/-- The functions of the transport factory that `MS2Stream::prepare` would call for
the stream are present: the core has no factory, or each transport of the stream
has an endpoint already or a function of the factory for the type of the
stream. -/
def transportsAvailable (core : Core) (s : Stream) : Bool :=
  match core.rtptf with
  | none => true
  | some rtptf =>
    (s.rtpEndpoint || (transportFuncs rtptf s.getType).1.isSome)
      && (s.rtcpEndpoint || (transportFuncs rtptf s.getType).2.isSome)

/-- The calls of `meta_rtp_transport_set_endpoint` of a `prepare` that returns:
none without transport factory, otherwise one for each transport of the stream
that has no endpoint, RTP first. -/
def transportCalls (core : Core) (s : Stream) : List Effect :=
  match core.rtptf with
  | none => []
  | some _ =>
    (if s.rtpEndpoint then [] else [Effect.metaRtpTransportSetEndpoint s.mPortConfig.rtpPort])
      ++ (if s.rtcpEndpoint then []
          else [Effect.metaRtcpTransportSetEndpoint s.mPortConfig.rtcpPort])

/-- The stream after a `prepare` that returns: Preparing, with an event timer, and,
when the core has a transport factory, with the endpoints it had or those that
the functions of the factory returned. -/
def preparedStream (core : Core) (s : Stream) : Stream :=
  match core.rtptf with
  | none => { s with mTimer := true, mState := State.Preparing }
  | some rtptf =>
    { s with
      rtpEndpoint := s.rtpEndpoint || (transportFuncs rtptf s.getType).1 == some true
      rtcpEndpoint := s.rtcpEndpoint || (transportFuncs rtptf s.getType).2 == some true
      mTimer := true
      mState := State.Preparing }

end MS2Stream

namespace StreamsGroup

/-- Loop of `StreamsGroup::prepare`: every slot is dereferenced, and `prepare` is
called on the streams that are Stopped. -/
def prepareLoop (core : Core) :
    List (Option Stream) → Option (List (Option Stream) × List GroupEffect)
  | [] => some ([], [])
  | none :: _ => none
  | some stream :: rest =>
    match prepareLoop core rest with
    | none => none
    | some r =>
      if stream.getState = State.Stopped then
        match MS2Stream.prepare core stream with
        | none => none
        | some p =>
          some (some p.1 :: r.1, p.2.map (GroupEffect.streamEffect stream.ident) ++ r.2)
      else some (some stream :: r.1, r.2)

/-- `StreamsGroup::prepare`; the value it returns is always `false` and is not
modelled. -/
def prepare (core : Core) (g : StreamsGroup) : Option (StreamsGroup × List GroupEffect) :=
  match prepareLoop core g.mStreams with
  | none => none
  | some r => some ({ g with mStreams := r.1 }, r.2)

/-- The calls of a `MS2Stream::prepare` that returns on the stream `s`, as calls of
the group: the installation of the missing endpoints, the preparation of ICE
and the creation of the event timer. -/
def prepareCalls (core : Core) (s : Stream) : List GroupEffect :=
  (MS2Stream.transportCalls core s ++ [Effect.prepareIceForStream, Effect.createTimer]).map
    (GroupEffect.streamEffect s.ident)

/-- For every Stopped stream of the group the functions of the transport factory
that its `prepare` would call are present. -/
def transportsAvailable (core : Core) (g : StreamsGroup) : Bool :=
  g.ownedStreams.all (fun s => s.getState != State.Stopped || MS2Stream.transportsAvailable core s)

end StreamsGroup

/-- A core like `sampleCore` with a transport factory that has the four functions
for audio and video, each returning an endpoint. -/
def sampleFactoryCore : Core :=
  { audioPortRange := (7078, 7078)
    videoPortRange := (9078, 9178)
    textPortRange := (0, 0)
    audioMulticastEnabled := false
    videoMulticastEnabled := false
    audioMulticastAddr := "224.1.2.3"
    videoMulticastAddr := "224.1.2.3"
    calls := []
    sessionInCalls := true
    random := sampleRandom
    listener := true
    rtptf := some { audio_rtp_func := some true, audio_rtcp_func := some true,
                    video_rtp_func := some true, video_rtcp_func := some true } }

/-- A group with the Running audio stream `sampleAudioStream` and a Stopped video
stream on ports 9122 and 9123, none of them with a transport endpoint. -/
def sampleMixedGroup : StreamsGroup :=
  StreamsGroup.ofSlots
    [some sampleAudioStream,
     some (Stream.sample 1 1 SalStreamType.SalVideo State.Stopped 9122 false false)]

/-! ## Overall quality of a group -/

/-- Value of an expression of type `float`.  A finite value is a rational number:
the rounding of the floating-point operations is not modelled.  The two
infinities and NaN are the results that IEEE 754 gives to a division by zero. -/
inductive FloatValue where
  | finite (q : ℚ)
  | infinity (negative : Bool)
  | nan
  deriving DecidableEq, Repr

/-- The division `x / (float)n` of a finite `float` by an `int` converted to
`float`, as IEEE 754 defines it: a division by zero gives NaN for `x = 0` and
the infinity of the sign of `x` otherwise. -/
def floatDiv (x : ℚ) (n : Int) : FloatValue :=
  if n = 0 then
    if x = 0 then FloatValue.nan else FloatValue.infinity (decide (x < 0))
  else FloatValue.finite (x / (n : ℚ))

namespace StreamsGroup

/-- Loop of `StreamsGroup::computeOverallQuality` from the values `globalRating` and
`countedStreams`; `func` is the functor applied to every slot, which
dereferences it. -/
def computeOverallQualityLoop (func : Stream → ℚ) :
    List (Option Stream) → ℚ → Int → Option (ℚ × Int)
  | [], globalRating, countedStreams => some (globalRating, countedStreams)
  | none :: _, _, _ => none
  | some stream :: rest, globalRating, countedStreams =>
    if func stream ≠ -1 then
      if globalRating = -1 then
        computeOverallQualityLoop func rest (func stream) (countedStreams + 1)
      else
        computeOverallQualityLoop func rest (globalRating + func stream) (countedStreams + 1)
    else computeOverallQualityLoop func rest globalRating countedStreams

/-- `StreamsGroup::computeOverallQuality`. -/
def computeOverallQuality (func : Stream → ℚ) (g : StreamsGroup) : Option FloatValue :=
  match computeOverallQualityLoop func g.mStreams (-1) 0 with
  | none => none
  | some r => some (floatDiv r.1 r.2)

/-- `StreamsGroup::getAverageQuality`; `averageQuality` stands for the virtual
function `Stream::getAverageQuality`, which is not part of the sources. -/
def getAverageQuality (averageQuality : Stream → ℚ) (g : StreamsGroup) : Option FloatValue :=
  computeOverallQuality averageQuality g

/-- `StreamsGroup::getCurrentQuality`; `currentQuality` stands for the virtual
function `Stream::getCurrentQuality`, which is not part of the sources. -/
def getCurrentQuality (currentQuality : Stream → ℚ) (g : StreamsGroup) : Option FloatValue :=
  computeOverallQuality currentQuality g

/-- The quality values of the streams of a list of slots, in slot order, that are
not the sentinel -1. -/
def validRatingsOf (func : Stream → ℚ) (l : List (Option Stream)) : List ℚ :=
  ((l.filterMap id).map func).filter (fun q => q ≠ -1)

/-- The quality values that count for the overall quality: those of the owned
streams, in slot order, that are not the sentinel -1. -/
def validRatings (func : Stream → ℚ) (g : StreamsGroup) : List ℚ :=
  validRatingsOf func g.mStreams

end StreamsGroup

/-- Quality values for the streams of `sampleRunningGroup`: 4 for the audio stream,
3 for the video stream, and the sentinel -1 for every other stream. -/
def sampleQuality (s : Stream) : ℚ :=
  if s.ident = 0 then 4 else if s.ident = 1 then 3 else -1

/-! ## Verification of the authentication token -/

namespace StreamsGroup

/-- Loop of `StreamsGroup::lookupMainStream`: every slot is dereferenced until a
main stream of the type is found.  The outer `none` is the dereference of an
empty slot, `some none` the null result. -/
def lookupMainStreamLoop (type : SalStreamType) : List (Option Stream) → Option (Option Stream)
  | [] => some none
  | none :: _ => none
  | some stream :: rest =>
    if stream.isMain && stream.getType == type then some (some stream)
    else lookupMainStreamLoop type rest

/-- `StreamsGroup::lookupMainStream`. -/
def lookupMainStream (g : StreamsGroup) (type : SalStreamType) : Option (Option Stream) :=
  lookupMainStreamLoop type g.mStreams

/-- Modelled from the spec: the template `lookupMainStreamInterface<MS2Stream>` of
`streams-group.h`, which is not part of the sources.  It returns the main stream
of the type seen as an `MS2Stream`; every stream of the model is one. -/
def lookupMainStreamInterface (g : StreamsGroup) (type : SalStreamType) :
    Option (Option Stream) :=
  g.lookupMainStream type

/-- `StreamsGroup::setAuthTokenVerified`: the new group and the ZRTP calls made. -/
def setAuthTokenVerified (g : StreamsGroup) (value : Bool) :
    Option (StreamsGroup × List GroupEffect) :=
  match g.lookupMainStreamInterface SalStreamType.SalAudio with
  | none => none
  | some none => some (g, [])
  | some (some s) =>
    if s.getState ≠ State.Running then some (g, [])
    else if !s.zrtp_context then some (g, [])
    else
      some ({ g with mAuthTokenVerified := value },
        [if value then GroupEffect.zrtpSasVerified s.ident
         else GroupEffect.zrtpSasResetVerified s.ident])

/-- The main audio stream of a group without empty slot: the first stream in slot
order that is main and of type audio. -/
def mainAudioStream (g : StreamsGroup) : Option Stream :=
  g.ownedStreams.find? (fun s => s.isMain && s.getType == SalStreamType.SalAudio)

end StreamsGroup

/-- A group whose main audio stream is Running and has a ZRTP context; the
authentication token "abcd" is not verified. -/
def sampleZrtpGroup : StreamsGroup :=
  { mStreams := [some { sampleAudioStream with zrtp_context := true }]
    mBandwidthReportTimer := false
    mAudioBandwidth := 0
    mAuthToken := "abcd" }

/-! ## Adaptive rate control -/

namespace MS2Stream

/-- The local variable `videoWillBeUsed` of `MS2Stream::configureAdaptiveRateControl`.
`findBestStream` stands for `sal_media_description_find_best_stream`, which is
not part of the sources: what it returns for the pointer to the result
description and a type. -/
def videoWillBeUsed
    (findBestStream : Option SalMediaDescription → SalStreamType → Option SalStreamDescription)
    (params : OfferAnswerContext) : Bool :=
  match findBestStream params.resultMediaDescription SalStreamType.SalVideo with
  | some vstream => vstream.dir != SalStreamDir.SalStreamInactive && !vstream.payloads.isEmpty
  | none => false

/-- `MS2Stream::configureAdaptiveRateControl`, with the calls it makes on the media
stream and on the bandwidth controller.  The result stream description is
dereferenced only when the algorithm asks for the advanced mode. -/
def configureAdaptiveRateControl (core : Core)
    (findBestStream : Option SalMediaDescription → SalStreamType → Option SalStreamDescription)
    (s : Stream) (params : OfferAnswerContext) : Option (List Effect) :=
  let videoWillBeUsed : Bool := videoWillBeUsed findBestStream params
  let enabled : Bool := core.adaptiveRateControlEnabled
  if !enabled then some [Effect.enableAdaptiveBitrateControl false]
  else
    let isAdvanced : Bool :=
      if core.adaptiveRateAlgorithm = "basic" then false
      else if core.adaptiveRateAlgorithm = "advanced" then true
      else true
    let basic : List Effect :=
      [Effect.setAdaptiveBitrateAlgorithmSimple,
       Effect.enableAdaptiveBitrateControl
         (if s.getType = SalStreamType.SalAudio && videoWillBeUsed then false else enabled)]
    if isAdvanced then
      match params.resultStreamDescription with
      | none => none
      | some resultStreamDescription =>
        if !resultStreamDescription.rtcp_fb_tmmbr_enabled then some basic
        else some [Effect.bandwidthControllerAddStream, Effect.enableAdaptiveBitrateControl false]
    else some basic

end MS2Stream

/-- A core like `sampleCore` in which adaptive rate control is enabled with the
algorithm "advanced". -/
def sampleAdvancedCore : Core :=
  { audioPortRange := (7078, 7078)
    videoPortRange := (9078, 9178)
    textPortRange := (0, 0)
    audioMulticastEnabled := false
    videoMulticastEnabled := false
    audioMulticastAddr := "224.1.2.3"
    videoMulticastAddr := "224.1.2.3"
    calls := []
    sessionInCalls := true
    random := sampleRandom
    listener := true
    adaptiveRateControlEnabled := true
    adaptiveRateAlgorithm := "advanced" }

/-- The first stream of the given type, for the concrete instances of
`findBestStream`. -/
def sampleFindBestStream (md : Option SalMediaDescription) (type : SalStreamType) :
    Option SalStreamDescription :=
  md.bind (fun d => d.streams.find? (fun l => l.type == type))

/-- A context scoped to the audio stream of a result description that has an audio
stream with TMMBR (or without, as `tmmbr` tells) and a video stream with one
codec. -/
def sampleRateContext (tmmbr : Bool) : OfferAnswerContext :=
  { localMediaDescription := none
    remoteMediaDescription := none
    resultMediaDescription := some
      { streams := [{ sampleDescription SalStreamType.SalAudio with
                      rtcp_fb_tmmbr_enabled := tmmbr },
                    { sampleDescription SalStreamType.SalVideo with
                      payloads := [{ mime_type := "VP8", clock_rate := 90000,
                                     normal_bitrate := 0, flags := 0, number := 96,
                                     send_fmtp := [] }] }]
        bandwidth := 0 }
    localIsOfferer := true
    streamIndex := 0
    localStreamDescription := none
    remoteStreamDescription := none
    resultStreamDescription := some
      { sampleDescription SalStreamType.SalAudio with rtcp_fb_tmmbr_enabled := tmmbr } }

/-- The session state of `sampleTwoStreamState` after `StreamsGroup::prepare`: both
streams are Preparing and hold their event timer. -/
def samplePreparedState : SessionState :=
  { group := StreamsGroup.ofSlots
      [some { Stream.sample 0 0 SalStreamType.SalAudio State.Preparing 7078 false false with
              mTimer := true },
       some { Stream.sample 1 1 SalStreamType.SalVideo State.Preparing 9122 false false with
              mTimer := true }]
    allocated := 2
    draws := 1 }

/-! ## The event pump of a stream -/

/-- Modelled from the spec: the types of the events of the oRTP event queue that
`MS2Stream::handleEvents` distinguishes, constants of a header that is not part
of the sources; `other` stands for every other type. -/
inductive OrtpEventType where
  | ORTP_EVENT_RTCP_PACKET_RECEIVED
  | ORTP_EVENT_ZRTP_ENCRYPTION_CHANGED
  | ORTP_EVENT_DTLS_ENCRYPTION_CHANGED
  | ORTP_EVENT_ICE_SESSION_PROCESSING_FINISHED
  | ORTP_EVENT_ICE_GATHERING_FINISHED
  | ORTP_EVENT_ICE_LOSING_PAIRS_COMPLETED
  | ORTP_EVENT_ICE_RESTART_NEEDED
  | other (code : Nat)
  deriving DecidableEq, Repr

/-- An event of the queue: its type and, for a received RTCP packet, the maximum
bitrates of the TMMBR feedback packets that the walk over the compound packet
meets, in order (none when the packet is null or holds no TMMBR). -/
structure OrtpEvent where
  type : OrtpEventType
  tmmbr : List Int := []
  deriving DecidableEq, Repr

/-- Modelled from the spec: the field `type` of a `MediaStream` of the media
engine; `other` stands for a type that the pump does not support. -/
inductive MSStreamType where
  | MSAudio
  | MSVideo
  | MSText
  | other
  deriving DecidableEq, Repr

/-- Calls made by `MS2Stream::handleEvents`, in call order. -/
inductive PumpEffect where
  | setIceCheckListNull
  | iterate (type : MSStreamType)
  | onTmmbrReceived (index : Nat) (maxBitrate : Int)
  | statsFill (ev : OrtpEvent)
  | notifyStatsUpdated
  | propagateEncryptionChanged
  | handleIceEvents (ev : OrtpEvent)
  | handleEvent (ev : OrtpEvent)
  | eventDestroy (ev : OrtpEvent)
  deriving DecidableEq, Repr

namespace OrtpEventType

/-- The event tells that the ZRTP or the DTLS encryption has changed. -/
def isEncryptionChanged : OrtpEventType → Bool
  | ORTP_EVENT_ZRTP_ENCRYPTION_CHANGED => true
  | ORTP_EVENT_DTLS_ENCRYPTION_CHANGED => true
  | _ => false

/-- The event is one of the four ICE events. -/
def isIce : OrtpEventType → Bool
  | ORTP_EVENT_ICE_SESSION_PROCESSING_FINISHED => true
  | ORTP_EVENT_ICE_GATHERING_FINISHED => true
  | ORTP_EVENT_ICE_LOSING_PAIRS_COMPLETED => true
  | ORTP_EVENT_ICE_RESTART_NEEDED => true
  | _ => false

end OrtpEventType

/-- The event that a call forwards to the handler of ICE events of the session. -/
def PumpEffect.iceEvent : PumpEffect → Option OrtpEvent
  | PumpEffect.handleIceEvents ev => some ev
  | _ => none

namespace MS2Stream

/-- The `switch` on the type of the event in the loop of `handleEvents`. -/
def handleEventsSwitch (s : Stream) (ev : OrtpEvent) : List PumpEffect :=
  match ev.type with
  | OrtpEventType.ORTP_EVENT_ZRTP_ENCRYPTION_CHANGED =>
    if s.getType ≠ SalStreamType.SalAudio || !s.isMain then
      [PumpEffect.propagateEncryptionChanged]
    else []
  | OrtpEventType.ORTP_EVENT_DTLS_ENCRYPTION_CHANGED =>
    if s.getType ≠ SalStreamType.SalAudio || !s.isMain then
      [PumpEffect.propagateEncryptionChanged]
    else []
  | OrtpEventType.ORTP_EVENT_ICE_SESSION_PROCESSING_FINISHED => [PumpEffect.handleIceEvents ev]
  | OrtpEventType.ORTP_EVENT_ICE_GATHERING_FINISHED => [PumpEffect.handleIceEvents ev]
  | OrtpEventType.ORTP_EVENT_ICE_LOSING_PAIRS_COMPLETED => [PumpEffect.handleIceEvents ev]
  | OrtpEventType.ORTP_EVENT_ICE_RESTART_NEEDED => [PumpEffect.handleIceEvents ev]
  | _ => []

/-- Body of the loop of `MS2Stream::handleEvents` for one dequeued event.
`listener` tells whether `getCallSessionListener()` is non-null (it is
dereferenced without test for a TMMBR packet: `none`) and `ms` whether
`getMediaStream()` is. -/
def handleEventsStep (listener ms : Bool) (s : Stream) (ev : OrtpEvent) :
    Option (List PumpEffect) :=
  let tmmbr : Option (List PumpEffect) :=
    if ev.type = OrtpEventType.ORTP_EVENT_RTCP_PACKET_RECEIVED then
      if ev.tmmbr = [] then some []
      else if listener then some (ev.tmmbr.map (PumpEffect.onTmmbrReceived s.getIndex))
      else none
    else some []
  match tmmbr with
  | none => none
  | some calls =>
    some (calls ++ (if ms then [PumpEffect.statsFill ev] else [])
      ++ [PumpEffect.notifyStatsUpdated] ++ handleEventsSwitch s ev
      ++ [PumpEffect.handleEvent ev, PumpEffect.eventDestroy ev])

/-- The loop of `MS2Stream::handleEvents` over the events it dequeues. -/
def handleEventsLoop (listener ms : Bool) (s : Stream) :
    List OrtpEvent → Option (List PumpEffect)
  | [] => some []
  | ev :: rest =>
    match handleEventsStep listener ms s ev with
    | none => none
    | some calls =>
      match handleEventsLoop listener ms s rest with
      | none => none
      | some more => some (calls ++ more)

/-- `MS2Stream::handleEvents`.  `ms` is what `getMediaStream()` returns, taken to
be the same throughout, and `hasSession` what `getIceAgent().hasSession()`
returns; `queue` is `none` when `mOrtpEvQueue` is null and otherwise the events
that the loop dequeues, in order.  A media stream of an unsupported type makes
the function return before the loop.  The build is one with `VIDEO_ENABLED`. -/
def handleEvents (listener hasSession : Bool) (ms : Option MSStreamType)
    (queue : Option (List OrtpEvent)) (s : Stream) : Option (List PumpEffect) :=
  let dangling : List PumpEffect :=
    if !hasSession then [PumpEffect.setIceCheckListNull] else []
  let loop : Option (List PumpEffect) :=
    match queue with
    | none => some []
    | some events => handleEventsLoop listener ms.isSome s events
  match ms with
  | none => loop
  | some MSStreamType.other => some dangling
  | some type => loop.map (fun calls => dangling ++ [PumpEffect.iterate type] ++ calls)

end MS2Stream

/-- A queue with a ZRTP event, an ICE event, an RTCP packet with one TMMBR of
64000 bit/s and a DTLS event. -/
def sampleQueue : List OrtpEvent :=
  [{ type := OrtpEventType.ORTP_EVENT_ZRTP_ENCRYPTION_CHANGED },
   { type := OrtpEventType.ORTP_EVENT_ICE_GATHERING_FINISHED },
   { type := OrtpEventType.ORTP_EVENT_RTCP_PACKET_RECEIVED, tmmbr := [64000] },
   { type := OrtpEventType.ORTP_EVENT_DTLS_ENCRYPTION_CHANGED }]

/-- The calls of one round of the pump for the event `ev` when the media stream
exists and the event carries no TMMBR: `switch` stands for the calls of the
`switch` on the type of the event. -/
def sampleRound (ev : OrtpEvent) (switch : List PumpEffect) : List PumpEffect :=
  [PumpEffect.statsFill ev, PumpEffect.notifyStatsUpdated] ++ switch
    ++ [PumpEffect.handleEvent ev, PumpEffect.eventDestroy ev]

/-- The calls of the pump of a video stream of index 1 for `sampleQueue`: the two
changes of encryption are propagated and the ICE event is forwarded. -/
def samplePumpCalls : List PumpEffect :=
  [PumpEffect.iterate MSStreamType.MSVideo]
    ++ sampleRound { type := OrtpEventType.ORTP_EVENT_ZRTP_ENCRYPTION_CHANGED }
        [PumpEffect.propagateEncryptionChanged]
    ++ sampleRound { type := OrtpEventType.ORTP_EVENT_ICE_GATHERING_FINISHED }
        [PumpEffect.handleIceEvents { type := OrtpEventType.ORTP_EVENT_ICE_GATHERING_FINISHED }]
    ++ [PumpEffect.onTmmbrReceived 1 64000]
    ++ sampleRound { type := OrtpEventType.ORTP_EVENT_RTCP_PACKET_RECEIVED, tmmbr := [64000] } []
    ++ sampleRound { type := OrtpEventType.ORTP_EVENT_DTLS_ENCRYPTION_CHANGED }
        [PumpEffect.propagateEncryptionChanged]

/-! ## Other loops over all slots -/

namespace StreamsGroup

/-- Loop of `StreamsGroup::isStarted`: every slot is dereferenced until a Running
stream is found. -/
def isStartedLoop : List (Option Stream) → Option Bool
  | [] => some false
  | none :: _ => none
  | some stream :: rest =>
    if stream.getState = State.Running then some true else isStartedLoop rest

/-- `StreamsGroup::isStarted`. -/
def isStarted (g : StreamsGroup) : Option Bool :=
  isStartedLoop g.mStreams

/-- Loop of `StreamsGroup::getActiveStreamsCount` from the value `ret`: every slot
is dereferenced. -/
def getActiveStreamsCountLoop : List (Option Stream) → Nat → Option Nat
  | [], ret => some ret
  | none :: _, _ => none
  | some stream :: rest, ret =>
    if stream.getState = State.Running then getActiveStreamsCountLoop rest (ret + 1)
    else getActiveStreamsCountLoop rest ret

/-- `StreamsGroup::getActiveStreamsCount`. -/
def getActiveStreamsCount (g : StreamsGroup) : Option Nat :=
  getActiveStreamsCountLoop g.mStreams 0

end StreamsGroup

/-- The statistics type that a call of `onUpdateMediaInfoForReporting` carries. -/
def Effect.statsType : Effect → Option LinphoneCallStats
  | Effect.onUpdateMediaInfoForReporting statsType => some statsType
  | _ => none

/-! # Theorems -/

/-! ## Aggregates of the group: `allStreamsEncrypted` and `isMuted` -/

namespace StreamsGroup

theorem allStreamsEncryptedLoop_spec (l : List (Option Stream)) :
    ∀ (c : Int), 0 ≤ c → (∀ slot ∈ l, slot ≠ none) →
      ∃ b, allStreamsEncryptedLoop l c = some b ∧
        (b = true ↔
          (0 < c ∨ ∃ s, some s ∈ l ∧ s.getState = State.Running) ∧
          (∀ s, some s ∈ l → s.getState = State.Running → s.isEncrypted = true)) := by
  induction l with
  | nil =>
    intro c _ _
    refine ⟨decide (c > 0), rfl, ?_⟩
    simp
  | cons slot rest ih =>
    intro c hc hfull
    have hrest : ∀ x ∈ rest, x ≠ none := fun x hx => hfull x (List.mem_cons_of_mem _ hx)
    cases slot with
    | none => exact absurd rfl (hfull none (List.mem_cons_self _ _))
    | some stream =>
      by_cases hrun : stream.getState = State.Running
      · by_cases henc : stream.isEncrypted = true
        · obtain ⟨b, hb, hiff⟩ := ih (c + 1) (by omega) hrest
          refine ⟨b, by simp [allStreamsEncryptedLoop, hrun, henc, hb], ?_⟩
          rw [hiff]
          constructor
          · rintro ⟨_, hall⟩
            refine ⟨Or.inr ⟨stream, List.mem_cons_self _ _, hrun⟩, ?_⟩
            intro s hs hr
            rcases List.mem_cons.mp hs with h | h
            · cases h; exact henc
            · exact hall s h hr
          · rintro ⟨_, hall⟩
            exact ⟨Or.inl (by omega), fun s hs hr => hall s (List.mem_cons_of_mem _ hs) hr⟩
        · refine ⟨false, by simp [allStreamsEncryptedLoop, hrun, henc], ?_⟩
          constructor
          · intro h; cases h
          · rintro ⟨_, hall⟩
            exact absurd (hall stream (List.mem_cons_self _ _) hrun) henc
      · obtain ⟨b, hb, hiff⟩ := ih c hc hrest
        refine ⟨b, by simp [allStreamsEncryptedLoop, hrun, hb], ?_⟩
        rw [hiff]
        constructor
        · rintro ⟨hex, hall⟩
          refine ⟨?_, ?_⟩
          · rcases hex with h | ⟨s, hs, hr⟩
            · exact Or.inl h
            · exact Or.inr ⟨s, List.mem_cons_of_mem _ hs, hr⟩
          · intro s hs hr
            rcases List.mem_cons.mp hs with h | h
            · cases h; exact absurd hr hrun
            · exact hall s h hr
        · rintro ⟨hex, hall⟩
          refine ⟨?_, fun s hs hr => hall s (List.mem_cons_of_mem _ hs) hr⟩
          rcases hex with h | ⟨s, hs, hr⟩
          · exact Or.inl h
          · rcases List.mem_cons.mp hs with h | h
            · cases h; exact absurd hr hrun
            · exact Or.inr ⟨s, h, hr⟩

/-- C1 at a group with an empty slot: `sampleSparseGroup` is what `createStreams`
builds for `sampleOtherOffer`, none of its streams is Running, and
`allStreamsEncrypted` dereferences the empty slot instead of returning false. -/
theorem allStreamsEncrypted_empty_slot :
    (createStreams sampleCore sampleOtherOffer sampleEmptyState).map (fun st => st.group) =
      some sampleSparseGroup ∧
    (∀ s, sampleSparseGroup.owns s → s.getState ≠ State.Running) ∧
    sampleSparseGroup.allStreamsEncrypted = none ∧
    sampleSparseGroup.allStreamsEncrypted ≠ some false := by
  refine ⟨by decide, ?_, by decide, by decide⟩
  intro s hs
  have hmem : some s ∈
      [none, some (Stream.sample 0 1 SalStreamType.SalAudio State.Stopped 7078 false false)] := hs
  simp only [List.mem_cons, Option.some.injEq, List.mem_singleton, List.not_mem_nil,
    or_false] at hmem
  rcases hmem with h | h
  · cases h
  · subst h
    decide

/-- Contract of `allStreamsEncrypted` on a group whose slots all hold a stream: it
returns a boolean, and it returns true exactly when at least one owned stream is
Running and every owned Running stream reports encrypted.  It returns false when
no owned stream is Running, and false when some owned Running stream is not
encrypted, whatever the other streams report. -/
theorem allStreamsEncrypted_spec (g : StreamsGroup) (hfull : g.noEmptySlot) :
    (g.allStreamsEncrypted = some true ∨ g.allStreamsEncrypted = some false) ∧
    (g.allStreamsEncrypted = some true ↔
      (∃ s, g.owns s ∧ s.getState = State.Running) ∧
      (∀ s, g.owns s → s.getState = State.Running → s.isEncrypted = true)) ∧
    ((∀ s, g.owns s → s.getState ≠ State.Running) → g.allStreamsEncrypted = some false) ∧
    ((∃ s, g.owns s ∧ s.getState = State.Running ∧ s.isEncrypted = false) →
      g.allStreamsEncrypted = some false) := by
  obtain ⟨b, hb, hiff⟩ := allStreamsEncryptedLoop_spec g.mStreams 0 (le_refl 0) hfull
  have hiff2 : b = true ↔
      (∃ s, g.owns s ∧ s.getState = State.Running) ∧
      (∀ s, g.owns s → s.getState = State.Running → s.isEncrypted = true) := by
    rw [hiff]; simp [owns]
  have hval : g.allStreamsEncrypted = some b := hb
  refine ⟨?_, ?_, ?_, ?_⟩
  · cases b
    · exact Or.inr hval
    · exact Or.inl hval
  · rw [hval]
    constructor
    · intro h; exact hiff2.mp (by simpa using h)
    · intro h; rw [hiff2.mpr h]
  · intro hnone
    cases b
    · exact hval
    · obtain ⟨⟨s, hs, hr⟩, _⟩ := hiff2.mp rfl
      exact absurd hr (hnone s hs)
  · rintro ⟨s, hs, hr, hne⟩
    cases b
    · exact hval
    · have := (hiff2.mp rfl).2 s hs hr
      rw [hne] at this; cases this

/-- Instance of `allStreamsEncrypted_spec` at `sampleRunningGroup`. -/
theorem allStreamsEncrypted_spec_witness :
    sampleRunningGroup.noEmptySlot ∧
    ((sampleRunningGroup.allStreamsEncrypted = some true ∨
        sampleRunningGroup.allStreamsEncrypted = some false) ∧
    (sampleRunningGroup.allStreamsEncrypted = some true ↔
      (∃ s, sampleRunningGroup.owns s ∧ s.getState = State.Running) ∧
      (∀ s, sampleRunningGroup.owns s → s.getState = State.Running → s.isEncrypted = true)) ∧
    ((∀ s, sampleRunningGroup.owns s → s.getState ≠ State.Running) →
      sampleRunningGroup.allStreamsEncrypted = some false) ∧
    ((∃ s, sampleRunningGroup.owns s ∧ s.getState = State.Running ∧ s.isEncrypted = false) →
      sampleRunningGroup.allStreamsEncrypted = some false)) :=
  ⟨by decide, allStreamsEncrypted_spec sampleRunningGroup (by decide)⟩

theorem isMutedLoop_spec (l : List (Option Stream)) (hfull : ∀ slot ∈ l, slot ≠ none) :
    ∃ b, isMutedLoop l = some b ∧
      (b = true ↔ ∀ s, some s ∈ l → s.getState = State.Running → s.isMuted = true) := by
  induction l with
  | nil => exact ⟨true, rfl, by simp⟩
  | cons slot rest ih =>
    have hrest : ∀ x ∈ rest, x ≠ none := fun x hx => hfull x (List.mem_cons_of_mem _ hx)
    cases slot with
    | none => exact absurd rfl (hfull none (List.mem_cons_self _ _))
    | some stream =>
      obtain ⟨b, hb, hiff⟩ := ih hrest
      by_cases hrun : stream.getState = State.Running
      · by_cases hm : stream.isMuted = true
        · refine ⟨b, by simp [isMutedLoop, hrun, hm, hb], ?_⟩
          rw [hiff]
          constructor
          · intro hall s hs hr
            rcases List.mem_cons.mp hs with h | h
            · cases h; exact hm
            · exact hall s h hr
          · intro hall s hs hr
            exact hall s (List.mem_cons_of_mem _ hs) hr
        · refine ⟨false, by simp [isMutedLoop, hrun, hm], ?_⟩
          constructor
          · intro h; cases h
          · intro hall
            exact absurd (hall stream (List.mem_cons_self _ _) hrun) hm
      · refine ⟨b, by simp [isMutedLoop, hrun, hb], ?_⟩
        rw [hiff]
        constructor
        · intro hall s hs hr
          rcases List.mem_cons.mp hs with h | h
          · cases h; exact absurd hr hrun
          · exact hall s h hr
        · intro hall s hs hr
          exact hall s (List.mem_cons_of_mem _ hs) hr

/-- C2 at a group with an empty slot: none of the streams of `sampleSparseGroup`
(what `createStreams` builds for `sampleOtherOffer`) is Running, and `isMuted`
dereferences the empty slot instead of returning true. -/
theorem isMuted_empty_slot :
    (createStreams sampleCore sampleOtherOffer sampleEmptyState).map (fun st => st.group) =
      some sampleSparseGroup ∧
    (∀ s, sampleSparseGroup.owns s → s.getState ≠ State.Running) ∧
    sampleSparseGroup.isMuted = none ∧
    sampleSparseGroup.isMuted ≠ some true := by
  refine ⟨by decide, ?_, by decide, by decide⟩
  intro s hs
  have hmem : some s ∈
      [none, some (Stream.sample 0 1 SalStreamType.SalAudio State.Stopped 7078 false false)] := hs
  simp only [List.mem_cons, Option.some.injEq, List.mem_singleton, List.not_mem_nil,
    or_false] at hmem
  rcases hmem with h | h
  · cases h
  · subst h
    decide

/-- Contract of `isMuted` on a group whose slots all hold a stream: it returns a
boolean, and it returns true exactly when every owned Running stream reports
muted.  It returns true when no owned stream is Running and false when some
owned Running stream is not muted; the condition reads the Running streams
only. -/
theorem isMuted_spec (g : StreamsGroup) (hfull : g.noEmptySlot) :
    (g.isMuted = some true ∨ g.isMuted = some false) ∧
    (g.isMuted = some true ↔
      ∀ s, g.owns s → s.getState = State.Running → s.isMuted = true) ∧
    ((∀ s, g.owns s → s.getState ≠ State.Running) → g.isMuted = some true) ∧
    ((∃ s, g.owns s ∧ s.getState = State.Running ∧ s.isMuted = false) →
      g.isMuted = some false) := by
  obtain ⟨b, hb, hiff⟩ := isMutedLoop_spec g.mStreams hfull
  have hval : g.isMuted = some b := hb
  have hiff2 : b = true ↔ ∀ s, g.owns s → s.getState = State.Running → s.isMuted = true := hiff
  refine ⟨?_, ?_, ?_, ?_⟩
  · cases b
    · exact Or.inr hval
    · exact Or.inl hval
  · rw [hval]
    constructor
    · intro h; exact hiff2.mp (by simpa using h)
    · intro h; rw [hiff2.mpr h]
  · intro hnone
    rw [hval, hiff2.mpr (fun s hs hr => absurd hr (hnone s hs))]
  · rintro ⟨s, hs, hr, hne⟩
    cases b
    · exact hval
    · have := hiff2.mp rfl s hs hr
      rw [hne] at this; cases this

/-- Instance of `isMuted_spec` at `sampleRunningGroup`. -/
theorem isMuted_spec_witness :
    sampleRunningGroup.noEmptySlot ∧
    ((sampleRunningGroup.isMuted = some true ∨ sampleRunningGroup.isMuted = some false) ∧
    (sampleRunningGroup.isMuted = some true ↔
      ∀ s, sampleRunningGroup.owns s → s.getState = State.Running → s.isMuted = true) ∧
    ((∀ s, sampleRunningGroup.owns s → s.getState ≠ State.Running) →
      sampleRunningGroup.isMuted = some true) ∧
    ((∃ s, sampleRunningGroup.owns s ∧ s.getState = State.Running ∧ s.isMuted = false) →
      sampleRunningGroup.isMuted = some false)) :=
  ⟨by decide, isMuted_spec sampleRunningGroup (by decide)⟩

end StreamsGroup

/-! ## Stopping a stream twice -/

namespace MS2Stream

end MS2Stream

/-! ## Ports in use -/

namespace StreamsGroup

theorem stream_isPortUsed_eq_true (s : Stream) (port : Int) :
    s.isPortUsed port = true ↔
      (s.mPortConfig.rtpPort = port ∨ s.mPortConfig.rtcpPort = port) := by
  simp only [Stream.isPortUsed, Bool.or_eq_true, beq_iff_eq]
  constructor
  · rintro (h | h)
    · exact Or.inl h.symm
    · exact Or.inr h.symm
  · rintro (h | h)
    · exact Or.inl h.symm
    · exact Or.inr h.symm

theorem isPortUsedLoop_iff (l : List (Option Stream)) (port : Int) :
    isPortUsedLoop l port = true ↔
      ∃ s, some s ∈ l ∧ (s.mPortConfig.rtpPort = port ∨ s.mPortConfig.rtcpPort = port) := by
  induction l with
  | nil => simp [isPortUsedLoop]
  | cons slot rest ih =>
    have key : isPortUsedLoop (slot :: rest) port = true ↔
        ((∃ s, slot = some s ∧ s.isPortUsed port = true) ∨ isPortUsedLoop rest port = true) := by
      cases slot with
      | none => simp [isPortUsedLoop]
      | some stream =>
        by_cases hu : stream.isPortUsed port = true <;> simp [isPortUsedLoop, hu]
    rw [key, ih]
    constructor
    · rintro (⟨s, hs, hu⟩ | ⟨s, hs, h⟩)
      · exact ⟨s, by rw [hs]; exact List.mem_cons_self _ _,
          (stream_isPortUsed_eq_true s port).mp hu⟩
      · exact ⟨s, List.mem_cons_of_mem _ hs, h⟩
    · rintro ⟨s, hs, h⟩
      rcases List.mem_cons.mp hs with h1 | h1
      · exact Or.inl ⟨s, h1.symm, (stream_isPortUsed_eq_true s port).mpr h⟩
      · exact Or.inr ⟨s, h1, h⟩

/-- C8, as stated, fails at the port value -1: the only stream of
`sampleAutomaticGroup` has RTP port -1 and RTCP port -1, yet `isPortUsed(-1)` is
false. -/
theorem isPortUsed_counterexample :
    (∃ s, sampleAutomaticGroup.owns s ∧
      (s.mPortConfig.rtpPort = -1 ∨ s.mPortConfig.rtcpPort = -1)) ∧
    sampleAutomaticGroup.isPortUsed (-1) = false :=
  ⟨⟨Stream.fresh 0 SalStreamType.SalAudio 0, by decide, Or.inl rfl⟩, by decide⟩

/-- C8, amended: for every group and every port value, `isPortUsed(port)` is true
exactly when the value is not -1 and the RTP port or the RTCP port of some owned
stream equals it; `isPortUsed(-1)` is false for every group. -/
theorem isPortUsed_iff (g : StreamsGroup) (port : Int) :
    (g.isPortUsed port = true ↔
      port ≠ -1 ∧
      ∃ s, g.owns s ∧ (s.mPortConfig.rtpPort = port ∨ s.mPortConfig.rtcpPort = port)) ∧
    g.isPortUsed (-1) = false := by
  refine ⟨?_, by simp [isPortUsed]⟩
  by_cases hp : port = -1
  · simp [isPortUsed, hp]
  · simp only [isPortUsed, hp, if_false, ne_eq, not_false_eq_true, true_and]
    exact isPortUsedLoop_iff g.mStreams port

end StreamsGroup

/-! ## Port selection -/

theorem alreadyUsed_iff (calls : List StreamsGroup) (p : Int) :
    alreadyUsed calls p = true ↔ ∃ g ∈ calls, g.isPortUsed p = true := by
  induction calls with
  | nil => simp [alreadyUsed]
  | cons g rest ih =>
    by_cases hg : g.isPortUsed p = true
    · simp [alreadyUsed, hg]
    · simp [alreadyUsed, hg, ih]

theorem alreadyUsed_false_iff (calls : List StreamsGroup) (p : Int) :
    alreadyUsed calls p = false ↔ ∀ g ∈ calls, g.isPortUsed p = false := by
  rw [← Bool.not_eq_true, alreadyUsed_iff]
  simp

namespace Stream

theorem selectFixedPortLoop_spec (calls : List StreamsGroup) (portRange : Int × Int) :
    ∀ (fuel : Nat) (t : Int), portRange.1 + 100 - t ≤ 2 * (fuel : Int) →
      (∃ k : Nat, t + 2 * (k : Int) < portRange.1 + 100 ∧
        selectFixedPortLoop calls portRange fuel t = t + 2 * (k : Int) ∧
        alreadyUsed calls (t + 2 * (k : Int)) = false ∧
        ∀ j : Nat, j < k → alreadyUsed calls (t + 2 * (j : Int)) = true) ∨
      (selectFixedPortLoop calls portRange fuel t = -1 ∧
        ∀ k : Nat, t + 2 * (k : Int) < portRange.1 + 100 →
          alreadyUsed calls (t + 2 * (k : Int)) = true) := by
  intro fuel
  induction fuel with
  | zero =>
    intro t ht
    right
    refine ⟨rfl, ?_⟩
    intro k hk
    exfalso
    have : (0 : Int) ≤ (k : Int) := Int.ofNat_nonneg k
    simp at ht
    omega
  | succ fuel ih =>
    intro t ht
    by_cases hlt : t < portRange.1 + 100
    · by_cases hu : alreadyUsed calls t = true
      · have hstep : selectFixedPortLoop calls portRange (fuel + 1) t =
            selectFixedPortLoop calls portRange fuel (t + 2) := by
          simp [selectFixedPortLoop, hlt, hu]
        have hfuel : portRange.1 + 100 - (t + 2) ≤ 2 * (fuel : Int) := by
          push_cast at ht
          omega
        rcases ih (t + 2) hfuel with ⟨k, hk, hres, hfree, hbefore⟩ | ⟨hres, hall⟩
        · left
          refine ⟨k + 1, ?_, ?_, ?_, ?_⟩
          · push_cast; omega
          · rw [hstep, hres]; push_cast; ring
          · have e : t + 2 * ((k + 1 : Nat) : Int) = t + 2 + 2 * (k : Int) := by
              push_cast; ring
            rw [e]; exact hfree
          · intro j hj
            cases j with
            | zero => simpa using hu
            | succ j =>
              have e : t + 2 * ((j + 1 : Nat) : Int) = t + 2 + 2 * (j : Int) := by
                push_cast; ring
              rw [e]; exact hbefore j (by omega)
        · right
          refine ⟨by rw [hstep, hres], ?_⟩
          intro k hk
          cases k with
          | zero => simpa using hu
          | succ k =>
            have e : t + 2 * ((k + 1 : Nat) : Int) = t + 2 + 2 * (k : Int) := by
              push_cast; ring
            rw [e]
            apply hall k
            rw [← e]; exact hk
      · left
        refine ⟨0, by simpa using hlt, ?_, ?_, ?_⟩
        · simp [selectFixedPortLoop, hlt, hu]
        · simpa using hu
        · intro j hj; omega
    · right
      refine ⟨by simp [selectFixedPortLoop, hlt], ?_⟩
      intro k hk
      exfalso
      have : (0 : Int) ≤ (k : Int) := Int.ofNat_nonneg k
      omega

/-- The port returned by `selectFixedPort` does not depend on the bound of the
recursion, as soon as that bound covers the fifty iterations of the loop. -/
theorem selectFixedPortLoop_fuel (calls : List StreamsGroup) (portRange : Int × Int) :
    ∀ (fuel : Nat) (t : Int), portRange.1 + 100 - t ≤ 2 * (fuel : Int) →
      selectFixedPortLoop calls portRange (fuel + 1) t =
        selectFixedPortLoop calls portRange fuel t := by
  intro fuel
  induction fuel with
  | zero =>
    intro t ht
    have hlt : ¬ t < portRange.1 + 100 := by simp at ht; omega
    simp [selectFixedPortLoop, hlt]
  | succ fuel ih =>
    intro t ht
    by_cases hlt : t < portRange.1 + 100
    · by_cases hu : alreadyUsed calls t = true
      · have h1 : selectFixedPortLoop calls portRange (fuel + 1 + 1) t =
            selectFixedPortLoop calls portRange (fuel + 1) (t + 2) := by
          simp [selectFixedPortLoop, hlt, hu]
        have h2 : selectFixedPortLoop calls portRange (fuel + 1) t =
            selectFixedPortLoop calls portRange fuel (t + 2) := by
          simp [selectFixedPortLoop, hlt, hu]
        rw [h1, h2]
        apply ih
        push_cast at ht
        omega
      · simp [selectFixedPortLoop, hlt, hu]
    · simp [selectFixedPortLoop, hlt]

end Stream

namespace Stream

/-- C5, as stated, fails for an odd port: with port 7079 in use (it is the RTCP
port of the stream of `sampleAudioGroup`), the selection for the fixed range
[7079, 7079] returns 7081, which is free, above 7079 and odd. -/
theorem selectFixedPort_counterexample :
    (0 : Int) < 7079 ∧
    alreadyUsed [sampleAudioGroup] 7079 = true ∧
    selectFixedPort [sampleAudioGroup] (7079, 7079) = 7081 ∧
    ¬ (selectFixedPort [sampleAudioGroup] (7079, 7079) = -1 ∨
        selectFixedPort [sampleAudioGroup] (7079, 7079) % 2 = 0) := by
  decide

/-- C5, amended: for every port P that is in use (P > 0 or not) and every list of
active stream groups, the selection for the fixed range [P, P] returns either -1 or a
port q with q >= P, q != P, q of the parity of P (so q is even when P is even),
q not in use by the stream group of any call, found at try number k + 1 for
some k < 50, hence within 100 tries, all candidates probed before it being in
use. -/
theorem selectFixedPort_in_use (calls : List StreamsGroup) (P : Int)
    (hused : alreadyUsed calls P = true) :
    selectFixedPort calls (P, P) = -1 ∨
    (selectFixedPort calls (P, P) ≥ P ∧
      selectFixedPort calls (P, P) ≠ P ∧
      (selectFixedPort calls (P, P) - P) % 2 = 0 ∧
      (P % 2 = 0 → selectFixedPort calls (P, P) % 2 = 0) ∧
      (∀ g ∈ calls, g.isPortUsed (selectFixedPort calls (P, P)) = false) ∧
      ∃ k : Nat, k < 50 ∧ selectFixedPort calls (P, P) = P + 2 * (k : Int) ∧
        ∀ j : Nat, j < k → alreadyUsed calls (P + 2 * (j : Int)) = true) := by
  have hspec := selectFixedPortLoop_spec calls (P, P) 100 P (by simp)
  rcases hspec with ⟨k, hk, hres, hfree, hbefore⟩ | ⟨hres, _⟩
  · right
    have hq : selectFixedPort calls (P, P) = P + 2 * (k : Int) := hres
    have hk0 : k ≠ 0 := by
      intro h0
      rw [h0] at hfree
      simp [hused] at hfree
    have hk50 : k < 50 := by
      simp only at hk
      omega
    rw [hq]
    refine ⟨by omega, by omega, by omega, by intro h; omega, ?_, k, hk50, rfl, hbefore⟩
    exact (alreadyUsed_false_iff calls _).mp hfree
  · left
    exact hres

/-- Instance of `selectFixedPort_in_use`: port 7078 is in use by `sampleAudioGroup`. -/
theorem selectFixedPort_in_use_witness :
    alreadyUsed [sampleAudioGroup] 7078 = true ∧
    (selectFixedPort [sampleAudioGroup] (7078, 7078) = -1 ∨
    (selectFixedPort [sampleAudioGroup] (7078, 7078) ≥ 7078 ∧
      selectFixedPort [sampleAudioGroup] (7078, 7078) ≠ 7078 ∧
      (selectFixedPort [sampleAudioGroup] (7078, 7078) - 7078) % 2 = 0 ∧
      ((7078 : Int) % 2 = 0 → selectFixedPort [sampleAudioGroup] (7078, 7078) % 2 = 0) ∧
      (∀ g ∈ [sampleAudioGroup],
        g.isPortUsed (selectFixedPort [sampleAudioGroup] (7078, 7078)) = false) ∧
      ∃ k : Nat, k < 50 ∧ selectFixedPort [sampleAudioGroup] (7078, 7078) = 7078 + 2 * (k : Int) ∧
        ∀ j : Nat, j < k → alreadyUsed [sampleAudioGroup] (7078 + 2 * (j : Int)) = true)) :=
  ⟨by decide, selectFixedPort_in_use [sampleAudioGroup] 7078 (by decide)⟩

/-- C6, as stated, fails: after fifty calls on the ports 7078, 7080, ..., 7176 the
candidate 7178 = 7078 + 100 is free, yet the selection for the fixed range
[7078, 7078] returns -1. -/
theorem selectFixedPort_probes_counterexample :
    alreadyUsed sampleFiftyCalls (7078 + 2 * 50) = false ∧
    selectFixedPort sampleFiftyCalls (7078, 7078) = -1 := by
  decide

/-- C6, amended: for a fixed range [P, P] with P > 0, `selectFixedPort` probes the
fifty candidates P, P+2, ..., P+98 (those below P + 100) in ascending order.
Whenever at least one of them is not in use by the stream group of any call, it
returns the lowest such candidate, and not -1; when all fifty are in use it
returns -1. -/
theorem selectFixedPort_lowest_free (calls : List StreamsGroup) (P : Int) (hP : 0 < P) :
    ((∃ k : Nat, k < 50 ∧ alreadyUsed calls (P + 2 * (k : Int)) = false) →
      ∃ k : Nat, k < 50 ∧ selectFixedPort calls (P, P) = P + 2 * (k : Int) ∧
        selectFixedPort calls (P, P) ≠ -1 ∧
        (∀ g ∈ calls, g.isPortUsed (P + 2 * (k : Int)) = false) ∧
        ∀ j : Nat, j < k → alreadyUsed calls (P + 2 * (j : Int)) = true) ∧
    ((∀ k : Nat, k < 50 → alreadyUsed calls (P + 2 * (k : Int)) = true) →
      selectFixedPort calls (P, P) = -1) := by
  have hspec := selectFixedPortLoop_spec calls (P, P) 100 P (by simp)
  constructor
  · rintro ⟨k0, hk0, hfree0⟩
    rcases hspec with ⟨k, hk, hres, hfree, hbefore⟩ | ⟨_, hall⟩
    · have hq : selectFixedPort calls (P, P) = P + 2 * (k : Int) := hres
      have hk50 : k < 50 := by
        simp only at hk
        omega
      refine ⟨k, hk50, hq, by rw [hq]; omega, ?_, hbefore⟩
      exact (alreadyUsed_false_iff calls _).mp hfree
    · have := hall k0 (by simp only; omega)
      rw [hfree0] at this
      cases this
  · intro hall
    rcases hspec with ⟨k, hk, _, hfree, _⟩ | ⟨hres, _⟩
    · have hk50 : k < 50 := by
        simp only at hk
        omega
      have := hall k hk50
      rw [hfree] at this
      cases this
    · exact hres

/-- Instance of `selectFixedPort_lowest_free` at port 7078 with `sampleAudioGroup`. -/
theorem selectFixedPort_lowest_free_witness :
    (0 : Int) < 7078 ∧
    (((∃ k : Nat, k < 50 ∧ alreadyUsed [sampleAudioGroup] (7078 + 2 * (k : Int)) = false) →
      ∃ k : Nat, k < 50 ∧ selectFixedPort [sampleAudioGroup] (7078, 7078) = 7078 + 2 * (k : Int) ∧
        selectFixedPort [sampleAudioGroup] (7078, 7078) ≠ -1 ∧
        (∀ g ∈ [sampleAudioGroup], g.isPortUsed (7078 + 2 * (k : Int)) = false) ∧
        ∀ j : Nat, j < k → alreadyUsed [sampleAudioGroup] (7078 + 2 * (j : Int)) = true) ∧
    ((∀ k : Nat, k < 50 → alreadyUsed [sampleAudioGroup] (7078 + 2 * (k : Int)) = true) →
      selectFixedPort [sampleAudioGroup] (7078, 7078) = -1)) :=
  ⟨by decide, selectFixedPort_lowest_free [sampleAudioGroup] 7078 (by decide)⟩

end Stream

namespace Stream

theorem randomTriedPort_spec (a b : Int) (r : Nat) (ha : 0 < a) (hab : a < b)
    (hb : b < 2 ^ 31) :
    ∃ k : Int, randomTriedPort (a, b) r = a + k ∧ k % 2 = 0 ∧ 0 ≤ k ∧ k < b - a := by
  have hsize : toUInt32 (b - a) = (b - a).toNat := by
    unfold toUInt32
    rw [Int.emod_eq_of_lt (by omega) (by norm_num at hb ⊢; omega)]
  have hpos : 0 < (b - a).toNat := by omega
  let x : Nat := ((r % 2 ^ 32) % (b - a).toNat) &&& 0xFFFFFFFE
  have hxle : x ≤ (r % 2 ^ 32) % (b - a).toNat := Nat.and_le_left
  have hxlt : x < (b - a).toNat := lt_of_le_of_lt hxle (Nat.mod_lt _ hpos)
  have hxeven : x % 2 = 0 := by
    have h := @Nat.and_mod_two_eq_one ((r % 2 ^ 32) % (b - a).toNat) 0xFFFFFFFE
    have hne : ¬ (x % 2 = 1) := by
      intro h1
      have := (h.mp h1).2
      norm_num at this
    omega
  have hx31 : x < 2 ^ 31 := by
    have : ((b - a).toNat : Int) < 2 ^ 31 := by
      rw [Int.toNat_of_nonneg (by omega)]; omega
    have h2 : (b - a).toNat < 2 ^ 31 := by exact_mod_cast this
    omega
  have hcast : toInt32 x = (x : Int) := by
    unfold toInt32
    have hmod : x % 2 ^ 32 = x := Nat.mod_eq_of_lt (by omega)
    rw [hmod, if_pos hx31]
  refine ⟨(x : Int), ?_, by omega, by omega, ?_⟩
  · show toInt32 (((r % 2 ^ 32) % toUInt32 (b - a)) &&& 0xFFFFFFFE) + a = a + (x : Int)
    rw [hsize, hcast]
    ring
  · have : ((b - a).toNat : Int) = b - a := Int.toNat_of_nonneg (by omega)
    omega

theorem selectRandomPortLoop_spec (random : Nat → Nat) (calls : List StreamsGroup)
    (portRange : Int × Int) :
    ∀ (fuel n draws : Nat), 100 - n ≤ fuel →
      (∃ i : Nat, n + i < 100 ∧
        (selectRandomPortLoop random calls portRange fuel n draws).1 =
          randomTriedPort portRange (random (draws + i)) ∧
        alreadyUsed calls (randomTriedPort portRange (random (draws + i))) = false ∧
        (selectRandomPortLoop random calls portRange fuel n draws).2 = draws + i + 1 ∧
        ∀ j : Nat, j < i →
          alreadyUsed calls (randomTriedPort portRange (random (draws + j))) = true) ∨
      (selectRandomPortLoop random calls portRange fuel n draws = (-1, draws + (100 - n)) ∧
        ∀ i : Nat, n + i < 100 →
          alreadyUsed calls (randomTriedPort portRange (random (draws + i))) = true) := by
  intro fuel
  induction fuel with
  | zero =>
    intro n draws hn
    right
    have h100 : 100 - n = 0 := by omega
    refine ⟨by simp [selectRandomPortLoop, h100], ?_⟩
    intro i hi; omega
  | succ fuel ih =>
    intro n draws hn
    by_cases hlt : n < 100
    · by_cases hu : alreadyUsed calls (randomTriedPort portRange (random draws)) = true
      · have hstep : selectRandomPortLoop random calls portRange (fuel + 1) n draws =
            selectRandomPortLoop random calls portRange fuel (n + 1) (draws + 1) := by
          simp [selectRandomPortLoop, hlt, hu]
        rcases ih (n + 1) (draws + 1) (by omega) with
          ⟨i, hi, hres, hfree, hcount, hbefore⟩ | ⟨hres, hall⟩
        · left
          have e : draws + (i + 1) = draws + 1 + i := by omega
          refine ⟨i + 1, by omega, ?_, ?_, ?_, ?_⟩
          · rw [hstep, hres, e]
          · rw [e]; exact hfree
          · rw [hstep, hcount]; omega
          · intro j hj
            cases j with
            | zero => simpa using hu
            | succ j =>
              have e2 : draws + (j + 1) = draws + 1 + j := by omega
              rw [e2]; exact hbefore j (by omega)
        · right
          refine ⟨?_, ?_⟩
          · rw [hstep, hres]
            have : draws + 1 + (100 - (n + 1)) = draws + (100 - n) := by omega
            rw [this]
          · intro i hi
            cases i with
            | zero => simpa using hu
            | succ i =>
              have e2 : draws + (i + 1) = draws + 1 + i := by omega
              rw [e2]; exact hall i (by omega)
      · left
        refine ⟨0, by omega, ?_, ?_, ?_, ?_⟩
        · simp [selectRandomPortLoop, hlt, hu]
        · simpa using hu
        · simp [selectRandomPortLoop, hlt, hu]
        · intro j hj; omega
    · right
      have h100 : 100 - n = 0 := by omega
      refine ⟨by simp [selectRandomPortLoop, hlt, h100], ?_⟩
      intro i hi; omega

/-- The result of the loop of `selectRandomPort` does not depend on the bound of
the recursion, as soon as that bound covers the remaining tries. -/
theorem selectRandomPortLoop_fuel (random : Nat → Nat) (calls : List StreamsGroup)
    (portRange : Int × Int) :
    ∀ (fuel n draws : Nat), 100 - n ≤ fuel →
      selectRandomPortLoop random calls portRange (fuel + 1) n draws =
        selectRandomPortLoop random calls portRange fuel n draws := by
  intro fuel
  induction fuel with
  | zero =>
    intro n draws hn
    have hlt : ¬ n < 100 := by omega
    simp [selectRandomPortLoop, hlt]
  | succ fuel ih =>
    intro n draws hn
    by_cases hlt : n < 100
    · by_cases hu : alreadyUsed calls (randomTriedPort portRange (random draws)) = true
      · have h1 : selectRandomPortLoop random calls portRange (fuel + 1 + 1) n draws =
            selectRandomPortLoop random calls portRange (fuel + 1) (n + 1) (draws + 1) := by
          simp [selectRandomPortLoop, hlt, hu]
        have h2 : selectRandomPortLoop random calls portRange (fuel + 1) n draws =
            selectRandomPortLoop random calls portRange fuel (n + 1) (draws + 1) := by
          simp [selectRandomPortLoop, hlt, hu]
        rw [h1, h2]
        exact ih (n + 1) (draws + 1) (by omega)
      · simp [selectRandomPortLoop, hlt, hu]
    · simp [selectRandomPortLoop, hlt]

/-- C7: for every port range [a, b] with 0 < a < b (b an `int`, below 2^31), every
sequence of random draws and every list of active stream groups,
`selectRandomPort` returns either -1 or a port p = a + k with k even and
0 <= k < b - a, not in use by the stream group of any call; and it returns -1
only when each of the 100 drawn candidates was in use. -/
theorem selectRandomPort_spec (random : Nat → Nat) (calls : List StreamsGroup) (a b : Int)
    (draws : Nat) (ha : 0 < a) (hab : a < b) (hb : b < 2 ^ 31) :
    ((selectRandomPort random calls (a, b) draws).1 = -1 ∨
      ∃ k : Int, k % 2 = 0 ∧ 0 ≤ k ∧ k < b - a ∧
        (selectRandomPort random calls (a, b) draws).1 = a + k ∧
        a ≤ (selectRandomPort random calls (a, b) draws).1 ∧
        (selectRandomPort random calls (a, b) draws).1 < b ∧
        ∀ g ∈ calls, g.isPortUsed (selectRandomPort random calls (a, b) draws).1 = false) ∧
    ((selectRandomPort random calls (a, b) draws).1 = -1 →
      ∀ i : Nat, i < 100 →
        alreadyUsed calls (randomTriedPort (a, b) (random (draws + i))) = true) := by
  have hspec := selectRandomPortLoop_spec random calls (a, b) 100 0 draws (by omega)
  rcases hspec with ⟨i, _, hres, hfree, _, _⟩ | ⟨hres, hall⟩
  · have hsel : (selectRandomPort random calls (a, b) draws).1 =
        randomTriedPort (a, b) (random (draws + i)) := hres
    obtain ⟨k, hk, heven, h0, hlt⟩ := randomTriedPort_spec a b (random (draws + i)) ha hab hb
    constructor
    · right
      refine ⟨k, heven, h0, hlt, by rw [hsel, hk], by rw [hsel, hk]; omega,
        by rw [hsel, hk]; omega, ?_⟩
      rw [hsel]
      exact (alreadyUsed_false_iff calls _).mp hfree
    · intro hm
      exfalso
      rw [hsel, hk] at hm
      omega
  · have hsel : selectRandomPort random calls (a, b) draws = (-1, draws + (100 - 0)) := hres
    constructor
    · left; rw [hsel]
    · intro _ i hi
      exact hall i (by omega)

end Stream

namespace Stream

/-- Instance of `selectRandomPort_spec` on the port range [9078, 9178]. -/
theorem selectRandomPort_spec_witness :
    (0 : Int) < 9078 ∧ (9078 : Int) < 9178 ∧ (9178 : Int) < 2 ^ 31 ∧
    (((selectRandomPort sampleRandom [sampleAudioGroup] (9078, 9178) 0).1 = -1 ∨
      ∃ k : Int, k % 2 = 0 ∧ 0 ≤ k ∧ k < 9178 - 9078 ∧
        (selectRandomPort sampleRandom [sampleAudioGroup] (9078, 9178) 0).1 = 9078 + k ∧
        9078 ≤ (selectRandomPort sampleRandom [sampleAudioGroup] (9078, 9178) 0).1 ∧
        (selectRandomPort sampleRandom [sampleAudioGroup] (9078, 9178) 0).1 < 9178 ∧
        ∀ g ∈ [sampleAudioGroup],
          g.isPortUsed (selectRandomPort sampleRandom [sampleAudioGroup] (9078, 9178) 0).1
            = false) ∧
    ((selectRandomPort sampleRandom [sampleAudioGroup] (9078, 9178) 0).1 = -1 →
      ∀ i : Nat, i < 100 →
        alreadyUsed [sampleAudioGroup]
          (randomTriedPort (9078, 9178) (sampleRandom (0 + i))) = true)) :=
  ⟨by decide, by decide, by decide,
    selectRandomPort_spec sampleRandom [sampleAudioGroup] 9078 9178 0
      (by decide) (by decide) (by decide)⟩

/-! ## Port configuration after construction -/

theorem setPortConfig_ports (random : Nat → Nat) (calls : List StreamsGroup) (s : Stream)
    (portRange : Int × Int) (draws : Nat) :
    (portSelectionSucceeded random calls portRange draws →
      (s.setPortConfig random calls portRange draws).1.mPortConfig.rtpPort =
        selectedPort random calls portRange draws ∧
      (s.setPortConfig random calls portRange draws).1.mPortConfig.rtcpPort =
        selectedPort random calls portRange draws + 1) ∧
    (¬ portSelectionSucceeded random calls portRange draws →
      (s.setPortConfig random calls portRange draws).1.mPortConfig.rtpPort = -1 ∧
      (s.setPortConfig random calls portRange draws).1.mPortConfig.rtcpPort = -1) := by
  obtain ⟨a, b⟩ := portRange
  unfold portSelectionSucceeded selectedPort
  by_cases h0 : a ≤ 0 ∧ b ≤ 0
  · simp [setPortConfig, h0, setRandomPortConfig]
  · by_cases heq : a = b
    · subst heq
      have ha : ¬ a ≤ 0 := fun h => h0 ⟨h, h⟩
      by_cases hsel : selectFixedPort calls (a, a) = -1
      · simp [setPortConfig, ha, hsel, setRandomPortConfig]
      · simp [setPortConfig, ha, hsel, setRandomPortConfig]
    · by_cases hsel : (selectRandomPort random calls (a, b) draws).1 = -1
      · simp [setPortConfig, h0, heq, hsel, setRandomPortConfig]
      · simp [setPortConfig, h0, heq, hsel, setRandomPortConfig]

theorem setPortConfig_rest (random : Nat → Nat) (calls : List StreamsGroup) (s : Stream)
    (portRange : Int × Int) (draws : Nat) :
    (s.setPortConfig random calls portRange draws).1.mStreamType = s.mStreamType ∧
    (s.setPortConfig random calls portRange draws).1.mIndex = s.mIndex ∧
    (s.setPortConfig random calls portRange draws).1.mState = s.mState ∧
    (s.setPortConfig random calls portRange draws).1.ident = s.ident := by
  unfold setPortConfig
  simp only
  split_ifs <;> simp [setRandomPortConfig]

end Stream

namespace Stream

theorem fillMulticastMediaAddresses_rest (core : Core) (s : Stream) :
    (s.fillMulticastMediaAddresses core).mPortConfig.rtpPort = s.mPortConfig.rtpPort ∧
    (s.fillMulticastMediaAddresses core).mPortConfig.rtcpPort = s.mPortConfig.rtcpPort ∧
    (s.fillMulticastMediaAddresses core).mStreamType = s.mStreamType ∧
    (s.fillMulticastMediaAddresses core).mIndex = s.mIndex ∧
    (s.fillMulticastMediaAddresses core).mState = s.mState ∧
    (s.fillMulticastMediaAddresses core).ident = s.ident := by
  unfold fillMulticastMediaAddresses
  simp only
  split_ifs <;> simp

end Stream

namespace MS2Stream

theorem initMulticast_rest (s s1 : Stream) (params : OfferAnswerContext)
    (h : initMulticast s params = some s1) :
    s1.mStreamType = s.mStreamType ∧ s1.mIndex = s.mIndex ∧ s1.mState = s.mState ∧
    s1.ident = s.ident ∧ s1.mPortConfig.rtcpPort = s.mPortConfig.rtcpPort := by
  unfold initMulticast at h
  cases hrole : multicastRoleOf params with
  | none => rw [hrole] at h; cases h
  | some role =>
    rw [hrole] at h
    simp only at h
    split_ifs at h with hrecv
    · cases hremote : params.remoteStreamDescription with
      | none => rw [hremote] at h; cases h
      | some remote =>
        rw [hremote] at h
        simp only [Option.some.injEq] at h
        subst h
        simp
    · simp only [Option.some.injEq] at h
      subst h
      simp

theorem initMulticast_not_receiver (s : Stream) (params : OfferAnswerContext)
    (role : SalMulticastRole) (hrole : multicastRoleOf params = some role)
    (hne : role ≠ SalMulticastRole.SalMulticastReceiver) :
    initMulticast s params =
      some { s with mPortConfig := { s.mPortConfig with multicastRole := role } } := by
  unfold initMulticast
  rw [hrole]
  simp [hne]

/-- C4, as stated, fails for a multicast receiver: on the fixed audio port 7078 with
no other call the selection succeeds (it returns 7078), yet the stream built
for `sampleMulticastOffer` has RTP port 0 and RTCP port 7079. -/
theorem construct_ports_counterexample :
    Stream.portSelectionSucceeded sampleCore.random []
      (Stream.portRangeOfType sampleCore SalStreamType.SalAudio) 0 ∧
    (construct sampleCore [] (sampleMulticastOffer.scopeStreamToIndex 0) 0 0).map
      (fun r => (r.1.mPortConfig.rtpPort, r.1.mPortConfig.rtcpPort)) = some (0, 7079) := by
  decide

/-- C4, amended: for every stream built for a context whose local stream
description is present and whose multicast role is not receiver, for every
configured port range and every state of the stream groups of the calls:
construction returns the stream; if fixed or ranged port selection succeeded its
RTP port is the selected port and its RTCP port is the RTP port plus one, and
otherwise (no range configured, or no free port found) both ports are -1. -/
theorem construct_ports (core : Core) (calls : List StreamsGroup) (params : OfferAnswerContext)
    (ident draws : Nat) (l : SalStreamDescription) (role : SalMulticastRole)
    (hl : params.localStreamDescription = some l)
    (hrole : multicastRoleOf params = some role)
    (hne : role ≠ SalMulticastRole.SalMulticastReceiver) :
    ∃ s d, construct core calls params ident draws = some (s, d) ∧
      s.mPortConfig.multicastRole = role ∧
      (Stream.portSelectionSucceeded core.random calls (Stream.portRangeOfType core l.type) draws →
        s.mPortConfig.rtpPort =
          Stream.selectedPort core.random calls (Stream.portRangeOfType core l.type) draws ∧
        s.mPortConfig.rtcpPort = s.mPortConfig.rtpPort + 1) ∧
      (¬ Stream.portSelectionSucceeded core.random calls (Stream.portRangeOfType core l.type)
          draws →
        s.mPortConfig.rtpPort = -1 ∧ s.mPortConfig.rtcpPort = -1) := by
  have hports := Stream.setPortConfig_ports core.random calls
    (Stream.fresh ident l.type params.streamIndex) (Stream.portRangeOfType core l.type) draws
  have hfill := Stream.fillMulticastMediaAddresses_rest core
    ((Stream.fresh ident l.type params.streamIndex).setPortConfig core.random calls
      (Stream.portRangeOfType core l.type) draws).1
  have hbase : Stream.construct core calls params ident draws =
      some ((((Stream.fresh ident l.type params.streamIndex).setPortConfig core.random calls
        (Stream.portRangeOfType core l.type) draws).1.fillMulticastMediaAddresses core),
        ((Stream.fresh ident l.type params.streamIndex).setPortConfig core.random calls
          (Stream.portRangeOfType core l.type) draws).2) := by
    unfold Stream.construct
    rw [hl]
    rfl
  have hcons : construct core calls params ident draws =
      some ({ (((Stream.fresh ident l.type params.streamIndex).setPortConfig core.random calls
          (Stream.portRangeOfType core l.type) draws).1.fillMulticastMediaAddresses core) with
          mPortConfig :=
            { (((Stream.fresh ident l.type params.streamIndex).setPortConfig core.random calls
                (Stream.portRangeOfType core l.type)
                draws).1.fillMulticastMediaAddresses core).mPortConfig with
              multicastRole := role } },
        ((Stream.fresh ident l.type params.streamIndex).setPortConfig core.random calls
          (Stream.portRangeOfType core l.type) draws).2) := by
    unfold construct
    rw [hbase]
    simp only
    rw [initMulticast_not_receiver _ params role hrole hne]
  refine ⟨_, _, hcons, rfl, ?_, ?_⟩
  · intro hs
    obtain ⟨h1, h2⟩ := hports.1 hs
    simp only
    rw [hfill.1, hfill.2.1, h1, h2]
    exact ⟨rfl, rfl⟩
  · intro hs
    obtain ⟨h1, h2⟩ := hports.2 hs
    simp only
    rw [hfill.1, hfill.2.1, h1, h2]
    exact ⟨rfl, rfl⟩

/-- Instance of `construct_ports`: the audio stream of `sampleOffer` on the fixed
audio port 7078. -/
theorem construct_ports_witness :
    (sampleOffer.scopeStreamToIndex 0).localStreamDescription =
      some (sampleDescription SalStreamType.SalAudio) ∧
    multicastRoleOf (sampleOffer.scopeStreamToIndex 0) =
      some SalMulticastRole.SalMulticastInactive ∧
    SalMulticastRole.SalMulticastInactive ≠ SalMulticastRole.SalMulticastReceiver ∧
    ∃ s d, construct sampleCore [] (sampleOffer.scopeStreamToIndex 0) 0 0 = some (s, d) ∧
      s.mPortConfig.multicastRole = SalMulticastRole.SalMulticastInactive ∧
      (Stream.portSelectionSucceeded sampleCore.random []
          (Stream.portRangeOfType sampleCore (sampleDescription SalStreamType.SalAudio).type) 0 →
        s.mPortConfig.rtpPort =
          Stream.selectedPort sampleCore.random []
            (Stream.portRangeOfType sampleCore (sampleDescription SalStreamType.SalAudio).type) 0 ∧
        s.mPortConfig.rtcpPort = s.mPortConfig.rtpPort + 1) ∧
      (¬ Stream.portSelectionSucceeded sampleCore.random []
          (Stream.portRangeOfType sampleCore (sampleDescription SalStreamType.SalAudio).type) 0 →
        s.mPortConfig.rtpPort = -1 ∧ s.mPortConfig.rtcpPort = -1) :=
  ⟨by decide, by decide, by decide,
    construct_ports sampleCore [] (sampleOffer.scopeStreamToIndex 0) 0 0
      (sampleDescription SalStreamType.SalAudio) SalMulticastRole.SalMulticastInactive
      (by decide) (by decide) (by decide)⟩

end MS2Stream

/-! ## Creation of streams -/

namespace StreamsGroup

theorem getStream_eq (g : StreamsGroup) (j : Nat) : g.getStream j = g.mStreams.getD j none := by
  unfold getStream
  split_ifs with h
  · rw [List.getD_eq_getElem?_getD, List.getElem?_eq_none (by omega)]
    rfl
  · rfl

theorem length_resizeFor (slots : List (Option Stream)) (i : Nat) :
    i < (resizeFor slots i).length := by
  unfold resizeFor
  split_ifs with h
  · simp; omega
  · omega

theorem getD_resizeFor (slots : List (Option Stream)) (i j : Nat) :
    (resizeFor slots i).getD j none = slots.getD j none := by
  unfold resizeFor
  split_ifs with h
  · simp only [List.getD_eq_getElem?_getD]
    by_cases hj : j < slots.length
    · rw [List.getElem?_append_left hj]
    · rw [List.getElem?_append_right (by omega), List.getElem?_eq_none (l := slots) (by omega)]
      by_cases hj2 : j - slots.length < i + 1 - slots.length
      · rw [List.getElem?_replicate_of_lt hj2]
        rfl
      · rw [List.getElem?_eq_none (by simp; omega)]
  · rfl

theorem getD_set_resizeFor (slots : List (Option Stream)) (i j : Nat) (a : Option Stream) :
    ((resizeFor slots i).set i a).getD j none = if j = i then a else slots.getD j none := by
  have hlen := length_resizeFor slots i
  simp only [List.getD_eq_getElem?_getD, List.getElem?_set]
  by_cases hji : j = i
  · subst hji
    simp [hlen]
  · have : ¬ i = j := fun h => hji h.symm
    simp only [this, hji, if_false]
    have := getD_resizeFor slots i j
    simpa only [List.getD_eq_getElem?_getD] using this

end StreamsGroup

namespace MS2Stream

theorem construct_attrs (core : Core) (calls : List StreamsGroup) (params : OfferAnswerContext)
    (ident draws : Nat) (l : SalStreamDescription) (s : Stream) (d : Nat)
    (hl : params.localStreamDescription = some l)
    (h : construct core calls params ident draws = some (s, d)) :
    s.mStreamType = l.type ∧ s.mIndex = params.streamIndex ∧ s.ident = ident ∧
    s.mState = State.Stopped := by
  unfold construct at h
  have hbase : Stream.construct core calls params ident draws =
      some ((((Stream.fresh ident l.type params.streamIndex).setPortConfigOfType core calls
        draws).1.fillMulticastMediaAddresses core),
        ((Stream.fresh ident l.type params.streamIndex).setPortConfigOfType core calls
          draws).2) := by
    unfold Stream.construct
    rw [hl]
  rw [hbase] at h
  simp only at h
  cases hinit : initMulticast (((Stream.fresh ident l.type params.streamIndex).setPortConfigOfType
      core calls draws).1.fillMulticastMediaAddresses core) params with
  | none => rw [hinit] at h; cases h
  | some s1 =>
    rw [hinit] at h
    simp only [Option.some.injEq, Prod.mk.injEq] at h
    obtain ⟨hs, _⟩ := h
    subst hs
    have h1 := initMulticast_rest _ _ _ hinit
    have h2 := Stream.fillMulticastMediaAddresses_rest core
      ((Stream.fresh ident l.type params.streamIndex).setPortConfigOfType core calls draws).1
    have h3 := Stream.setPortConfig_rest core.random calls
      (Stream.fresh ident l.type params.streamIndex)
      (Stream.portRangeOfType core (Stream.fresh ident l.type params.streamIndex).getType) draws
    unfold Stream.setPortConfigOfType at h1 h2
    refine ⟨?_, ?_, ?_, ?_⟩
    · rw [h1.1, h2.2.2.1, h3.1]; rfl
    · rw [h1.2.1, h2.2.2.2.1, h3.2.1]; rfl
    · rw [h1.2.2.2.1, h2.2.2.2.2.2, h3.2.2.2]; rfl
    · rw [h1.2.2.1, h2.2.2.2.2.1, h3.2.2.1]; rfl

theorem construct_defined (core : Core) (calls : List StreamsGroup) (params : OfferAnswerContext)
    (ident draws : Nat) (l : SalStreamDescription)
    (hl : params.localStreamDescription = some l)
    (hdef : initMulticastDefined params = true) :
    ∃ s d, construct core calls params ident draws = some (s, d) := by
  unfold construct Stream.construct
  rw [hl]
  simp only
  unfold initMulticastDefined at hdef
  unfold initMulticast
  cases hrole : multicastRoleOf params with
  | none => rw [hrole] at hdef; cases hdef
  | some role =>
    rw [hrole] at hdef
    simp only
    by_cases hrecv : role = SalMulticastRole.SalMulticastReceiver
    · subst hrecv
      cases hremote : params.remoteStreamDescription with
      | none => rw [hremote] at hdef; simp at hdef
      | some remote => simp
    · simp [hrecv]

end MS2Stream

namespace StreamsGroup

theorem createStream_other (core : Core) (st : SessionState) (params : OfferAnswerContext)
    (l : SalStreamDescription) (hl : params.localStreamDescription = some l)
    (hother : l.type = SalStreamType.SalOther) :
    createStream core st params = some (st, none) := by
  unfold createStream
  rw [hl]
  simp only [hother]

theorem createStream_cases (core : Core) (st st1 : SessionState) (params : OfferAnswerContext)
    (l : SalStreamDescription) (r : Option Stream)
    (hl : params.localStreamDescription = some l)
    (h : createStream core st params = some (st1, r)) :
    (l.type = SalStreamType.SalOther ∧ st1 = st ∧ r = none) ∨
    (l.type ≠ SalStreamType.SalOther ∧
      ∃ s d, MS2Stream.construct core (core.allCalls st.group) params st.allocated st.draws
          = some (s, d) ∧
        r = some s ∧
        st1 = { group := { st.group with mStreams :=
                  (resizeFor st.group.mStreams params.streamIndex).set params.streamIndex (some s) }
                allocated := st.allocated + 1
                draws := d }) := by
  unfold createStream at h
  rw [hl] at h
  cases htype : l.type with
  | SalOther =>
    left
    simp only [htype, Option.some.injEq, Prod.mk.injEq] at h
    exact ⟨rfl, h.1.symm, h.2.symm⟩
  | SalAudio =>
    right
    refine ⟨by simp, ?_⟩
    simp only [htype] at h
    cases hc : MS2Stream.construct core (core.allCalls st.group) params st.allocated st.draws with
    | none => rw [hc] at h; cases h
    | some res =>
      rw [hc] at h
      simp only [Option.map_some', Option.some.injEq, Prod.mk.injEq] at h
      exact ⟨res.1, res.2, rfl, h.2.symm, h.1.symm⟩
  | SalVideo =>
    right
    refine ⟨by simp, ?_⟩
    simp only [htype] at h
    cases hc : MS2Stream.construct core (core.allCalls st.group) params st.allocated st.draws with
    | none => rw [hc] at h; cases h
    | some res =>
      rw [hc] at h
      simp only [Option.map_some', Option.some.injEq, Prod.mk.injEq] at h
      exact ⟨res.1, res.2, rfl, h.2.symm, h.1.symm⟩
  | SalText =>
    right
    refine ⟨by simp, ?_⟩
    simp only [htype] at h
    cases hc : MS2Stream.construct core (core.allCalls st.group) params st.allocated st.draws with
    | none => rw [hc] at h; cases h
    | some res =>
      rw [hc] at h
      simp only [Option.map_some', Option.some.injEq, Prod.mk.injEq] at h
      exact ⟨res.1, res.2, rfl, h.2.symm, h.1.symm⟩

theorem createStream_defined (core : Core) (st : SessionState) (params : OfferAnswerContext)
    (l : SalStreamDescription) (hl : params.localStreamDescription = some l)
    (hdef : l.type ≠ SalStreamType.SalOther → MS2Stream.initMulticastDefined params = true) :
    ∃ r, createStream core st params = some r := by
  by_cases hother : l.type = SalStreamType.SalOther
  · exact ⟨_, createStream_other core st params l hl hother⟩
  · obtain ⟨s, d, hc⟩ := MS2Stream.construct_defined core (core.allCalls st.group) params
      st.allocated st.draws l hl (hdef hother)
    unfold createStream
    rw [hl]
    cases htype : l.type with
    | SalOther => exact absurd htype hother
    | SalAudio => simp [hc, htype]
    | SalVideo => simp [hc, htype]
    | SalText => simp [hc, htype]

end StreamsGroup

namespace StreamsGroup

theorem scope_local (params : OfferAnswerContext) (md : SalMediaDescription) (i : Nat)
    (hmd : params.localMediaDescription = some md) :
    (params.scopeStreamToIndex i).localStreamDescription = md.streams[i]? ∧
    (params.scopeStreamToIndex i).streamIndex = i := by
  unfold OfferAnswerContext.scopeStreamToIndex
  simp [hmd]

theorem createStreamsStep_present (core : Core) (params : OfferAnswerContext)
    (md : SalMediaDescription) (st : SessionState) (i : Nat) (l : SalStreamDescription)
    (s : Stream) (hmd : params.localMediaDescription = some md) (hl : md.streams[i]? = some l)
    (hs : st.group.getStream i = some s) :
    createStreamsStep core params st i = some st := by
  unfold createStreamsStep
  simp only [hs, (scope_local params md i hmd).1, hl]
  split_ifs <;> rfl

theorem createStreamsStep_other (core : Core) (params : OfferAnswerContext)
    (md : SalMediaDescription) (st : SessionState) (i : Nat) (l : SalStreamDescription)
    (hmd : params.localMediaDescription = some md) (hl : md.streams[i]? = some l)
    (hother : l.type = SalStreamType.SalOther) :
    createStreamsStep core params st i = some st := by
  cases hs : st.group.getStream i with
  | some s => exact createStreamsStep_present core params md st i l s hmd hl hs
  | none =>
    unfold createStreamsStep
    simp only [hs]
    rw [createStream_other core st (params.scopeStreamToIndex i) l
      (by rw [(scope_local params md i hmd).1, hl]) hother]
    rfl

theorem createStreamsStep_create (core : Core) (params : OfferAnswerContext)
    (md : SalMediaDescription) (st st1 : SessionState) (i : Nat) (l : SalStreamDescription)
    (hmd : params.localMediaDescription = some md) (hl : md.streams[i]? = some l)
    (hs : st.group.getStream i = none) (htype : l.type ≠ SalStreamType.SalOther)
    (h : createStreamsStep core params st i = some st1) :
    (∃ s, st1.group.getStream i = some s ∧ s.mStreamType = l.type ∧ s.mIndex = i ∧
      s.ident = st.allocated) ∧
    (∀ j, j ≠ i → st1.group.getStream j = st.group.getStream j) ∧
    st1.allocated = st.allocated + 1 := by
  unfold createStreamsStep at h
  simp only [hs] at h
  have hscope := scope_local params md i hmd
  have hl2 : (params.scopeStreamToIndex i).localStreamDescription = some l := by
    rw [hscope.1, hl]
  cases hc : createStream core st (params.scopeStreamToIndex i) with
  | none => rw [hc] at h; cases h
  | some res =>
    rw [hc] at h
    simp only [Option.map_some', Option.some.injEq] at h
    obtain ⟨st2, r⟩ := res
    simp only at h
    subst h
    rcases createStream_cases core st st2 _ l r hl2 hc with ⟨ho, _, _⟩ | ⟨_, s, d, hcons, _, hst⟩
    · exact absurd ho htype
    · have hattr := MS2Stream.construct_attrs core _ _ _ _ l s d hl2 hcons
      subst hst
      rw [hscope.2] at hattr
      refine ⟨⟨s, ?_, hattr.1, hattr.2.1, hattr.2.2.1⟩, ?_, rfl⟩
      · rw [getStream_eq]
        simp only [hscope.2]
        rw [getD_set_resizeFor]
        simp
      · intro j hj
        rw [getStream_eq, getStream_eq]
        simp only [hscope.2]
        rw [getD_set_resizeFor]
        simp [hj]

theorem createStreamsStep_frame (core : Core) (params : OfferAnswerContext)
    (md : SalMediaDescription) (st st1 : SessionState) (i : Nat) (l : SalStreamDescription)
    (hmd : params.localMediaDescription = some md) (hl : md.streams[i]? = some l)
    (h : createStreamsStep core params st i = some st1) :
    (∀ j, j ≠ i → st1.group.getStream j = st.group.getStream j) ∧
    (st.group.getStream i ≠ none → st1 = st) ∧
    (l.type ≠ SalStreamType.SalOther → st1.group.getStream i ≠ none) ∧
    (l.type = SalStreamType.SalOther → st1 = st) := by
  cases hs : st.group.getStream i with
  | some s =>
    have := createStreamsStep_present core params md st i l s hmd hl hs
    rw [this] at h
    simp only [Option.some.injEq] at h
    subst h
    exact ⟨fun _ _ => rfl, fun _ => rfl, fun _ => by rw [hs]; simp, fun _ => rfl⟩
  | none =>
    by_cases htype : l.type = SalStreamType.SalOther
    · have := createStreamsStep_other core params md st i l hmd hl htype
      rw [this] at h
      simp only [Option.some.injEq] at h
      subst h
      exact ⟨fun _ _ => rfl, fun _ => rfl, fun hne => absurd htype hne, fun _ => rfl⟩
    · obtain ⟨⟨s, hs1, _⟩, hframe, _⟩ :=
        createStreamsStep_create core params md st st1 i l hmd hl hs htype h
      exact ⟨hframe, fun hne => absurd rfl hne, fun _ => by rw [hs1]; simp,
        fun ho => absurd ho htype⟩

theorem createStreamsStep_defined (core : Core) (params : OfferAnswerContext)
    (md : SalMediaDescription) (st : SessionState) (i : Nat) (l : SalStreamDescription)
    (hmd : params.localMediaDescription = some md) (hl : md.streams[i]? = some l)
    (hdef : l.type ≠ SalStreamType.SalOther →
      MS2Stream.initMulticastDefined (params.scopeStreamToIndex i) = true) :
    ∃ st1, createStreamsStep core params st i = some st1 := by
  cases hs : st.group.getStream i with
  | some s => exact ⟨st, createStreamsStep_present core params md st i l s hmd hl hs⟩
  | none =>
    have hl2 : (params.scopeStreamToIndex i).localStreamDescription = some l := by
      rw [(scope_local params md i hmd).1, hl]
    obtain ⟨r, hr⟩ := createStream_defined core st (params.scopeStreamToIndex i) l hl2 hdef
    refine ⟨r.1, ?_⟩
    unfold createStreamsStep
    simp only [hs, hr, Option.map_some']

theorem foldlM_range_succ {σ : Type} (f : σ → Nat → Option σ) (st : σ) (k : Nat) :
    (List.range (k + 1)).foldlM f st = ((List.range k).foldlM f st).bind (fun s => f s k) := by
  rw [List.range_succ, List.foldlM_append]
  cases h : (List.range k).foldlM f st with
  | none => rfl
  | some s =>
    show (List.foldlM f s [k]) = f s k
    simp [List.foldlM]

end StreamsGroup

namespace StreamsGroup

theorem createStreams_loop_filled (core : Core) (params : OfferAnswerContext)
    (md : SalMediaDescription) (hmd : params.localMediaDescription = some md)
    (st0 : SessionState) :
    ∀ (k : Nat), k ≤ md.nb_streams → ∀ st1,
      (List.range k).foldlM (createStreamsStep core params) st0 = some st1 →
      (∀ i, i < k → ∀ l, md.streams[i]? = some l → l.type ≠ SalStreamType.SalOther →
        st1.group.getStream i ≠ none) := by
  intro k
  induction k with
  | zero => intro _ _ _ i hi; omega
  | succ k ih =>
    intro hk st1 h i hi l hl htype
    rw [foldlM_range_succ] at h
    cases hmid : (List.range k).foldlM (createStreamsStep core params) st0 with
    | none => rw [hmid] at h; cases h
    | some mid =>
      rw [hmid] at h
      have hstep : createStreamsStep core params mid k = some st1 := h
      have hk2 : k < md.streams.length := by unfold SalMediaDescription.nb_streams at hk; omega
      have hlk : md.streams[k]? = some md.streams[k] := List.getElem?_eq_getElem hk2
      have hframe := createStreamsStep_frame core params md mid st1 k _ hmd hlk hstep
      by_cases hik : i = k
      · subst hik
        rw [hlk] at hl
        simp only [Option.some.injEq] at hl
        subst hl
        exact hframe.2.2.1 htype
      · rw [hframe.1 i hik]
        exact ih (by omega) mid hmid i (by omega) l hl htype

theorem createStreams_loop_settled (core : Core) (params : OfferAnswerContext)
    (md : SalMediaDescription) (hmd : params.localMediaDescription = some md)
    (st : SessionState) :
    ∀ (k : Nat), k ≤ md.nb_streams →
      (∀ i, i < k → ∀ l, md.streams[i]? = some l → l.type ≠ SalStreamType.SalOther →
        st.group.getStream i ≠ none) →
      (List.range k).foldlM (createStreamsStep core params) st = some st := by
  intro k
  induction k with
  | zero => intro _ _; rfl
  | succ k ih =>
    intro hk hfilled
    rw [foldlM_range_succ, ih (by omega) (fun i hi => hfilled i (by omega))]
    show createStreamsStep core params st k = some st
    have hk2 : k < md.streams.length := by unfold SalMediaDescription.nb_streams at hk; omega
    have hlk : md.streams[k]? = some md.streams[k] := List.getElem?_eq_getElem hk2
    by_cases htype : md.streams[k].type = SalStreamType.SalOther
    · exact createStreamsStep_other core params md st k _ hmd hlk htype
    · cases hs : st.group.getStream k with
      | none => exact absurd hs (hfilled k (by omega) _ hlk htype)
      | some s => exact createStreamsStep_present core params md st k _ s hmd hlk hs

/-- C9: for every group and every local session description, once `createStreams`
has returned, a second `createStreams` with the same local description (whatever
the rest of the context and the state of the core) returns too and leaves the
session state as it is: the collection holds the same stream instances in the
same slots (also in a slot whose stream has another kind than the description),
no stream object was allocated and no port was drawn. -/
theorem createStreams_twice (core core2 : Core) (params params2 : OfferAnswerContext)
    (st0 st1 : SessionState) (h : createStreams core params st0 = some st1)
    (hsame : params2.localMediaDescription = params.localMediaDescription) :
    createStreams core2 params2 st1 = some st1 := by
  unfold createStreams at h ⊢
  cases hmd : params.localMediaDescription with
  | none => rw [hmd] at h; cases h
  | some md =>
    rw [hmd] at h
    rw [hmd] at hsame
    rw [hsame]
    simp only at h ⊢
    exact createStreams_loop_settled core2 params2 md hsame st1 md.nb_streams (le_refl _)
      (createStreams_loop_filled core params md hmd st0 md.nb_streams (le_refl _) st1 h)

/-- Instance of `createStreams_twice`: the audio and video streams of
`sampleOffer`, created on ports 7078 and 9122. -/
theorem createStreams_twice_witness :
    createStreams sampleCore sampleOffer sampleEmptyState =
      some { group := StreamsGroup.ofSlots
               [some (Stream.sample 0 0 SalStreamType.SalAudio State.Stopped 7078 false false),
                some (Stream.sample 1 1 SalStreamType.SalVideo State.Stopped 9122 false false)]
             allocated := 2
             draws := 1 } ∧
    sampleOffer.localMediaDescription = sampleOffer.localMediaDescription ∧
    createStreams sampleCore sampleOffer
      { group := StreamsGroup.ofSlots
          [some (Stream.sample 0 0 SalStreamType.SalAudio State.Stopped 7078 false false),
           some (Stream.sample 1 1 SalStreamType.SalVideo State.Stopped 9122 false false)]
        allocated := 2
        draws := 1 } =
      some { group := StreamsGroup.ofSlots
               [some (Stream.sample 0 0 SalStreamType.SalAudio State.Stopped 7078 false false),
                some (Stream.sample 1 1 SalStreamType.SalVideo State.Stopped 9122 false false)]
             allocated := 2
             draws := 1 } :=
  ⟨by decide, rfl,
    createStreams_twice sampleCore sampleCore sampleOffer sampleOffer sampleEmptyState _
      (by decide) rfl⟩

end StreamsGroup

namespace StreamsGroup

theorem createStreams_loop_fresh (core : Core) (params : OfferAnswerContext)
    (md : SalMediaDescription) (hmd : params.localMediaDescription = some md)
    (st0 : SessionState) (hempty : ∀ j, st0.group.getStream j = none) :
    ∀ (k : Nat), k ≤ md.nb_streams → ∀ st1,
      (List.range k).foldlM (createStreamsStep core params) st0 = some st1 →
      (∀ i, i < k → ∀ l, md.streams[i]? = some l →
        (l.type ≠ SalStreamType.SalOther →
          ∃ s, st1.group.getStream i = some s ∧ s.mStreamType = l.type ∧ s.mIndex = i) ∧
        (l.type = SalStreamType.SalOther → st1.group.getStream i = none)) ∧
      (∀ j, k ≤ j → st1.group.getStream j = none) := by
  intro k
  induction k with
  | zero =>
    intro _ st1 h
    have : st1 = st0 := by
      simp only [List.range_zero, List.foldlM, pure, Option.some.injEq] at h
      exact h.symm
    subst this
    exact ⟨fun i hi => by omega, fun j _ => hempty j⟩
  | succ k ih =>
    intro hk st1 h
    rw [foldlM_range_succ] at h
    cases hmid : (List.range k).foldlM (createStreamsStep core params) st0 with
    | none => rw [hmid] at h; cases h
    | some mid =>
      rw [hmid] at h
      have hstep : createStreamsStep core params mid k = some st1 := h
      obtain ⟨ihlow, ihhigh⟩ := ih (by omega) mid hmid
      have hk2 : k < md.streams.length := by unfold SalMediaDescription.nb_streams at hk; omega
      have hlk : md.streams[k]? = some md.streams[k] := List.getElem?_eq_getElem hk2
      have hframe := createStreamsStep_frame core params md mid st1 k _ hmd hlk hstep
      have hnone : mid.group.getStream k = none := ihhigh k (le_refl _)
      refine ⟨?_, ?_⟩
      · intro i hi l hl
        by_cases hik : i = k
        · subst hik
          rw [hlk] at hl
          simp only [Option.some.injEq] at hl
          subst hl
          constructor
          · intro htype
            obtain ⟨⟨s, hs, ht, hidx, _⟩, _, _⟩ :=
              createStreamsStep_create core params md mid st1 i _ hmd hlk hnone htype hstep
            exact ⟨s, hs, ht, hidx⟩
          · intro htype
            rw [hframe.2.2.2 htype]
            exact hnone
        · rw [hframe.1 i hik]
          exact ihlow i (by omega) l hl
      · intro j hj
        rw [hframe.1 j (by omega)]
        exact ihhigh j (by omega)

theorem createStreams_loop_defined (core : Core) (params : OfferAnswerContext)
    (md : SalMediaDescription) (hmd : params.localMediaDescription = some md)
    (hdef : ∀ i l, md.streams[i]? = some l → l.type ≠ SalStreamType.SalOther →
      MS2Stream.initMulticastDefined (params.scopeStreamToIndex i) = true)
    (st0 : SessionState) :
    ∀ (k : Nat), k ≤ md.nb_streams →
      ∃ st1, (List.range k).foldlM (createStreamsStep core params) st0 = some st1 := by
  intro k
  induction k with
  | zero => intro _; exact ⟨st0, rfl⟩
  | succ k ih =>
    intro hk
    obtain ⟨mid, hmid⟩ := ih (by omega)
    have hk2 : k < md.streams.length := by unfold SalMediaDescription.nb_streams at hk; omega
    have hlk : md.streams[k]? = some md.streams[k] := List.getElem?_eq_getElem hk2
    obtain ⟨st1, hst1⟩ := createStreamsStep_defined core params md mid k _ hmd hlk
      (hdef k _ hlk)
    exact ⟨st1, by rw [foldlM_range_succ, hmid]; exact hst1⟩

/-- C10, as stated, fails for a description of type other: `createStreams` on a
new group with the two descriptions of `sampleOtherOffer` returns a group
without stream at index 0 (an empty slot), the audio stream being at index 1. -/
theorem createStreams_counterexample :
    (sampleOtherOffer.localMediaDescription.map (fun md => md.nb_streams)) = some 2 ∧
    (createStreams sampleCore sampleOtherOffer sampleEmptyState).map
      (fun st => st.group.getStream 0) = some none ∧
    (createStreams sampleCore sampleOtherOffer sampleEmptyState).map
      (fun st => st.group.mStreams) =
      some [none, some (Stream.sample 0 1 SalStreamType.SalAudio State.Stopped 7078 false false)] := by
  decide

/-- C10, amended: for every group that holds no stream yet and every local session
description with n streams such that the descriptions read by the stream
constructors are present, `createStreams` returns, and afterwards a stream
exists at every index i < n whose description has type audio, video or text:
its kind equals that type and its index attribute is i.  At an index whose
description has type other no stream exists. -/
theorem createStreams_fresh (core : Core) (params : OfferAnswerContext)
    (md : SalMediaDescription) (st0 : SessionState)
    (hmd : params.localMediaDescription = some md)
    (hempty : ∀ slot ∈ st0.group.mStreams, slot = none)
    (hdef : ∀ i, i < md.nb_streams → createStreamDefined params i = true) :
    ∃ st1, createStreams core params st0 = some st1 ∧
      ∀ i, i < md.nb_streams → ∀ l, md.streams[i]? = some l →
        (l.type ≠ SalStreamType.SalOther →
          ∃ s, st1.group.getStream i = some s ∧ s.getType = l.type ∧ s.getIndex = i) ∧
        (l.type = SalStreamType.SalOther → st1.group.getStream i = none) := by
  have hnone : ∀ j, st0.group.getStream j = none := by
    intro j
    rw [getStream_eq, List.getD_eq_getElem?_getD]
    cases hj : st0.group.mStreams[j]? with
    | none => rfl
    | some slot =>
      have := hempty slot (List.getElem?_mem hj)
      rw [this]; rfl
  have hdef2 : ∀ i l, md.streams[i]? = some l → l.type ≠ SalStreamType.SalOther →
      MS2Stream.initMulticastDefined (params.scopeStreamToIndex i) = true := by
    intro i l hl htype
    have hi : i < md.nb_streams := by
      obtain ⟨hlt, _⟩ := List.getElem?_eq_some_iff.mp hl
      exact hlt
    have h := hdef i hi
    unfold createStreamDefined at h
    rw [(scope_local params md i hmd).1, hl] at h
    simpa [htype] using h
  obtain ⟨st1, hst1⟩ :=
    createStreams_loop_defined core params md hmd hdef2 st0 md.nb_streams (le_refl _)
  refine ⟨st1, ?_, ?_⟩
  · unfold createStreams
    rw [hmd]
    exact hst1
  · exact (createStreams_loop_fresh core params md hmd st0 hnone md.nb_streams (le_refl _)
      st1 hst1).1

/-- Instance of `createStreams_fresh`: the descriptions of `sampleOtherOffer` on a
new group. -/
theorem createStreams_fresh_witness :
    sampleOtherOffer.localMediaDescription =
      some { streams := [sampleDescription SalStreamType.SalOther,
                         sampleDescription SalStreamType.SalAudio]
             bandwidth := 0 } ∧
    (∀ slot ∈ sampleEmptyState.group.mStreams, slot = none) ∧
    (∀ i, i < 2 → createStreamDefined sampleOtherOffer i = true) ∧
    ∃ st1, createStreams sampleCore sampleOtherOffer sampleEmptyState = some st1 ∧
      ∀ i, i < 2 → ∀ l,
        [sampleDescription SalStreamType.SalOther,
          sampleDescription SalStreamType.SalAudio][i]? = some l →
        (l.type ≠ SalStreamType.SalOther →
          ∃ s, st1.group.getStream i = some s ∧ s.getType = l.type ∧ s.getIndex = i) ∧
        (l.type = SalStreamType.SalOther → st1.group.getStream i = none) :=
  ⟨by decide, by decide, by decide,
    createStreams_fresh sampleCore sampleOtherOffer
      { streams := [sampleDescription SalStreamType.SalOther,
                    sampleDescription SalStreamType.SalAudio]
        bandwidth := 0 }
      sampleEmptyState (by decide) (by decide) (by decide)⟩

end StreamsGroup

/-! ## Types of the streams of a group -/

namespace StreamsGroup

theorem createStreamsStep_typesConsistent (core : Core) (params : OfferAnswerContext)
    (md : SalMediaDescription) (st st1 : SessionState) (k : Nat) (l : SalStreamDescription)
    (hmd : params.localMediaDescription = some md) (hl : md.streams[k]? = some l)
    (hinv : st.group.typesConsistent md)
    (h : createStreamsStep core params st k = some st1) :
    st1.group.typesConsistent md := by
  have hframe := createStreamsStep_frame core params md st st1 k l hmd hl h
  intro i s hs
  by_cases hik : i = k
  · subst hik
    cases hold : st.group.getStream i with
    | some s0 =>
      have heq : st1 = st := hframe.2.1 (by rw [hold]; simp)
      rw [heq] at hs
      exact hinv i s hs
    | none =>
      by_cases htype : l.type = SalStreamType.SalOther
      · have heq : st1 = st := hframe.2.2.2 htype
        rw [heq, hold] at hs
        cases hs
      · obtain ⟨⟨s1, hs1, ht, _, _⟩, _, _⟩ :=
          createStreamsStep_create core params md st st1 i l hmd hl hold htype h
        rw [hs1] at hs
        simp only [Option.some.injEq] at hs
        subst hs
        exact ⟨l, hl, ht⟩
  · rw [hframe.1 i hik] at hs
    exact hinv i s hs

theorem createStreams_loop_typesConsistent (core : Core) (params : OfferAnswerContext)
    (md : SalMediaDescription) (hmd : params.localMediaDescription = some md)
    (st0 : SessionState) (hinv : st0.group.typesConsistent md) :
    ∀ (k : Nat), k ≤ md.nb_streams → ∀ st1,
      (List.range k).foldlM (createStreamsStep core params) st0 = some st1 →
      st1.group.typesConsistent md := by
  intro k
  induction k with
  | zero =>
    intro _ st1 h
    have : st1 = st0 := by
      simp only [List.range_zero, List.foldlM, pure, Option.some.injEq] at h
      exact h.symm
    rw [this]
    exact hinv
  | succ k ih =>
    intro hk st1 h
    rw [foldlM_range_succ] at h
    cases hmid : (List.range k).foldlM (createStreamsStep core params) st0 with
    | none => rw [hmid] at h; cases h
    | some mid =>
      rw [hmid] at h
      have hstep : createStreamsStep core params mid k = some st1 := h
      have hk2 : k < md.streams.length := by unfold SalMediaDescription.nb_streams at hk; omega
      have hlk : md.streams[k]? = some md.streams[k] := List.getElem?_eq_getElem hk2
      exact createStreamsStep_typesConsistent core params md mid st1 k _ hmd hlk
        (ih (by omega) mid hmid) hstep

/-- C11, as stated, fails on a renegotiation that changes a type: the group built
for `sampleOffer` satisfies the invariant for that description, and after
`createStreams` for `sampleSwappedOffer` (video, audio) its slot 0 still holds
the audio stream of identity 0. -/
theorem createStreams_types_counterexample :
    createStreams sampleCore sampleOffer sampleEmptyState = some sampleTwoStreamState ∧
    createStreams sampleCore sampleSwappedOffer sampleTwoStreamState =
      some sampleTwoStreamState ∧
    (sampleTwoStreamState.group.getStream 0).map (fun s => (s.ident, s.getType)) =
      some (0, SalStreamType.SalAudio) ∧
    (sampleSwappedOffer.localMediaDescription.bind (fun md => md.streams[0]?)).map
      (fun l => l.type) = some SalStreamType.SalVideo := by
  decide

/-- C11, amended: `createStreams` keeps the invariant for the description it is
passed whenever every stream that the group already owns sits at an index of
that description and has the type of the stream of that index (the descriptions
read by the stream constructors being present): the call returns, and
afterwards every owned stream has the type of the stream of its index in the
description.  A stream already present with another type is left in place. -/
theorem createStreams_typesConsistent (core : Core) (params : OfferAnswerContext)
    (md : SalMediaDescription) (st0 : SessionState)
    (hmd : params.localMediaDescription = some md)
    (hinv : st0.group.typesConsistent md)
    (hdef : ∀ i, i < md.nb_streams → createStreamDefined params i = true) :
    ∃ st1, createStreams core params st0 = some st1 ∧ st1.group.typesConsistent md := by
  have hdef2 : ∀ i l, md.streams[i]? = some l → l.type ≠ SalStreamType.SalOther →
      MS2Stream.initMulticastDefined (params.scopeStreamToIndex i) = true := by
    intro i l hl htype
    have hi : i < md.nb_streams := by
      obtain ⟨hlt, _⟩ := List.getElem?_eq_some_iff.mp hl
      exact hlt
    have h := hdef i hi
    unfold createStreamDefined at h
    rw [(scope_local params md i hmd).1, hl] at h
    simpa [htype] using h
  obtain ⟨st1, hst1⟩ :=
    createStreams_loop_defined core params md hmd hdef2 st0 md.nb_streams (le_refl _)
  refine ⟨st1, ?_, ?_⟩
  · unfold createStreams
    rw [hmd]
    exact hst1
  · exact createStreams_loop_typesConsistent core params md hmd st0 hinv md.nb_streams
      (le_refl _) st1 hst1

end StreamsGroup

namespace StreamsGroup

theorem sampleTwoStreamState_typesConsistent :
    sampleTwoStreamState.group.typesConsistent
      { streams := [sampleDescription SalStreamType.SalAudio,
                    sampleDescription SalStreamType.SalVideo]
        bandwidth := 0 } := by
  intro i s hs
  rcases i with _ | _ | i
  · have : s = Stream.sample 0 0 SalStreamType.SalAudio State.Stopped 7078 false false := by
      have h0 : sampleTwoStreamState.group.getStream 0 =
          some (Stream.sample 0 0 SalStreamType.SalAudio State.Stopped 7078 false false) := by
        decide
      rw [h0] at hs
      exact (Option.some.inj hs).symm
    subst this
    exact ⟨_, rfl, rfl⟩
  · have : s = Stream.sample 1 1 SalStreamType.SalVideo State.Stopped 9122 false false := by
      have h1 : sampleTwoStreamState.group.getStream 1 =
          some (Stream.sample 1 1 SalStreamType.SalVideo State.Stopped 9122 false false) := by
        decide
      rw [h1] at hs
      exact (Option.some.inj hs).symm
    subst this
    exact ⟨_, rfl, rfl⟩
  · exfalso
    have h2 : sampleTwoStreamState.group.getStream (i + 1 + 1) = none := by
      unfold getStream
      rw [if_pos]
      show 2 ≤ i + 1 + 1
      omega
    rw [h2] at hs
    cases hs

/-- Instance of `createStreams_typesConsistent`: a second `createStreams` for
`sampleOffer` on the group that already holds its audio and video streams. -/
theorem createStreams_typesConsistent_witness :
    sampleOffer.localMediaDescription =
      some { streams := [sampleDescription SalStreamType.SalAudio,
                         sampleDescription SalStreamType.SalVideo]
             bandwidth := 0 } ∧
    sampleTwoStreamState.group.typesConsistent
      { streams := [sampleDescription SalStreamType.SalAudio,
                    sampleDescription SalStreamType.SalVideo]
        bandwidth := 0 } ∧
    (∀ i, i < 2 → createStreamDefined sampleOffer i = true) ∧
    ∃ st1, createStreams sampleCore sampleOffer sampleTwoStreamState = some st1 ∧
      st1.group.typesConsistent
        { streams := [sampleDescription SalStreamType.SalAudio,
                      sampleDescription SalStreamType.SalVideo]
          bandwidth := 0 } :=
  ⟨by decide, sampleTwoStreamState_typesConsistent, by decide,
    createStreams_typesConsistent sampleCore sampleOffer
      { streams := [sampleDescription SalStreamType.SalAudio,
                    sampleDescription SalStreamType.SalVideo]
        bandwidth := 0 }
      sampleTwoStreamState (by decide) sampleTwoStreamState_typesConsistent (by decide)⟩

end StreamsGroup

/-! ## Stopping a group -/

namespace StreamsGroup

theorem stopLoop_stopped (listener : Bool) (l : List (Option Stream)) :
    ∀ s, some s ∈ (stopLoop listener l).1 → s.getState = State.Stopped := by
  induction l with
  | nil => intro s hs; simp [stopLoop] at hs
  | cons slot rest ih =>
    intro s hs
    cases slot with
    | none =>
      simp only [stopLoop, List.mem_cons] at hs
      rcases hs with h | h
      · cases h
      · exact ih s h
    | some stream =>
      by_cases hst : stream.getState = State.Stopped
      · simp only [stopLoop, hst, ne_eq, not_true_eq_false, if_false, List.mem_cons,
          Option.some.injEq] at hs
        rcases hs with h | h
        · rw [h]; exact hst
        · exact ih s h
      · simp only [stopLoop, hst, ne_eq, not_false_eq_true, if_true, List.mem_cons,
          Option.some.injEq] at hs
        rcases hs with h | h
        · rw [h]; rfl
        · exact ih s h

/-- What `StreamsGroup::stop` does on every group: afterwards every owned stream is
in state Stopped, and the timer handle is the one the group had before. -/
theorem stop_spec (listener : Bool) (g : StreamsGroup) :
    (∀ s, (stop listener g).1.owns s → s.getState = State.Stopped) ∧
    (stop listener g).1.mBandwidthReportTimer = g.mBandwidthReportTimer := by
  constructor
  · intro s hs
    exact stopLoop_stopped listener g.mStreams s hs
  · unfold stop
    cases h : g.mBandwidthReportTimer <;> simp [h]

/-- C15 at the group that a render has left with a started bandwidth-report timer:
the render of `samplePreparingState`, which has no timer, yields the group of
`sampleRenderedState` with its timer and two Running streams; `stop` on that
group stops the two streams, makes no call to `destroyTimer`, and the group
still holds its timer handle. -/
theorem stop_keeps_timer :
    samplePreparingState.group.mBandwidthReportTimer = false ∧
    (render sampleCore sampleNoChange false sampleAnswer samplePreparingState).map
      (fun r => r.1.group) = some sampleRenderedState.group ∧
    sampleRenderedState.group.mBandwidthReportTimer = true ∧
    (stop true sampleRenderedState.group).1.mBandwidthReportTimer = true ∧
    (stop true sampleRenderedState.group).2.all (fun e => e != GroupEffect.destroyTimer) = true ∧
    (stop true sampleRenderedState.group).1.mStreams.all
      (fun slot => match slot with
        | some s => s.getState == State.Stopped
        | none => true) = true := by
  decide

end StreamsGroup

/-! ## Bandwidth of the audio and video streams -/

namespace MS2Stream

/-- C16, as stated, fails when the up-bandwidth of the call is forced: with a forced
up-bandwidth of 600 kbit/s, a remote bandwidth of 600 kbit/s and a video stream
in the description, b is 600 and `getIdealAudioBandwidth` returns 600, not
100. -/
theorem getIdealAudioBandwidth_counterexample :
    sampleForcedCore.mediaDescriptionContainsVideoStream sampleAudioVideoDescription = true ∧
    PayloadTypeHandler.ofSpec.getMinBandwidth sampleForcedCore.upBandwidth 600 = 600 ∧
    getIdealAudioBandwidth PayloadTypeHandler.ofSpec sampleForcedCore
      sampleAudioVideoDescription
      { sampleDescription SalStreamType.SalAudio with bandwidth := 600 } = 600 := by
  decide

/-- C16, amended: for every session description that contains a video stream, when
the up-bandwidth of the call is not forced, `getIdealAudioBandwidth` returns the
step-table value of b, the minimum (as `PayloadTypeHandler::getMinBandwidth`
computes it) of the upload bandwidth of the core and of the remote-declared
bandwidth: 100 if b > 512, 64 if 256 < b <= 512, 40 if 128 < b <= 256, 24 if
0 < b <= 128, and b itself if b <= 0.  When the up-bandwidth of the call is
forced (positive), it returns the minimum of the forced value and of the
remote-declared bandwidth, without step table.  The comparison of the table is
the strict one of section 4.3. -/
theorem getIdealAudioBandwidth_steps (handler : PayloadTypeHandler) (core : Core)
    (md : SalMediaDescription) (desc : SalStreamDescription)
    (hvideo : core.mediaDescriptionContainsVideoStream md = true)
    (hgt : ∀ a b, handler.bandwidthIsGreater a b = true ↔ a > b) :
    (core.upBandwidth ≤ 0 →
      (handler.getMinBandwidth core.uploadBandwidth (remoteBandwidthOf md desc) > 512 →
        getIdealAudioBandwidth handler core md desc = 100) ∧
      (256 < handler.getMinBandwidth core.uploadBandwidth (remoteBandwidthOf md desc) ∧
        handler.getMinBandwidth core.uploadBandwidth (remoteBandwidthOf md desc) ≤ 512 →
        getIdealAudioBandwidth handler core md desc = 64) ∧
      (128 < handler.getMinBandwidth core.uploadBandwidth (remoteBandwidthOf md desc) ∧
        handler.getMinBandwidth core.uploadBandwidth (remoteBandwidthOf md desc) ≤ 256 →
        getIdealAudioBandwidth handler core md desc = 40) ∧
      (0 < handler.getMinBandwidth core.uploadBandwidth (remoteBandwidthOf md desc) ∧
        handler.getMinBandwidth core.uploadBandwidth (remoteBandwidthOf md desc) ≤ 128 →
        getIdealAudioBandwidth handler core md desc = 24) ∧
      (handler.getMinBandwidth core.uploadBandwidth (remoteBandwidthOf md desc) ≤ 0 →
        getIdealAudioBandwidth handler core md desc =
          handler.getMinBandwidth core.uploadBandwidth (remoteBandwidthOf md desc))) ∧
    (core.upBandwidth > 0 →
      getIdealAudioBandwidth handler core md desc =
        handler.getMinBandwidth core.upBandwidth (remoteBandwidthOf md desc)) := by
  have hgt2 : ∀ a b, handler.bandwidthIsGreater a b = false ↔ ¬ a > b := by
    intro a b
    rw [← Bool.not_eq_true, hgt]
  constructor
  · intro hup
    have hnf : ¬ core.upBandwidth > 0 := by omega
    generalize hb : handler.getMinBandwidth core.uploadBandwidth (remoteBandwidthOf md desc) = b
    have hval : getIdealAudioBandwidth handler core md desc =
        if handler.bandwidthIsGreater b 512 then 100
        else if handler.bandwidthIsGreater b 256 then 64
        else if handler.bandwidthIsGreater b 128 then 40
        else if handler.bandwidthIsGreater b 0 then 24
        else b := by
      unfold getIdealAudioBandwidth
      simp only [hvideo, hnf, if_false, decide_False, Bool.not_true, Bool.or_false]
      rw [hb]
      rfl
    rw [hval]
    refine ⟨?_, ?_, ?_, ?_, ?_⟩
    · intro h
      rw [if_pos ((hgt b 512).mpr h)]
    · rintro ⟨h1, h2⟩
      rw [if_neg (by rw [Bool.not_eq_true]; exact (hgt2 b 512).mpr (by omega)),
        if_pos ((hgt b 256).mpr h1)]
    · rintro ⟨h1, h2⟩
      rw [if_neg (by rw [Bool.not_eq_true]; exact (hgt2 b 512).mpr (by omega)),
        if_neg (by rw [Bool.not_eq_true]; exact (hgt2 b 256).mpr (by omega)),
        if_pos ((hgt b 128).mpr h1)]
    · rintro ⟨h1, h2⟩
      rw [if_neg (by rw [Bool.not_eq_true]; exact (hgt2 b 512).mpr (by omega)),
        if_neg (by rw [Bool.not_eq_true]; exact (hgt2 b 256).mpr (by omega)),
        if_neg (by rw [Bool.not_eq_true]; exact (hgt2 b 128).mpr (by omega)),
        if_pos ((hgt b 0).mpr h1)]
    · intro h
      rw [if_neg (by rw [Bool.not_eq_true]; exact (hgt2 b 512).mpr (by omega)),
        if_neg (by rw [Bool.not_eq_true]; exact (hgt2 b 256).mpr (by omega)),
        if_neg (by rw [Bool.not_eq_true]; exact (hgt2 b 128).mpr (by omega)),
        if_neg (by rw [Bool.not_eq_true]; exact (hgt2 b 0).mpr (by omega))]
  · intro hup
    unfold getIdealAudioBandwidth
    simp [hup]

/-- Instance of `getIdealAudioBandwidth_steps`: upload bandwidth 1000 kbit/s, not
forced, remote bandwidth 600 kbit/s for the audio stream, video present. -/
theorem getIdealAudioBandwidth_steps_witness :
    sampleBandwidthCore.mediaDescriptionContainsVideoStream sampleAudioVideoDescription = true ∧
    (∀ a b, PayloadTypeHandler.ofSpec.bandwidthIsGreater a b = true ↔ a > b) ∧
    getIdealAudioBandwidth PayloadTypeHandler.ofSpec sampleBandwidthCore
      sampleAudioVideoDescription
      { sampleDescription SalStreamType.SalAudio with bandwidth := 600 } = 100 :=
  ⟨by decide, fun a b => by simp [PayloadTypeHandler.ofSpec],
    ((getIdealAudioBandwidth_steps PayloadTypeHandler.ofSpec sampleBandwidthCore
      sampleAudioVideoDescription
      { sampleDescription SalStreamType.SalAudio with bandwidth := 600 }
      (by decide) (fun a b => by simp [PayloadTypeHandler.ofSpec])).1 (by decide)).1
      (by decide)⟩

end MS2Stream

namespace StreamsGroup

/-- C17: for every session description md, video stream description desc and
allocated audio bandwidth A of the group, `getVideoBandwidth` returns the
minimum of remaining(upload, A) and of the remote cap r, where r is
desc.bandwidth when desc.bandwidth > 0, else remaining(md.bandwidth, A) when
md.bandwidth > 0, else 0; minimum and remaining are the functions
`getMinBandwidth` and `getRemainingBandwidthForVideo` of `PayloadTypeHandler`,
whatever they compute.  When desc.bandwidth > 0 the result is the same for every
session description. -/
theorem getVideoBandwidth_spec (handler : PayloadTypeHandler) (core : Core) (g : StreamsGroup)
    (md : SalMediaDescription) (desc : SalStreamDescription) :
    getVideoBandwidth handler core g md desc =
      handler.getMinBandwidth
        (handler.getRemainingBandwidthForVideo core.uploadBandwidth g.mAudioBandwidth)
        (if desc.bandwidth > 0 then desc.bandwidth
          else if md.bandwidth > 0 then
            handler.getRemainingBandwidthForVideo md.bandwidth g.mAudioBandwidth
          else 0) ∧
    (desc.bandwidth ≤ 0 ∨
      ∀ md2 : SalMediaDescription,
        getVideoBandwidth handler core g md2 desc = getVideoBandwidth handler core g md desc) := by
  refine ⟨rfl, ?_⟩
  by_cases h : desc.bandwidth > 0
  · right
    intro md2
    unfold getVideoBandwidth
    simp only [h, if_true]
  · left
    omega

end StreamsGroup

/-! ## The profile built by `makeProfile` -/

theorem rtp_profile_get_set (profile : RtpProfile) (n m : Int) (pt : OrtpPayloadType) :
    rtp_profile_get_payload (rtp_profile_set_payload profile n pt) m =
      if n = m then some pt else rtp_profile_get_payload profile m := by
  unfold rtp_profile_get_payload rtp_profile_set_payload
  by_cases h : n = m
  · simp [h, List.find?]
  · have hb : (n == m) = false := by simpa using h
    simp only [List.find?, hb, h, if_false]

namespace MS2Stream

theorem makeProfilePayload_identity (handler : PayloadTypeHandler) (desc : SalStreamDescription)
    (bandwidth upPtime0 : Int) (pt : OrtpPayloadType) :
    (makeProfilePayload handler desc bandwidth upPtime0 pt).identity = pt.identity := by
  unfold makeProfilePayload OrtpPayloadType.identity payload_type_append_send_fmtp
  simp only
  split_ifs <;> rfl

theorem makeProfilePayload_number (handler : PayloadTypeHandler) (desc : SalStreamDescription)
    (bandwidth upPtime0 : Int) (pt : OrtpPayloadType) :
    (makeProfilePayload handler desc bandwidth upPtime0 pt).number = pt.number := by
  have h := makeProfilePayload_identity handler desc bandwidth upPtime0 pt
  unfold OrtpPayloadType.identity at h
  simp only [Prod.mk.injEq] at h
  exact h.2.2.1

theorem makeProfilePayload_bitrate (handler : PayloadTypeHandler) (desc : SalStreamDescription)
    (bandwidth upPtime0 : Int) (pt : OrtpPayloadType) :
    (makeProfilePayload handler desc bandwidth upPtime0 pt).normal_bitrate =
      if pt.flags &&& PAYLOAD_TYPE_BITRATE_OVERRIDE != 0 then
        handler.getMinBandwidth pt.normal_bitrate (bandwidth * 1000)
      else bandwidth * 1000 := by
  unfold makeProfilePayload payload_type_append_send_fmtp
  simp only
  split_ifs <;> rfl

theorem makeProfileStep_profile (handler : PayloadTypeHandler) (core : Core)
    (desc : SalStreamDescription) (st : MakeProfileLoop) (elem : OrtpPayloadType) (n : Int) :
    rtp_profile_get_payload (makeProfileStep handler core desc st elem).profile n =
      if (rtp_profile_get_payload st.profile n).isSome then rtp_profile_get_payload st.profile n
      else if elem.number = n then
        some (makeProfilePayload handler desc (makeProfileSelect handler core desc st elem).2.1
          (makeProfileSelect handler core desc st elem).2.2.1 elem)
      else none := by
  have hnum := makeProfilePayload_number handler desc
    (makeProfileSelect handler core desc st elem).2.1
    (makeProfileSelect handler core desc st elem).2.2.1 elem
  unfold makeProfileStep
  simp only [payload_type_get_number, hnum]
  by_cases hreg : (rtp_profile_get_payload st.profile elem.number).isSome = true
  · rw [if_pos hreg]
    by_cases hn : (rtp_profile_get_payload st.profile n).isSome = true
    · rw [if_pos hn]
    · rw [if_neg hn]
      have hne : ¬ elem.number = n := by
        intro h; rw [h] at hreg; exact hn hreg
      rw [if_neg hne]
      cases hg : rtp_profile_get_payload st.profile n with
      | none => rfl
      | some x => rw [hg] at hn; simp at hn
  · rw [if_neg hreg, rtp_profile_get_set]
    by_cases hn : elem.number = n
    · rw [if_pos hn]
      rw [hn] at hreg
      rw [if_neg hreg, if_pos hn]
    · rw [if_neg hn, if_neg hn]
      cases hg : rtp_profile_get_payload st.profile n with
      | none => rfl
      | some x => simp

theorem makeProfileLoop_keeps (handler : PayloadTypeHandler) (core : Core)
    (desc : SalStreamDescription) (l : List OrtpPayloadType) :
    ∀ (st : MakeProfileLoop) (n : Int) (x : OrtpPayloadType),
      rtp_profile_get_payload st.profile n = some x →
      rtp_profile_get_payload (makeProfileLoop handler core desc st l).profile n = some x := by
  induction l with
  | nil => intro st n x h; exact h
  | cons elem rest ih =>
    intro st n x h
    show rtp_profile_get_payload
      (makeProfileLoop handler core desc (makeProfileStep handler core desc st elem) rest).profile n
        = some x
    apply ih
    rw [makeProfileStep_profile, h]
    rfl

theorem makeProfileLoop_identity (handler : PayloadTypeHandler) (core : Core)
    (desc : SalStreamDescription) (l : List OrtpPayloadType) :
    ∀ (st : MakeProfileLoop) (n : Int), rtp_profile_get_payload st.profile n = none →
      (rtp_profile_get_payload (makeProfileLoop handler core desc st l).profile n).map
          OrtpPayloadType.identity =
        (l.find? (fun pt => pt.number == n)).map OrtpPayloadType.identity := by
  induction l with
  | nil =>
    intro st n h
    show (rtp_profile_get_payload st.profile n).map _ = _
    rw [h]; rfl
  | cons elem rest ih =>
    intro st n h
    show (rtp_profile_get_payload
      (makeProfileLoop handler core desc (makeProfileStep handler core desc st elem) rest).profile
        n).map _ = _
    by_cases hn : elem.number = n
    · have hstep : rtp_profile_get_payload (makeProfileStep handler core desc st elem).profile n =
          some (makeProfilePayload handler desc (makeProfileSelect handler core desc st elem).2.1
            (makeProfileSelect handler core desc st elem).2.2.1 elem) := by
        rw [makeProfileStep_profile, h]
        simp [hn]
      rw [makeProfileLoop_keeps handler core desc rest _ n _ hstep]
      have hb : (elem.number == n) = true := by simpa using hn
      simp only [List.find?, hb, Option.map_some']
      rw [makeProfilePayload_identity]
    · have hstep : rtp_profile_get_payload (makeProfileStep handler core desc st elem).profile n =
          none := by
        rw [makeProfileStep_profile, h]
        simp [hn]
      rw [ih _ n hstep]
      have hb : (elem.number == n) = false := by simpa using hn
      simp only [List.find?, hb]

/-- C18: for every negotiated codec list and every payload-type number n, the entry
of n in the profile built by `makeProfile` is a clone of the first codec in list
order whose number is n (same mime type, clock rate, number and flags), later
codecs of the same number never replacing it; and there is no entry for a number
that no codec of the list has. -/
theorem makeProfile_first_wins (handler : PayloadTypeHandler) (core : Core) (g : StreamsGroup)
    (s : Stream) (md : SalMediaDescription) (desc : SalStreamDescription) (n : Int) :
    (rtp_profile_get_payload (makeProfile handler core g s md desc).profile n).map
        OrtpPayloadType.identity =
      (desc.payloads.find? (fun pt => pt.number == n)).map OrtpPayloadType.identity ∧
    (makeProfile handler core g s md desc).stream.mRtpProfile =
      some (makeProfile handler core g s md desc).profile := by
  refine ⟨?_, rfl⟩
  exact makeProfileLoop_identity handler core desc desc.payloads
    (makeProfileInit handler core g md desc) n rfl

end MS2Stream

namespace MS2Stream

theorem makeProfileLoop_append (handler : PayloadTypeHandler) (core : Core)
    (desc : SalStreamDescription) (st : MakeProfileLoop) (pre post : List OrtpPayloadType) :
    makeProfileLoop handler core desc st (pre ++ post) =
      makeProfileLoop handler core desc (makeProfileLoop handler core desc st pre) post := by
  unfold makeProfileLoop
  rw [List.foldl_append]

theorem makeProfileLoop_absent (handler : PayloadTypeHandler) (core : Core)
    (desc : SalStreamDescription) (l : List OrtpPayloadType) (st : MakeProfileLoop) (n : Int)
    (hst : rtp_profile_get_payload st.profile n = none)
    (hl : ∀ q ∈ l, q.number ≠ n) :
    rtp_profile_get_payload (makeProfileLoop handler core desc st l).profile n = none := by
  have h := makeProfileLoop_identity handler core desc l st n hst
  have hfind : l.find? (fun pt => pt.number == n) = none := by
    rw [List.find?_eq_none]
    intro q hq
    simpa using hl q hq
  rw [hfind] at h
  cases hg : rtp_profile_get_payload (makeProfileLoop handler core desc st l).profile n with
  | none => rfl
  | some x => rw [hg] at h; simp at h

/-- C19, as stated, fails when the computed allocation is below the explicit
bitrate: PCMU of `sampleAudioDescription` carries the bitrate-override flag and
an explicit bitrate of 64000 bit/s, the bandwidth computed for the stream is
24 kbit/s, and the bitrate registered for it in the profile is 24000 bit/s. -/
theorem makeProfile_bitrate_counterexample :
    (samplePcmu.flags &&& PAYLOAD_TYPE_BITRATE_OVERRIDE != 0) = true ∧
    samplePcmu.normal_bitrate = 64000 ∧
    (makeProfile PayloadTypeHandler.ofSpec sampleBandwidthCore sampleAudioGroup
      sampleAudioStream sampleAudioOnlyDescription sampleAudioDescription).group.mAudioBandwidth
      = 24 ∧
    (rtp_profile_get_payload
      (makeProfile PayloadTypeHandler.ofSpec sampleBandwidthCore sampleAudioGroup
        sampleAudioStream sampleAudioOnlyDescription sampleAudioDescription).profile 0).map
      (fun c => (c.mime_type, c.normal_bitrate)) = some ("PCMU", 24000) := by
  decide

/-- C19, amended: for every codec of the negotiated list that is the first of its
number (the codecs that get an entry in the profile), the bitrate registered for
it is, when it carries the explicit bitrate-override flag, the minimum (as
`PayloadTypeHandler::getMinBandwidth` computes it) of its own explicit bitrate
and of the computed allocation bandwidth * 1000, and without the flag the
computed allocation bandwidth * 1000; bandwidth is the value of the loop
variable when the codec is reached. -/
theorem makeProfile_bitrate (handler : PayloadTypeHandler) (core : Core) (g : StreamsGroup)
    (s : Stream) (md : SalMediaDescription) (desc : SalStreamDescription)
    (pre post : List OrtpPayloadType) (pt : OrtpPayloadType)
    (hsplit : desc.payloads = pre ++ pt :: post)
    (hfirst : ∀ q ∈ pre, q.number ≠ pt.number) :
    ∃ c, rtp_profile_get_payload (makeProfile handler core g s md desc).profile pt.number
        = some c ∧
      c.normal_bitrate =
        if pt.flags &&& PAYLOAD_TYPE_BITRATE_OVERRIDE != 0 then
          handler.getMinBandwidth pt.normal_bitrate
            ((makeProfileStep handler core desc
              (makeProfileLoop handler core desc (makeProfileInit handler core g md desc) pre)
              pt).bandwidth * 1000)
        else
          (makeProfileStep handler core desc
            (makeProfileLoop handler core desc (makeProfileInit handler core g md desc) pre)
            pt).bandwidth * 1000 := by
  have habsent := makeProfileLoop_absent handler core desc pre
    (makeProfileInit handler core g md desc) pt.number rfl hfirst
  have hstep : rtp_profile_get_payload
      (makeProfileStep handler core desc
        (makeProfileLoop handler core desc (makeProfileInit handler core g md desc) pre)
        pt).profile pt.number =
      some (makeProfilePayload handler desc
        (makeProfileSelect handler core desc
          (makeProfileLoop handler core desc (makeProfileInit handler core g md desc) pre)
          pt).2.1
        (makeProfileSelect handler core desc
          (makeProfileLoop handler core desc (makeProfileInit handler core g md desc) pre)
          pt).2.2.1 pt) := by
    rw [makeProfileStep_profile, habsent]
    simp
  have hfinal : rtp_profile_get_payload (makeProfile handler core g s md desc).profile pt.number =
      some (makeProfilePayload handler desc
        (makeProfileSelect handler core desc
          (makeProfileLoop handler core desc (makeProfileInit handler core g md desc) pre)
          pt).2.1
        (makeProfileSelect handler core desc
          (makeProfileLoop handler core desc (makeProfileInit handler core g md desc) pre)
          pt).2.2.1 pt) := by
    show rtp_profile_get_payload
      (makeProfileLoop handler core desc (makeProfileInit handler core g md desc)
        desc.payloads).profile pt.number = _
    rw [hsplit, makeProfileLoop_append]
    exact makeProfileLoop_keeps handler core desc post _ pt.number _ hstep
  refine ⟨_, hfinal, ?_⟩
  rw [makeProfilePayload_bitrate]
  rfl

/-- Instance of `makeProfile_bitrate`: PCMU in `sampleAudioDescription`, after
telephone-event and before PCMA. -/
theorem makeProfile_bitrate_witness :
    sampleAudioDescription.payloads = [sampleTelephoneEvent] ++ samplePcmu :: [samplePcma] ∧
    (∀ q ∈ [sampleTelephoneEvent], q.number ≠ samplePcmu.number) ∧
    ∃ c, rtp_profile_get_payload
        (makeProfile PayloadTypeHandler.ofSpec sampleBandwidthCore sampleAudioGroup
          sampleAudioStream sampleAudioOnlyDescription sampleAudioDescription).profile
        samplePcmu.number = some c ∧
      c.normal_bitrate =
        if samplePcmu.flags &&& PAYLOAD_TYPE_BITRATE_OVERRIDE != 0 then
          PayloadTypeHandler.ofSpec.getMinBandwidth samplePcmu.normal_bitrate
            ((makeProfileStep PayloadTypeHandler.ofSpec sampleBandwidthCore sampleAudioDescription
              (makeProfileLoop PayloadTypeHandler.ofSpec sampleBandwidthCore
                sampleAudioDescription
                (makeProfileInit PayloadTypeHandler.ofSpec sampleBandwidthCore sampleAudioGroup
                  sampleAudioOnlyDescription sampleAudioDescription)
                [sampleTelephoneEvent])
              samplePcmu).bandwidth * 1000)
        else
          (makeProfileStep PayloadTypeHandler.ofSpec sampleBandwidthCore sampleAudioDescription
            (makeProfileLoop PayloadTypeHandler.ofSpec sampleBandwidthCore
              sampleAudioDescription
              (makeProfileInit PayloadTypeHandler.ofSpec sampleBandwidthCore sampleAudioGroup
                sampleAudioOnlyDescription sampleAudioDescription)
              [sampleTelephoneEvent])
            samplePcmu).bandwidth * 1000 :=
  ⟨by decide, by decide,
    makeProfile_bitrate PayloadTypeHandler.ofSpec sampleBandwidthCore sampleAudioGroup
      sampleAudioStream sampleAudioOnlyDescription sampleAudioDescription
      [sampleTelephoneEvent] [samplePcma] samplePcmu (by decide) (by decide)⟩

theorem makeProfileStep_usedPt (handler : PayloadTypeHandler) (core : Core)
    (desc : SalStreamDescription) (st : MakeProfileLoop) (elem : OrtpPayloadType) :
    (makeProfileStep handler core desc st elem).usedPt =
      if st.usedPt = -1 then
        if !strcasecmpEq elem.mime_type "telephone-event" then elem.number else st.usedPt
      else st.usedPt := rfl

theorem makeProfileLoop_usedPt (handler : PayloadTypeHandler) (core : Core)
    (desc : SalStreamDescription) (l : List OrtpPayloadType) :
    ∀ (st : MakeProfileLoop), (∀ pt ∈ l, 0 ≤ pt.number) →
      (makeProfileLoop handler core desc st l).usedPt =
        if st.usedPt = -1 then
          match l.find? (fun pt => !strcasecmpEq pt.mime_type "telephone-event") with
          | some pt => pt.number
          | none => -1
        else st.usedPt := by
  induction l with
  | nil =>
    intro st _
    show st.usedPt = _
    by_cases h : st.usedPt = -1
    · simp [h]
    · simp [h]
  | cons elem rest ih =>
    intro st hvalid
    show (makeProfileLoop handler core desc (makeProfileStep handler core desc st elem)
      rest).usedPt = _
    rw [ih _ (fun pt hpt => hvalid pt (List.mem_cons_of_mem _ hpt)), makeProfileStep_usedPt]
    have helem : 0 ≤ elem.number := hvalid elem (List.mem_cons_self _ _)
    by_cases h : st.usedPt = -1
    · by_cases hte : strcasecmpEq elem.mime_type "telephone-event" = true
      · simp [h, hte, List.find?]
      · have hne : ¬ elem.number = -1 := by omega
        simp [h, hte, List.find?, hne]
    · simp [h]

/-- C20: for every negotiated codec list (payload-type numbers are not negative),
`makeProfile` sets `*usedPt` to the number of the first codec in list order
whose mime type is not "telephone-event", compared without regard to case, and
to -1 when the list is empty or holds telephone-event codecs only. -/
theorem makeProfile_usedPt (handler : PayloadTypeHandler) (core : Core) (g : StreamsGroup)
    (s : Stream) (md : SalMediaDescription) (desc : SalStreamDescription)
    (hvalid : ∀ pt ∈ desc.payloads, 0 ≤ pt.number) :
    (makeProfile handler core g s md desc).usedPt =
      match desc.payloads.find? (fun pt => !strcasecmpEq pt.mime_type "telephone-event") with
      | some pt => pt.number
      | none => -1 := by
  have h := makeProfileLoop_usedPt handler core desc desc.payloads
    (makeProfileInit handler core g md desc) hvalid
  exact h

/-- Instance of `makeProfile_usedPt`: in `sampleAudioDescription` the first codec
is "Telephone-Event" and the chosen number is 0, that of PCMU. -/
theorem makeProfile_usedPt_witness :
    (∀ pt ∈ sampleAudioDescription.payloads, 0 ≤ pt.number) ∧
    (makeProfile PayloadTypeHandler.ofSpec sampleBandwidthCore sampleAudioGroup
      sampleAudioStream sampleAudioOnlyDescription sampleAudioDescription).usedPt =
      match sampleAudioDescription.payloads.find?
          (fun pt => !strcasecmpEq pt.mime_type "telephone-event") with
      | some pt => pt.number
      | none => -1 :=
  ⟨by decide,
    makeProfile_usedPt PayloadTypeHandler.ofSpec sampleBandwidthCore sampleAudioGroup
      sampleAudioStream sampleAudioOnlyDescription sampleAudioDescription (by decide)⟩

end MS2Stream


/-! ## Rendering the streams of a group -/

theorem MS2Stream.render_some (s r : Stream) (ctx : OfferAnswerContext)
    (h : MS2Stream.render s ctx = some r) : r = s.render := by
  unfold MS2Stream.render at h
  split at h
  · split_ifs at h
    · exact (Option.some.inj h).symm
    · split at h
      · exact (Option.some.inj h).symm
      · cases h
  · cases h

namespace StreamsGroup

theorem renderStream_spec (st : SessionState) (ctx : OfferAnswerContext) (slot : Nat)
    (s : Stream) (effects : List GroupEffect) (r : SessionState × List GroupEffect)
    (h : renderStream st ctx slot s effects = some r) :
    r.1 = { st with group := { st.group with
              mStreams := st.group.mStreams.set slot (some s.render) } } ∧
    r.2 = effects
      ++ (if s.getState = State.Preparing then [GroupEffect.finishPrepare s.ident] else [])
      ++ [GroupEffect.render s.ident] := by
  unfold renderStream at h
  cases hr : MS2Stream.render s ctx with
  | none => rw [hr] at h; cases h
  | some rendered =>
    rw [hr] at h
    have := MS2Stream.render_some s rendered ctx hr
    subst this
    simp only [Option.some.injEq] at h
    subst h
    exact ⟨rfl, rfl⟩

theorem createStream_created (core : Core) (st st2 : SessionState) (params : OfferAnswerContext)
    (created : Stream) (h : createStream core st params = some (st2, some created)) :
    created.getIndex = params.streamIndex ∧ created.ident = st.allocated ∧
    created.getState = State.Stopped ∧ st2.allocated = st.allocated + 1 ∧
    st2.group = { st.group with mStreams :=
      (resizeFor st.group.mStreams params.streamIndex).set params.streamIndex (some created) } := by
  cases hl : params.localStreamDescription with
  | none =>
    unfold createStream at h
    rw [hl] at h
    cases h
  | some l =>
    rcases createStream_cases core st st2 params l (some created) hl h with
      ⟨_, _, hnone⟩ | ⟨_, s, d, hc, hs, hst⟩
    · cases hnone
    · have hs2 : created = s := Option.some.inj hs
      subst hs2
      obtain ⟨_, hidx, hid, hstate⟩ :=
        MS2Stream.construct_attrs core _ params _ _ l created d hl hc
      subst hst
      exact ⟨hidx, hid, hstate, rfl, rfl⟩

/-- What one round of the loop of `render` does, case by case. -/
theorem renderStep_spec (core : Core) (changes : Nat → Nat × Nat) (params : OfferAnswerContext)
    (acc acc2 : SessionState × List GroupEffect) (k : Nat)
    (h : renderStep core changes params acc k = some acc2) :
    ∃ stream, acc.1.group.mStreams.getD k none = some stream ∧
      ((params.scopeStreamToIndexWithDiff changes stream.getIndex).castChanged = true ∧
        stream.getIndex < acc.1.group.mStreams.length ∧
        (∃ created st2,
          createStream core
            { acc.1 with group := { acc.1.group with
                mStreams := acc.1.group.mStreams.set k
                  (some (MS2Stream.stop core.listener stream).1) } }
            (params.scopeStreamToIndexWithDiff changes stream.getIndex)
            = some (st2, some created) ∧
          acc2.1 = { st2 with group := { st2.group with
                      mStreams := st2.group.mStreams.set stream.getIndex (some created.render) } } ∧
          acc2.2 = acc.2 ++ stopCalls core.listener stream
            ++ (if created.getState = State.Preparing
                then [GroupEffect.finishPrepare created.ident] else [])
            ++ [GroupEffect.render created.ident])
      ∨
      (params.scopeStreamToIndexWithDiff changes stream.getIndex).castChanged = false ∧
        acc2.1 = { acc.1 with group := { acc.1.group with
                    mStreams := acc.1.group.mStreams.set k (some stream.render) } } ∧
        acc2.2 = acc.2
          ++ (if stream.getState = State.Preparing
              then [GroupEffect.finishPrepare stream.ident] else [])
          ++ [GroupEffect.render stream.ident]) := by
  unfold renderStep at h
  cases hslot : acc.1.group.mStreams.getD k none with
  | none => rw [hslot] at h; cases h
  | some stream =>
    rw [hslot] at h
    refine ⟨stream, rfl, ?_⟩
    simp only at h
    by_cases hc : (params.scopeStreamToIndexWithDiff changes stream.getIndex).castChanged = true
    · left
      rw [if_pos hc] at h
      split_ifs at h with hlen
      simp only [List.length_set, ge_iff_le, not_le] at hlen
      refine ⟨hc, hlen, ?_⟩
      split at h
      · rename_i st2 created hcs
        obtain ⟨h1, h2⟩ := renderStream_spec _ _ _ _ _ _ h
        exact ⟨created, st2, hcs, h1, h2⟩
      · cases h
    · right
      rw [if_neg hc] at h
      obtain ⟨h1, h2⟩ := renderStream_spec _ _ _ _ _ _ h
      exact ⟨by simpa using hc, h1, h2⟩

end StreamsGroup


namespace StreamsGroup

theorem resizeFor_of_lt (slots : List (Option Stream)) (i : Nat) (h : i < slots.length) :
    resizeFor slots i = slots := by
  unfold resizeFor
  split_ifs with h2
  · omega
  · rfl

theorem stopCalls_streamLevel (listener : Bool) (s : Stream) :
    (stopCalls listener s).all GroupEffect.isStreamLevel = true := by
  unfold stopCalls
  rw [List.all_eq_true]
  intro e he
  obtain ⟨x, _, hx⟩ := List.mem_map.mp he
  subst hx
  rfl

theorem stopCalls_no_render (listener : Bool) (s : Stream) :
    (stopCalls listener s).countP GroupEffect.isRender = 0 := by
  unfold stopCalls
  rw [List.countP_eq_zero]
  intro e he
  obtain ⟨x, _, hx⟩ := List.mem_map.mp he
  subst hx
  simp [GroupEffect.isRender]

/-- One round of the loop of `render` leaves the hook queue, the timer and the
number of slots as they are, and makes calls on streams only, exactly one of
them a `render`. -/
theorem renderStep_frame (core : Core) (changes : Nat → Nat × Nat) (params : OfferAnswerContext)
    (acc acc2 : SessionState × List GroupEffect) (k : Nat)
    (h : renderStep core changes params acc k = some acc2) :
    acc2.1.group.mPostRenderHooks = acc.1.group.mPostRenderHooks ∧
    acc2.1.group.mBandwidthReportTimer = acc.1.group.mBandwidthReportTimer ∧
    acc2.1.group.mStreams.length = acc.1.group.mStreams.length ∧
    ∃ extra, acc2.2 = acc.2 ++ extra ∧ extra.all GroupEffect.isStreamLevel = true ∧
      extra.countP GroupEffect.isRender = 1 := by
  obtain ⟨stream, _, hcase⟩ := renderStep_spec core changes params acc acc2 k h
  rcases hcase with ⟨_, hlen, created, st2, hcs, h1, h2⟩ | ⟨_, h1, h2⟩
  · obtain ⟨_, _, _, _, hg⟩ := createStream_created _ _ _ _ _ hcs
    have hidx : (params.scopeStreamToIndexWithDiff changes stream.getIndex).streamIndex
        = stream.getIndex := rfl
    rw [hidx] at hg
    simp only at hg
    rw [resizeFor_of_lt _ _ (by simpa using hlen)] at hg
    refine ⟨by rw [h1, hg], by rw [h1, hg], by rw [h1, hg]; simp, ?_⟩
    refine ⟨stopCalls core.listener stream
        ++ (if created.getState = State.Preparing
            then [GroupEffect.finishPrepare created.ident] else [])
        ++ [GroupEffect.render created.ident], by rw [h2]; simp, ?_, ?_⟩
    · rw [List.all_append, List.all_append, stopCalls_streamLevel]
      split_ifs <;> rfl
    · rw [List.countP_append, List.countP_append, stopCalls_no_render]
      split_ifs <;> rfl
  · refine ⟨by rw [h1], by rw [h1], by rw [h1]; simp, ?_⟩
    refine ⟨(if stream.getState = State.Preparing
            then [GroupEffect.finishPrepare stream.ident] else [])
        ++ [GroupEffect.render stream.ident], by rw [h2]; simp, ?_, ?_⟩
    · rw [List.all_append]
      split_ifs <;> rfl
    · rw [List.countP_append]
      split_ifs <;> rfl

/-- The loop of `render` over any list of slots: frame and calls. -/
theorem renderLoop_frame (core : Core) (changes : Nat → Nat × Nat) (params : OfferAnswerContext)
    (ks : List Nat) :
    ∀ acc acc2 : SessionState × List GroupEffect,
      ks.foldlM (renderStep core changes params) acc = some acc2 →
      acc2.1.group.mPostRenderHooks = acc.1.group.mPostRenderHooks ∧
      acc2.1.group.mBandwidthReportTimer = acc.1.group.mBandwidthReportTimer ∧
      acc2.1.group.mStreams.length = acc.1.group.mStreams.length ∧
      ∃ extra, acc2.2 = acc.2 ++ extra ∧ extra.all GroupEffect.isStreamLevel = true ∧
        extra.countP GroupEffect.isRender = ks.length := by
  induction ks with
  | nil =>
    intro acc acc2 h
    simp only [List.foldlM_nil] at h
    have : acc = acc2 := Option.some.inj h
    subst this
    exact ⟨rfl, rfl, rfl, [], by simp, rfl, rfl⟩
  | cons k ks ih =>
    intro acc acc2 h
    rw [List.foldlM_cons] at h
    cases hstep : renderStep core changes params acc k with
    | none => rw [hstep] at h; cases h
    | some mid =>
      rw [hstep] at h
      obtain ⟨a1, a2, a3, e1, a4, a5, a6⟩ := renderStep_frame core changes params acc mid k hstep
      obtain ⟨b1, b2, b3, e2, b4, b5, b6⟩ := ih mid acc2 h
      refine ⟨b1.trans a1, b2.trans a2, b3.trans a3, e1 ++ e2, ?_, ?_, ?_⟩
      · rw [b4, a4, List.append_assoc]
      · rw [List.all_append, a5, b5]; rfl
      · rw [List.countP_append, a6, b6, List.length_cons]; omega

end StreamsGroup


namespace StreamsGroup

theorem startDtlsLoop_spec (l : List (Option Stream)) :
    ∀ effects, startDtlsLoop l = some effects →
      effects = (l.filterMap id).map (fun s => GroupEffect.startDtls s.ident) := by
  induction l with
  | nil =>
    intro effects h
    simp only [startDtlsLoop, Option.some.injEq] at h
    subst h
    rfl
  | cons slot rest ih =>
    intro effects h
    cases slot with
    | none => simp [startDtlsLoop] at h
    | some stream =>
      simp only [startDtlsLoop] at h
      cases hrest : startDtlsLoop rest with
      | none => rw [hrest] at h; cases h
      | some effs =>
        rw [hrest] at h
        simp only [Option.some.injEq] at h
        subst h
        rw [ih effs hrest]
        simp

theorem addPostRenderHook_foldl (hs : List Nat) :
    ∀ g : StreamsGroup,
      (hs.foldl addPostRenderHook g).mPostRenderHooks = g.mPostRenderHooks ++ hs ∧
      (hs.foldl addPostRenderHook g).mStreams = g.mStreams ∧
      (hs.foldl addPostRenderHook g).mBandwidthReportTimer = g.mBandwidthReportTimer := by
  induction hs with
  | nil => intro g; simp
  | cons h hs ih =>
    intro g
    obtain ⟨h1, h2, h3⟩ := ih (g.addPostRenderHook h)
    rw [List.foldl_cons]
    refine ⟨?_, ?_, ?_⟩
    · rw [h1]; simp [addPostRenderHook]
    · rw [h2]; rfl
    · rw [h3]; rfl

/-- The calls of a `render`, in order: the calls of the loop over the streams (one
`render` per slot), the creation of the timer when the group has none, the hooks
of the queue, then either the start of the connectivity checks or one
`startDtls` per stream.  Afterwards the queue is empty and the group has a
timer. -/
theorem render_trace (core : Core) (changes : Nat → Nat × Nat) (hasCompleted : Bool)
    (params : OfferAnswerContext) (st : SessionState) (r : SessionState × List GroupEffect)
    (h : render core changes hasCompleted params st = some r) :
    ∃ loop ice, r.2 = loop
        ++ (if st.group.mBandwidthReportTimer = false then [GroupEffect.createTimer] else [])
        ++ st.group.mPostRenderHooks.map GroupEffect.hook ++ ice ∧
      loop.all GroupEffect.isStreamLevel = true ∧
      loop.countP GroupEffect.isRender = st.group.mStreams.length ∧
      (hasCompleted = false → ice = [GroupEffect.startConnectivityChecks]) ∧
      (hasCompleted = true →
        ice = r.1.group.ownedStreams.map (fun s => GroupEffect.startDtls s.ident)) ∧
      r.1.group.mPostRenderHooks = [] ∧
      r.1.group.mBandwidthReportTimer = true ∧
      r.1.group.mCurrentOfferAnswerState = params ∧
      r.1.group.mStreams.length = st.group.mStreams.length := by
  unfold render at h
  cases hloop : (List.range st.group.mStreams.length).foldlM (renderStep core changes params)
      (st, []) with
  | none => rw [hloop] at h; cases h
  | some rendered =>
    rw [hloop] at h
    obtain ⟨f1, f2, f3, loop, f4, f5, f6⟩ :=
      renderLoop_frame core changes params _ (st, []) rendered hloop
    simp only [List.nil_append, List.length_range] at f1 f2 f3 f4 f6
    simp only at h
    cases hc : hasCompleted with
    | false =>
      rw [hc] at h
      simp only [Bool.not_false, if_true, Option.some.injEq] at h
      subst h
      refine ⟨loop, [GroupEffect.startConnectivityChecks], ?_, f5, f6, fun _ => rfl,
        fun hh => Bool.noConfusion hh, rfl, rfl, rfl, f3⟩
      simp only [f4, f2, f1]
      cases st.group.mBandwidthReportTimer <;> simp
    | true =>
      rw [hc] at h
      simp only [Bool.not_true] at h
      cases hd : startDtls rendered.1.group with
      | none => simp [hd] at h
      | some ice =>
        simp only [hd, Bool.false_eq_true, if_false, Option.some.injEq] at h
        subst h
        refine ⟨loop, ice, ?_, f5, f6, fun hh => Bool.noConfusion hh,
          fun _ => startDtlsLoop_spec _ _ hd, rfl, rfl, rfl, f3⟩
        simp only [f4, f2, f1]
        cases st.group.mBandwidthReportTimer <;> simp

end StreamsGroup


namespace StreamsGroup

theorem streamLevel_only (l : List GroupEffect) (h : l.all GroupEffect.isStreamLevel = true) :
    l.any GroupEffect.isHook = false ∧ l.any GroupEffect.isIceOrDtls = false := by
  rw [List.all_eq_true] at h
  refine ⟨?_, ?_⟩
  · rw [List.any_eq_false]
    intro e he
    have := h e he
    cases e <;> simp_all [GroupEffect.isHook, GroupEffect.isStreamLevel]
  · rw [List.any_eq_false]
    intro e he
    have := h e he
    cases e <;> simp_all [GroupEffect.isIceOrDtls, GroupEffect.isStreamLevel]

theorem hooks_only (hs : List Nat) :
    (hs.map GroupEffect.hook).any GroupEffect.isIceOrDtls = false ∧
    (hs.map GroupEffect.hook).countP GroupEffect.isRender = 0 := by
  refine ⟨?_, ?_⟩
  · rw [List.any_eq_false]
    intro e he
    obtain ⟨x, _, hx⟩ := List.mem_map.mp he
    subst hx
    simp [GroupEffect.isIceOrDtls]
  · rw [List.countP_eq_zero]
    intro e he
    obtain ⟨x, _, hx⟩ := List.mem_map.mp he
    subst hx
    simp [GroupEffect.isRender]

theorem startDtls_only (l : List Stream) :
    (l.map (fun s => GroupEffect.startDtls s.ident)).any GroupEffect.isHook = false ∧
    (l.map (fun s => GroupEffect.startDtls s.ident)).any GroupEffect.isStreamLevel = false := by
  refine ⟨?_, ?_⟩
  · rw [List.any_eq_false]
    intro e he
    obtain ⟨x, _, hx⟩ := List.mem_map.mp he
    subst hx
    simp [GroupEffect.isHook]
  · rw [List.any_eq_false]
    intro e he
    obtain ⟨x, _, hx⟩ := List.mem_map.mp he
    subst hx
    simp [GroupEffect.isStreamLevel]

/-- The part of the trace of a render that follows the hooks has no hook and no
call on a stream of the loop. -/
theorem render_trace_tail (hasCompleted : Bool) (ice : List GroupEffect) (l : List Stream)
    (h1 : hasCompleted = false → ice = [GroupEffect.startConnectivityChecks])
    (h2 : hasCompleted = true → ice = l.map (fun s => GroupEffect.startDtls s.ident)) :
    ice.any GroupEffect.isHook = false ∧ ice.any GroupEffect.isStreamLevel = false := by
  cases hasCompleted with
  | false => rw [h1 rfl]; exact ⟨rfl, rfl⟩
  | true => rw [h2 rfl]; exact startDtls_only l

end StreamsGroup


/-! ## Post-render hooks -/

namespace StreamsGroup

/-- C13: let the hooks `hs` be registered with `addPostRenderHook`, in this order,
on a group whose queue is empty, and let the next `render` return.  Then its
trace is `pre ++ hs.map hook ++ post` where neither `pre` nor `post` invokes a
hook, so that each hook is invoked exactly once and in the order of
registration; `pre` holds the `render` of every slot and `post` holds no call
of the loop over the streams, so that the hooks run after all streams have been
rendered.  The queue is empty afterwards, and a later `render` of the resulting
group invokes no hook. -/
theorem render_hooks (core core2 : Core) (changes changes2 : Nat → Nat × Nat)
    (hasCompleted hasCompleted2 : Bool) (params params2 : OfferAnswerContext)
    (st : SessionState) (hs : List Nat) (r : SessionState × List GroupEffect)
    (hempty : st.group.mPostRenderHooks = [])
    (h : render core changes hasCompleted params
      { st with group := hs.foldl addPostRenderHook st.group } = some r) :
    (∃ pre post, r.2 = pre ++ hs.map GroupEffect.hook ++ post ∧
      pre.any GroupEffect.isHook = false ∧ post.any GroupEffect.isHook = false ∧
      pre.countP GroupEffect.isRender = st.group.mStreams.length ∧
      post.any GroupEffect.isStreamLevel = false) ∧
    r.1.group.mPostRenderHooks = [] ∧
    ∀ r2, render core2 changes2 hasCompleted2 params2 r.1 = some r2 →
      r2.2.any GroupEffect.isHook = false := by
  obtain ⟨q1, q2, q3⟩ := addPostRenderHook_foldl hs st.group
  obtain ⟨loop, ice, t1, t2, t3, t4, t5, t6, _, _, _⟩ :=
    render_trace core changes hasCompleted params _ r h
  simp only [q1, q2, q3, hempty, List.nil_append] at t1 t3
  obtain ⟨i1, i2⟩ := render_trace_tail hasCompleted ice _ t4 t5
  refine ⟨⟨loop ++ (if st.group.mBandwidthReportTimer = false then [GroupEffect.createTimer]
      else []), ice, t1, ?_, i1, ?_, i2⟩, t6, ?_⟩
  · rw [List.any_append, (streamLevel_only loop t2).1]
    split_ifs <;> rfl
  · rw [List.countP_append, t3]
    split_ifs <;> rfl
  · intro r2 h2
    obtain ⟨loop2, ice2, u1, u2, _, u4, u5, _, _, _, _⟩ :=
      render_trace core2 changes2 hasCompleted2 params2 r.1 r2 h2
    obtain ⟨j1, _⟩ := render_trace_tail hasCompleted2 ice2 _ u4 u5
    rw [u1, t6]
    simp only [List.map_nil, List.append_nil, List.any_append, (streamLevel_only loop2 u2).1, j1]
    split_ifs <;> rfl

/-- Instance of `render_hooks`: the hooks 4 and 2 registered on
`samplePreparingState`, rendered for `sampleAnswer` while ICE has not
completed.  A second render of the result is defined. -/
theorem render_hooks_witness :
    samplePreparingState.group.mPostRenderHooks = [] ∧
    render sampleCore sampleNoChange false sampleAnswer
      { samplePreparingState with
        group := [4, 2].foldl addPostRenderHook samplePreparingState.group } =
      some (sampleRenderedState, sampleHookedTrace) ∧
    (render sampleCore sampleNoChange true sampleAnswer sampleRenderedState).isSome = true ∧
    ((∃ pre post, sampleHookedTrace = pre ++ [4, 2].map GroupEffect.hook ++ post ∧
        pre.any GroupEffect.isHook = false ∧ post.any GroupEffect.isHook = false ∧
        pre.countP GroupEffect.isRender = samplePreparingState.group.mStreams.length ∧
        post.any GroupEffect.isStreamLevel = false) ∧
      sampleRenderedState.group.mPostRenderHooks = [] ∧
      ∀ r2, render sampleCore sampleNoChange true sampleAnswer sampleRenderedState = some r2 →
        r2.2.any GroupEffect.isHook = false) :=
  ⟨by decide, by decide, by decide,
    render_hooks sampleCore sampleCore sampleNoChange sampleNoChange false true sampleAnswer
      sampleAnswer samplePreparingState [4, 2] (sampleRenderedState, sampleHookedTrace)
      (by decide) (by decide)⟩

end StreamsGroup

/-! ## ICE and DTLS at the end of a render -/

namespace StreamsGroup

/-- C14: when `render` returns, its trace holds a `startDtls` only if the ICE agent
reported `hasCompleted()`.  When it did not, the trace ends with the start of
the connectivity checks, which follows the `render` of every slot, and holds no
`startDtls`.  When it did, the trace ends with one `startDtls` per stream, after
the `render` of every slot, and the connectivity checks are not started. -/
theorem render_dtls_after_ice (core : Core) (changes : Nat → Nat × Nat) (hasCompleted : Bool)
    (params : OfferAnswerContext) (st : SessionState) (r : SessionState × List GroupEffect)
    (h : render core changes hasCompleted params st = some r) :
    (r.2.any GroupEffect.isStartDtls = true → hasCompleted = true) ∧
    (hasCompleted = false →
      ∃ pre, r.2 = pre ++ [GroupEffect.startConnectivityChecks] ∧
        pre.countP GroupEffect.isRender = st.group.mStreams.length ∧
        pre.any GroupEffect.isIceOrDtls = false) ∧
    (hasCompleted = true →
      ∃ pre, r.2 = pre ++ r.1.group.ownedStreams.map (fun s => GroupEffect.startDtls s.ident) ∧
        pre.countP GroupEffect.isRender = st.group.mStreams.length ∧
        pre.any GroupEffect.isIceOrDtls = false) := by
  obtain ⟨loop, ice, t1, t2, t3, t4, t5, _, _, _, _⟩ :=
    render_trace core changes hasCompleted params st r h
  have hpre : (loop ++ (if st.group.mBandwidthReportTimer = false then [GroupEffect.createTimer]
        else []) ++ st.group.mPostRenderHooks.map GroupEffect.hook).countP GroupEffect.isRender
        = st.group.mStreams.length ∧
      (loop ++ (if st.group.mBandwidthReportTimer = false then [GroupEffect.createTimer]
        else []) ++ st.group.mPostRenderHooks.map GroupEffect.hook).any GroupEffect.isIceOrDtls
        = false := by
    refine ⟨?_, ?_⟩
    · rw [List.countP_append, List.countP_append, t3, (hooks_only _).2]
      split_ifs <;> rfl
    · rw [List.any_append, List.any_append, (streamLevel_only loop t2).2, (hooks_only _).1]
      split_ifs <;> rfl
  refine ⟨?_, fun hc => ⟨_, by rw [t1, t4 hc], hpre.1, hpre.2⟩,
    fun hc => ⟨_, by rw [t1, t5 hc], hpre.1, hpre.2⟩⟩
  intro hd
  cases hc : hasCompleted with
  | true => rfl
  | false =>
    exfalso
    rw [t1, t4 hc, List.any_append] at hd
    have hno : ∀ l : List GroupEffect, l.any GroupEffect.isIceOrDtls = false →
        l.any GroupEffect.isStartDtls = false := by
      intro l hl
      rw [List.any_eq_false] at hl ⊢
      intro e he
      have := hl e he
      cases e <;> simp_all [GroupEffect.isIceOrDtls, GroupEffect.isStartDtls]
    rw [hno _ hpre.2] at hd
    exact absurd hd (by decide)

/-- Instance of `render_dtls_after_ice`: `samplePreparingState` rendered for
`sampleAnswer` with a cast change of the video stream once ICE has completed;
`startDtls` is called on the audio stream and on the new video stream. -/
theorem render_dtls_after_ice_witness :
    render sampleCore sampleCastChange true sampleAnswer samplePreparingState =
      some (sampleRecastState, sampleRecastTrace) ∧
    (sampleRecastTrace.any GroupEffect.isStartDtls = true → true = true) ∧
    (true = false →
      ∃ pre, sampleRecastTrace = pre ++ [GroupEffect.startConnectivityChecks] ∧
        pre.countP GroupEffect.isRender = samplePreparingState.group.mStreams.length ∧
        pre.any GroupEffect.isIceOrDtls = false) ∧
    (true = true →
      ∃ pre, sampleRecastTrace =
          pre ++ sampleRecastState.group.ownedStreams.map
            (fun s => GroupEffect.startDtls s.ident) ∧
        pre.countP GroupEffect.isRender = samplePreparingState.group.mStreams.length ∧
        pre.any GroupEffect.isIceOrDtls = false) :=
  ⟨by decide,
    render_dtls_after_ice sampleCore sampleCastChange true sampleAnswer samplePreparingState
      (sampleRecastState, sampleRecastTrace) (by decide)⟩

end StreamsGroup


/-! ## Change of cast during a render -/

namespace StreamsGroup

theorem renderedSlot_append (listener changed : Bool) (allocated k : Nat) (old : Stream)
    (slot : Option (Option Stream)) (trace extra : List GroupEffect)
    (h : renderedSlot listener changed allocated k old slot trace) :
    renderedSlot listener changed allocated k old slot (trace ++ extra) := by
  obtain ⟨new, h1, h2, h3, h4, h5⟩ := h
  refine ⟨new, h1, h2, h3, ?_, ?_⟩
  · intro hc
    obtain ⟨a, pre, post, ht, hp⟩ := h4 hc
    exact ⟨a, pre, post ++ extra, by rw [ht]; simp, hp⟩
  · intro hc
    obtain ⟨a, pre, post, ht, hp⟩ := h5 hc
    exact ⟨a, pre, post ++ extra, by rw [ht]; simp, hp⟩

theorem getD_eq_some (l : List (Option Stream)) (k : Nat) (s : Stream)
    (h : l.getD k none = some s) : l[k]? = some (some s) ∧ k < l.length := by
  rw [List.getD_eq_getElem?_getD] at h
  cases hk : l[k]? with
  | none => rw [hk] at h; cases h
  | some slot =>
    rw [hk] at h
    have hlt : k < l.length := (List.getElem?_eq_some_iff.mp hk).1
    exact ⟨by rw [show slot = some s from h], hlt⟩

/-- One round of the loop of `render` on a slot whose stream has the index of the
slot: the slot receives the rendered stream, new or not, and nothing else
changes in the collection. -/
theorem renderStep_slot (core : Core) (changes : Nat → Nat × Nat) (params : OfferAnswerContext)
    (acc acc2 : SessionState × List GroupEffect) (k : Nat) (old : Stream)
    (hold : acc.1.group.mStreams[k]? = some (some old)) (hidx : old.getIndex = k)
    (hcount : acc.2.countP GroupEffect.isRender = k)
    (h : renderStep core changes params acc k = some acc2) :
    ∃ new, acc2.1.group.mStreams = acc.1.group.mStreams.set k (some new) ∧
      k < acc.1.group.mStreams.length ∧
      acc.1.allocated ≤ acc2.1.allocated ∧
      renderedSlot core.listener (params.scopeStreamToIndexWithDiff changes k).castChanged
        acc.1.allocated k old (some (some new)) acc2.2 ∧
      new.getIndex = k := by
  obtain ⟨stream, hslot, hcase⟩ := renderStep_spec core changes params acc acc2 k h
  obtain ⟨hslot2, hk⟩ := getD_eq_some _ _ _ hslot
  have hso : stream = old := by
    rw [hold] at hslot2
    exact (Option.some.inj (Option.some.inj hslot2)).symm
  subst hso
  rw [hidx] at hcase
  rcases hcase with ⟨hc, _, created, st2, hcs, h1, h2⟩ | ⟨hc, h1, h2⟩
  · obtain ⟨c1, c2, c3, c4, c5⟩ := createStream_created _ _ _ _ _ hcs
    have hsi : (params.scopeStreamToIndexWithDiff changes k).streamIndex = k := rfl
    rw [hsi] at c1 c5
    simp only at c2 c4 c5
    rw [resizeFor_of_lt _ _ (by simpa using hk), List.set_set] at c5
    rw [c3] at h2
    simp only [State.noConfusion, if_false, List.append_nil, reduceCtorEq] at h2
    refine ⟨created.render, ?_, hk, ?_, ?_, c1⟩
    · rw [h1, c5]; simp [hidx]
    · rw [h1]; simp only; omega
    · refine ⟨created.render, rfl, ?_, rfl, ?_, ?_⟩
      · exact c1.trans (by rfl)
      · intro _
        exact ⟨by show acc.1.allocated ≤ created.ident; omega, acc.2, [],
          by rw [h2]; simp [Stream.render], hcount⟩
      · intro hf
        rw [hc] at hf
        cases hf
  · refine ⟨stream.render, by rw [h1], hk, by rw [h1], ?_, hidx⟩
    refine ⟨stream.render, rfl, hidx, rfl, ?_, ?_⟩
    · intro hf
      rw [hc] at hf
      cases hf
    · intro _
      by_cases hp : stream.getState = State.Preparing
      · exact ⟨rfl, acc.2 ++ [GroupEffect.finishPrepare stream.ident], [],
          by rw [h2, if_pos hp]; simp, by rw [List.countP_append, hcount]; rfl⟩
      · exact ⟨rfl, acc.2, [], by rw [h2, if_neg hp]; simp, hcount⟩

end StreamsGroup


namespace StreamsGroup

theorem renderedSlot_mono (listener changed : Bool) (a b k : Nat) (old : Stream)
    (slot : Option (Option Stream)) (trace : List GroupEffect) (hab : a ≤ b)
    (h : renderedSlot listener changed b k old slot trace) :
    renderedSlot listener changed a k old slot trace := by
  obtain ⟨new, h1, h2, h3, h4, h5⟩ := h
  refine ⟨new, h1, h2, h3, ?_, h5⟩
  intro hc
  obtain ⟨hb, rest⟩ := h4 hc
  exact ⟨le_trans hab hb, rest⟩

/-- Invariant of the loop of `render` on an indexed group, after the slots below
`j`: the later slots are untouched and each earlier slot satisfies
`renderedSlot`. -/
theorem renderLoop_slots (core : Core) (changes : Nat → Nat × Nat) (params : OfferAnswerContext)
    (st : SessionState) (hidx : st.group.indexed) :
    ∀ (j : Nat) (acc : SessionState × List GroupEffect),
      (List.range j).foldlM (renderStep core changes params) (st, []) = some acc →
      acc.1.group.mStreams.length = st.group.mStreams.length ∧
      (∀ i, j ≤ i → acc.1.group.mStreams[i]? = st.group.mStreams[i]?) ∧
      st.allocated ≤ acc.1.allocated ∧
      acc.2.countP GroupEffect.isRender = j ∧
      ∀ (k : Nat) (old : Stream), k < j → st.group.mStreams[k]? = some (some old) →
        renderedSlot core.listener (params.scopeStreamToIndexWithDiff changes k).castChanged
          st.allocated k old acc.1.group.mStreams[k]? acc.2 := by
  intro j
  induction j with
  | zero =>
    intro acc h
    have : acc = (st, []) := by
      simp only [List.range_zero, List.foldlM, pure, Option.some.injEq] at h
      exact h.symm
    subst this
    exact ⟨rfl, fun _ _ => rfl, le_refl _, rfl, fun k old hk _ => absurd hk (by omega)⟩
  | succ j ih =>
    intro acc h
    rw [foldlM_range_succ] at h
    cases hmid : (List.range j).foldlM (renderStep core changes params) (st, []) with
    | none => rw [hmid] at h; cases h
    | some mid =>
      rw [hmid] at h
      have hstep : renderStep core changes params mid j = some acc := h
      obtain ⟨ia, ib, ic, id, ie⟩ := ih mid hmid
      obtain ⟨stream, hslot, _⟩ := renderStep_spec core changes params mid acc j hstep
      obtain ⟨hslot2, hj⟩ := getD_eq_some _ _ _ hslot
      have hst : st.group.mStreams[j]? = some (some stream) := by
        rw [← ib j (le_refl _)]; exact hslot2
      have hsi : stream.getIndex = j := hidx j stream hst
      obtain ⟨new, s1, _, s3, s4, _⟩ :=
        renderStep_slot core changes params mid acc j stream hslot2 hsi id hstep
      obtain ⟨_, _, _, extra, f1, _, f3⟩ := renderStep_frame core changes params mid acc j hstep
      refine ⟨by rw [s1, List.length_set, ia], ?_, le_trans ic s3, ?_, ?_⟩
      · intro i hi
        rw [s1, List.getElem?_set_ne (by omega), ib i (by omega)]
      · rw [f1, List.countP_append, id, f3]
      · intro k old hk hold
        by_cases hkj : k = j
        · subst hkj
          have : old = stream := by
            rw [hst] at hold
            exact (Option.some.inj (Option.some.inj hold)).symm
          subst this
          rw [s1, List.getElem?_set_self hj]
          exact renderedSlot_mono _ _ _ _ _ _ _ _ ic s4
        · rw [s1, List.getElem?_set_ne (fun hh => hkj hh.symm), f1]
          exact renderedSlot_append _ _ _ _ _ _ _ _ (ie k old (by omega) hold)

/-- The function `render` is its loop followed by calls that leave the collection
as the loop built it. -/
theorem render_loop (core : Core) (changes : Nat → Nat × Nat) (hasCompleted : Bool)
    (params : OfferAnswerContext) (st : SessionState) (r : SessionState × List GroupEffect)
    (h : render core changes hasCompleted params st = some r) :
    ∃ rendered tail,
      (List.range st.group.mStreams.length).foldlM (renderStep core changes params) (st, [])
        = some rendered ∧
      r.1.group.mStreams = rendered.1.group.mStreams ∧ r.2 = rendered.2 ++ tail := by
  unfold render at h
  cases hloop : (List.range st.group.mStreams.length).foldlM (renderStep core changes params)
      (st, []) with
  | none => rw [hloop] at h; cases h
  | some rendered =>
    rw [hloop] at h
    simp only at h
    split at h
    · cases h
    · rename_i iceEffects _
      simp only [Option.some.injEq] at h
      subst h
      exact ⟨rendered,
        (if (!rendered.1.group.mBandwidthReportTimer) = true then [GroupEffect.createTimer]
          else []) ++ (rendered.1.group.mPostRenderHooks.map GroupEffect.hook ++ iceEffects),
        rfl, rfl, by simp only [List.append_assoc]⟩

end StreamsGroup


namespace StreamsGroup

/-- C12: let `render` return on a group whose streams have the index of their slot
and identities allocated before the render, and let the slot `k` hold the stream
`old`.  Afterwards the slot `k` holds a stream `new` of index `k`.  When the cast
bit is set in a change mask of index `k`, `new` is an instance that the group did
not own before, and the round of the slot (the one that follows `k` calls of
`render`) consists of the calls of the `stop` of `old` followed directly by the
`render` of `new`.  When the bit is not set, `new` has the identity of `old` and
the round of the slot renders it. -/
theorem render_recast (core : Core) (changes : Nat → Nat × Nat) (hasCompleted : Bool)
    (params : OfferAnswerContext) (st : SessionState) (r : SessionState × List GroupEffect)
    (k : Nat) (old : Stream)
    (hidx : st.group.indexed)
    (hfresh : ∀ s, st.group.owns s → s.ident < st.allocated)
    (h : render core changes hasCompleted params st = some r)
    (hold : st.group.mStreams[k]? = some (some old)) :
    ∃ new, r.1.group.mStreams[k]? = some (some new) ∧ new.getIndex = k ∧
      ((params.scopeStreamToIndexWithDiff changes k).castChanged = true →
        (∀ s, st.group.owns s → new.ident ≠ s.ident) ∧
        ∃ pre post, r.2 = pre ++ stopCalls core.listener old
            ++ [GroupEffect.render new.ident] ++ post ∧
          pre.countP GroupEffect.isRender = k) ∧
      ((params.scopeStreamToIndexWithDiff changes k).castChanged = false →
        new.ident = old.ident ∧
        ∃ pre post, r.2 = pre ++ [GroupEffect.render old.ident] ++ post ∧
          pre.countP GroupEffect.isRender = k) := by
  obtain ⟨rendered, tail, hloop, hm, ht⟩ := render_loop core changes hasCompleted params st r h
  have hk : k < st.group.mStreams.length := (List.getElem?_eq_some_iff.mp hold).1
  obtain ⟨_, _, _, _, hslots⟩ := renderLoop_slots core changes params st hidx _ rendered hloop
  have hslot := renderedSlot_append _ _ _ _ _ _ _ tail (hslots k old hk hold)
  rw [← hm, ← ht] at hslot
  obtain ⟨new, n1, n2, _, n4, n5⟩ := hslot
  refine ⟨new, n1, n2, ?_, ?_⟩
  · intro hc
    obtain ⟨hge, rest⟩ := n4 hc
    refine ⟨?_, rest⟩
    intro s hs heq
    have := hfresh s hs
    omega
  · intro hc
    obtain ⟨hnew, rest⟩ := n5 hc
    exact ⟨by rw [hnew]; rfl, rest⟩

theorem samplePreparingState_indexed : samplePreparingState.group.indexed := by
  intro k s hs
  match k, hs with
  | 0, hs =>
    have : s = Stream.sample 0 0 SalStreamType.SalAudio State.Preparing 7078 false false :=
      (Option.some.inj (Option.some.inj hs)).symm
    rw [this]; rfl
  | 1, hs =>
    have : s = Stream.sample 1 1 SalStreamType.SalVideo State.Preparing 9122 false false :=
      (Option.some.inj (Option.some.inj hs)).symm
    rw [this]; rfl
  | k + 2, hs => cases hs

theorem samplePreparingState_idents :
    ∀ s, samplePreparingState.group.owns s → s.ident < samplePreparingState.allocated := by
  intro s hs
  have hmem : s = Stream.sample 0 0 SalStreamType.SalAudio State.Preparing 7078 false false ∨
      s = Stream.sample 1 1 SalStreamType.SalVideo State.Preparing 9122 false false := by
    simpa [owns, samplePreparingState, StreamsGroup.ofSlots] using hs
  rcases hmem with hmem | hmem <;> rw [hmem] <;> decide

/-- Instance of `render_recast`: the video stream of `samplePreparingState`, whose
result mask has the cast bit in `sampleCastChange`, is replaced by the stream of
identity 2. -/
theorem render_recast_witness :
    samplePreparingState.group.indexed ∧
    (∀ s, samplePreparingState.group.owns s → s.ident < samplePreparingState.allocated) ∧
    render sampleCore sampleCastChange true sampleAnswer samplePreparingState =
      some (sampleRecastState, sampleRecastTrace) ∧
    samplePreparingState.group.mStreams[1]? =
      some (some (Stream.sample 1 1 SalStreamType.SalVideo State.Preparing 9122 false false)) ∧
    (sampleAnswer.scopeStreamToIndexWithDiff sampleCastChange 1).castChanged = true ∧
    ∃ new, sampleRecastState.group.mStreams[1]? = some (some new) ∧ new.getIndex = 1 ∧
      ((sampleAnswer.scopeStreamToIndexWithDiff sampleCastChange 1).castChanged = true →
        (∀ s, samplePreparingState.group.owns s → new.ident ≠ s.ident) ∧
        ∃ pre post, sampleRecastTrace = pre ++ stopCalls sampleCore.listener
              (Stream.sample 1 1 SalStreamType.SalVideo State.Preparing 9122 false false)
            ++ [GroupEffect.render new.ident] ++ post ∧
          pre.countP GroupEffect.isRender = 1) ∧
      ((sampleAnswer.scopeStreamToIndexWithDiff sampleCastChange 1).castChanged = false →
        new.ident =
          (Stream.sample 1 1 SalStreamType.SalVideo State.Preparing 9122 false false).ident ∧
        ∃ pre post, sampleRecastTrace = pre ++ [GroupEffect.render
            (Stream.sample 1 1 SalStreamType.SalVideo State.Preparing 9122 false false).ident]
            ++ post ∧
          pre.countP GroupEffect.isRender = 1) :=
  ⟨samplePreparingState_indexed, samplePreparingState_idents, by decide, by decide, by decide,
    render_recast sampleCore sampleCastChange true sampleAnswer samplePreparingState
      (sampleRecastState, sampleRecastTrace) 1
      (Stream.sample 1 1 SalStreamType.SalVideo State.Preparing 9122 false false)
      samplePreparingState_indexed samplePreparingState_idents (by decide) (by decide)⟩

end StreamsGroup


/-! ## When a render returns -/

namespace StreamsGroup

theorem startDtlsLoop_defined (l : List (Option Stream)) (h : ∀ slot ∈ l, slot ≠ none) :
    ∃ effects, startDtlsLoop l = some effects := by
  induction l with
  | nil => exact ⟨[], rfl⟩
  | cons slot rest ih =>
    obtain ⟨effs, he⟩ := ih (fun s hs => h s (List.mem_cons_of_mem _ hs))
    cases slot with
    | none => exact absurd rfl (h none (List.mem_cons_self _ _))
    | some stream =>
      exact ⟨GroupEffect.startDtls stream.ident :: effs, by simp [startDtlsLoop, he]⟩

/-- The loop of `render` returns on a group without empty slot when no cast has
changed and the descriptions that `MS2Stream::render` reads are present for
the index of every stream. -/
theorem renderLoop_defined (core : Core) (changes : Nat → Nat × Nat)
    (params : OfferAnswerContext) (st : SessionState)
    (hfull : st.group.noEmptySlot)
    (hsame : ∀ s, st.group.owns s →
      (params.scopeStreamToIndexWithDiff changes s.getIndex).castChanged = false)
    (hdef : ∀ s, st.group.owns s →
      (MS2Stream.render s (params.scopeStreamToIndexWithDiff changes s.getIndex)).isSome
        = true) :
    ∀ j, j ≤ st.group.mStreams.length →
      ∃ acc, (List.range j).foldlM (renderStep core changes params) (st, []) = some acc ∧
        (∀ i, j ≤ i → acc.1.group.mStreams[i]? = st.group.mStreams[i]?) ∧
        ∀ slot ∈ acc.1.group.mStreams, slot ≠ none := by
  intro j
  induction j with
  | zero => intro _; exact ⟨(st, []), rfl, fun _ _ => rfl, hfull⟩
  | succ j ih =>
    intro hj
    obtain ⟨mid, hmid, hb, hn⟩ := ih (by omega)
    have hjs : st.group.mStreams[j]? = some st.group.mStreams[j] :=
      List.getElem?_eq_getElem (by omega)
    cases hslot : st.group.mStreams[j] with
    | none =>
      rw [hslot] at hjs
      exact absurd rfl (hfull none (List.getElem?_mem hjs))
    | some s =>
      rw [hslot] at hjs
      have hown : st.group.owns s := List.getElem?_mem hjs
      have hmj : mid.1.group.mStreams.getD j none = some s := by
        rw [List.getD_eq_getElem?_getD, hb j (le_refl _), hjs]; rfl
      obtain ⟨rendered, hr⟩ := Option.isSome_iff_exists.mp (hdef s hown)
      have hstep : renderStep core changes params mid j
          = some ({ mid.1 with group := { mid.1.group with
                      mStreams := mid.1.group.mStreams.set j (some rendered) } },
              mid.2
                ++ (if s.getState = State.Preparing then [GroupEffect.finishPrepare s.ident]
                    else [])
                ++ [GroupEffect.render s.ident]) := by
        unfold renderStep
        rw [hmj]
        simp only [hsame s hown, Bool.false_eq_true, if_false]
        unfold renderStream
        rw [hr]
      refine ⟨_, by rw [foldlM_range_succ, hmid]; exact hstep, ?_, ?_⟩
      · intro i hi
        simp only
        rw [List.getElem?_set_ne (by omega), hb i (by omega)]
      · intro slot hmem
        rcases List.mem_or_eq_of_mem_set hmem with h1 | h1
        · exact hn slot h1
        · rw [h1]; simp

/-- The function `render` returns on every group without empty slot when no cast
has changed and the descriptions that `MS2Stream::render` reads are present for
the index of every stream. -/
theorem render_defined (core : Core) (changes : Nat → Nat × Nat) (hasCompleted : Bool)
    (params : OfferAnswerContext) (st : SessionState)
    (hfull : st.group.noEmptySlot)
    (hsame : ∀ s, st.group.owns s →
      (params.scopeStreamToIndexWithDiff changes s.getIndex).castChanged = false)
    (hdef : ∀ s, st.group.owns s →
      (MS2Stream.render s (params.scopeStreamToIndexWithDiff changes s.getIndex)).isSome
        = true) :
    ∃ r, render core changes hasCompleted params st = some r := by
  obtain ⟨rendered, hloop, _, hn⟩ :=
    renderLoop_defined core changes params st hfull hsame hdef _ (le_refl _)
  unfold render
  rw [hloop]
  cases hasCompleted with
  | false => exact ⟨_, rfl⟩
  | true =>
    obtain ⟨effs, he⟩ := startDtlsLoop_defined _ hn
    simp only [Bool.not_true, Bool.false_eq_true, if_false, startDtls, he]
    exact ⟨_, rfl⟩

end StreamsGroup


/-! ## Preparing a stream -/

namespace MS2Stream

theorem prepareTransports_eq (rtptf : LinphoneRtpTransportFactory) (s : Stream) :
    prepareTransports rtptf s =
      if (s.rtpEndpoint || (transportFuncs rtptf s.getType).1.isSome)
          && (s.rtcpEndpoint || (transportFuncs rtptf s.getType).2.isSome) then
        some ({ s with
            rtpEndpoint := s.rtpEndpoint || (transportFuncs rtptf s.getType).1 == some true
            rtcpEndpoint :=
              s.rtcpEndpoint || (transportFuncs rtptf s.getType).2 == some true },
          (if s.rtpEndpoint then []
            else [Effect.metaRtpTransportSetEndpoint s.mPortConfig.rtpPort])
          ++ (if s.rtcpEndpoint then []
              else [Effect.metaRtcpTransportSetEndpoint s.mPortConfig.rtcpPort]))
      else none := by
  unfold prepareTransports
  cases s with
  | mk ident mStreamType mIndex mState mPortConfig mIsMain secured muted mRtpProfile
      mRtpIoProfile mTimer zrtp_context rtpEndpoint rtcpEndpoint =>
    cases rtpEndpoint <;> cases rtcpEndpoint <;>
      rcases h1 : (transportFuncs rtptf mStreamType).1 with _ | _ | _ <;>
      rcases h2 : (transportFuncs rtptf mStreamType).2 with _ | _ | _ <;>
      simp [Stream.getType, h1, h2]

/-- `MS2Stream::prepare` in closed form: it returns exactly when the functions of
the factory that it calls are present, and then leaves `preparedStream` after
the calls `transportCalls`, the preparation of ICE and the creation of the
timer, whatever the state of the stream. -/
theorem prepare_eq (core : Core) (s : Stream) :
    prepare core s =
      if transportsAvailable core s then
        some (preparedStream core s,
          transportCalls core s ++ [Effect.prepareIceForStream, Effect.createTimer])
      else none := by
  unfold prepare transportsAvailable preparedStream transportCalls
  cases hf : core.rtptf with
  | none => simp [Stream.prepare]
  | some rtptf =>
    simp only [prepareTransports_eq]
    split_ifs <;> simp [Stream.prepare]

end MS2Stream

namespace StreamsGroup

theorem prepareLoop_spec (core : Core) (l : List (Option Stream))
    (hfull : ∀ slot ∈ l, slot ≠ none)
    (hdef : ∀ s, some s ∈ l → s.getState = State.Stopped →
      MS2Stream.transportsAvailable core s = true) :
    prepareLoop core l = some
      (l.map (fun slot => slot.map (fun s =>
          if s.getState = State.Stopped then MS2Stream.preparedStream core s else s)),
        ((l.filterMap id).filter (fun s => s.getState == State.Stopped)).flatMap
          (prepareCalls core)) := by
  induction l with
  | nil => rfl
  | cons slot rest ih =>
    have hrest := ih (fun s hs => hfull s (List.mem_cons_of_mem _ hs))
      (fun s hs => hdef s (List.mem_cons_of_mem _ hs))
    cases slot with
    | none => exact absurd rfl (hfull none (List.mem_cons_self _ _))
    | some stream =>
      simp only [prepareLoop, hrest]
      by_cases hst : stream.getState = State.Stopped
      · have hav := hdef stream (List.mem_cons_self _ _) hst
        simp [hst, MS2Stream.prepare_eq, hav, prepareCalls, List.flatMap]
      · simp [hst, List.flatMap]

theorem transportsAvailable_mem (core : Core) (g : StreamsGroup)
    (h : g.transportsAvailable core = true) :
    ∀ s, some s ∈ g.mStreams → s.getState = State.Stopped →
      MS2Stream.transportsAvailable core s = true := by
  intro s hs hst
  unfold transportsAvailable ownedStreams at h
  rw [List.all_eq_true] at h
  have := h s (by simpa using hs)
  simpa [hst] using this

end StreamsGroup

namespace MS2Stream

/-- C21, as stated, fails for the `prepare` of a stream: on the Running audio
stream `sampleAudioStream`, which holds its event timer, `MS2Stream::prepare`
moves the state to Preparing, prepares ICE and creates an event timer again,
without transport factory and with one; with the factory it first installs the
two endpoints.  On the same stream in state Preparing with its two endpoints it
installs no endpoint but prepares ICE and creates the timer again. -/
theorem prepare_counterexample :
    sampleAudioStream.getState = State.Running ∧ sampleAudioStream.mTimer = true ∧
    (prepare sampleCore sampleAudioStream).map (fun p => (p.1.getState, p.2)) =
      some (State.Preparing, [Effect.prepareIceForStream, Effect.createTimer]) ∧
    (prepare sampleFactoryCore sampleAudioStream).map (fun p => (p.1.getState, p.2)) =
      some (State.Preparing,
        [Effect.metaRtpTransportSetEndpoint 7078, Effect.metaRtcpTransportSetEndpoint 7079,
         Effect.prepareIceForStream, Effect.createTimer]) ∧
    (prepare sampleFactoryCore
        { sampleAudioStream with
          mState := State.Preparing, rtpEndpoint := true, rtcpEndpoint := true }).map
        (fun p => (p.1.getState, p.2)) =
      some (State.Preparing, [Effect.prepareIceForStream, Effect.createTimer]) := by
  decide

end MS2Stream

namespace StreamsGroup

/-- C21, amended: `StreamsGroup::prepare` is what leaves the streams that are not
Stopped alone.  On every core and every group without empty slot in which the
functions of the transport factory needed by the Stopped streams are present,
it returns; a slot whose stream is Preparing or Running holds the same stream
afterwards, a slot whose stream is Stopped holds that stream in state Preparing
with an event timer, and the calls made are those of the `prepare` of the
Stopped streams, in slot order, and no other.  The `prepare` of a stream itself does not test the state: it
returns exactly when the functions of the factory that it calls are present,
and then, whatever the state, it installs the endpoints that are missing (none
without factory), prepares ICE, creates a timer and leaves the stream
Preparing. -/
theorem prepare_spec (core : Core) (g : StreamsGroup) (hfull : g.noEmptySlot)
    (hdef : g.transportsAvailable core = true) :
    ∃ r, prepare core g = some r ∧
      (∀ (k : Nat) (s : Stream), g.mStreams[k]? = some (some s) →
        s.getState ≠ State.Stopped → r.1.mStreams[k]? = some (some s)) ∧
      (∀ (k : Nat) (s : Stream), g.mStreams[k]? = some (some s) →
        s.getState = State.Stopped →
        ∃ s2, r.1.mStreams[k]? = some (some s2) ∧ s2.getState = State.Preparing ∧
          s2.mTimer = true ∧ s2.ident = s.ident ∧ s2.getIndex = s.getIndex) ∧
      r.2 = (g.ownedStreams.filter (fun s => s.getState == State.Stopped)).flatMap
        (prepareCalls core) ∧
      (∀ s : Stream,
        (MS2Stream.prepare core s).isSome = MS2Stream.transportsAvailable core s ∧
        ∀ p, MS2Stream.prepare core s = some p →
          p.1.getState = State.Preparing ∧ p.1.mTimer = true ∧
          p.2 = MS2Stream.transportCalls core s
            ++ [Effect.prepareIceForStream, Effect.createTimer]) := by
  have hloop := prepareLoop_spec core g.mStreams hfull (transportsAvailable_mem core g hdef)
  refine ⟨_, by unfold prepare; rw [hloop], ?_, ?_, rfl, ?_⟩
  · intro k s hs hst
    simp only [List.getElem?_map, hs, Option.map_some', if_neg hst]
  · intro k s hs hst
    refine ⟨MS2Stream.preparedStream core s, ?_, ?_, ?_, ?_, ?_⟩
    · simp only [List.getElem?_map, hs, Option.map_some', if_pos hst]
    · unfold MS2Stream.preparedStream; cases core.rtptf <;> rfl
    · unfold MS2Stream.preparedStream; cases core.rtptf <;> rfl
    · unfold MS2Stream.preparedStream; cases core.rtptf <;> rfl
    · unfold MS2Stream.preparedStream; cases core.rtptf <;> rfl
  · intro s
    rw [MS2Stream.prepare_eq]
    cases hav : MS2Stream.transportsAvailable core s with
    | false => exact ⟨rfl, fun p hp => by cases hp⟩
    | true =>
      refine ⟨rfl, fun p hp => ?_⟩
      simp only [if_true, Option.some.injEq] at hp
      subst hp
      refine ⟨?_, ?_, rfl⟩
      · unfold MS2Stream.preparedStream; cases core.rtptf <;> rfl
      · unfold MS2Stream.preparedStream; cases core.rtptf <;> rfl

/-- Instance of `prepare_spec`: the core with a transport factory and
`sampleMixedGroup`, whose audio stream is Running and whose video stream is
Stopped; the only calls are those of the `prepare` of the video stream, which
installs its two endpoints first.  On `sampleRunningGroup`, whose Stopped stream
is a text stream, the same core has no function to call and `prepare` does not
return. -/
theorem prepare_spec_witness :
    sampleMixedGroup.noEmptySlot ∧
    sampleMixedGroup.transportsAvailable sampleFactoryCore = true ∧
    (prepare sampleFactoryCore sampleMixedGroup).map (fun r => r.2) = some
      [GroupEffect.streamEffect 1 (Effect.metaRtpTransportSetEndpoint 9122),
       GroupEffect.streamEffect 1 (Effect.metaRtcpTransportSetEndpoint 9123),
       GroupEffect.streamEffect 1 Effect.prepareIceForStream,
       GroupEffect.streamEffect 1 Effect.createTimer] ∧
    sampleRunningGroup.transportsAvailable sampleFactoryCore = false ∧
    prepare sampleFactoryCore sampleRunningGroup = none ∧
    ∃ r, prepare sampleFactoryCore sampleMixedGroup = some r ∧
      (∀ (k : Nat) (s : Stream), sampleMixedGroup.mStreams[k]? = some (some s) →
        s.getState ≠ State.Stopped → r.1.mStreams[k]? = some (some s)) ∧
      (∀ (k : Nat) (s : Stream), sampleMixedGroup.mStreams[k]? = some (some s) →
        s.getState = State.Stopped →
        ∃ s2, r.1.mStreams[k]? = some (some s2) ∧ s2.getState = State.Preparing ∧
          s2.mTimer = true ∧ s2.ident = s.ident ∧ s2.getIndex = s.getIndex) ∧
      r.2 = (sampleMixedGroup.ownedStreams.filter
        (fun s => s.getState == State.Stopped)).flatMap (prepareCalls sampleFactoryCore) ∧
      (∀ s : Stream,
        (MS2Stream.prepare sampleFactoryCore s).isSome =
          MS2Stream.transportsAvailable sampleFactoryCore s ∧
        ∀ p, MS2Stream.prepare sampleFactoryCore s = some p →
          p.1.getState = State.Preparing ∧ p.1.mTimer = true ∧
          p.2 = MS2Stream.transportCalls sampleFactoryCore s
            ++ [Effect.prepareIceForStream, Effect.createTimer]) :=
  ⟨by decide, by decide, by decide, by decide, by decide,
    prepare_spec sampleFactoryCore sampleMixedGroup (by decide) (by decide)⟩

end StreamsGroup

/-! ## Overall quality of a group -/

namespace StreamsGroup

theorem validRatingsOf_cons_invalid (func : Stream → ℚ) (s : Stream) (rest : List (Option Stream))
    (h : func s = -1) : validRatingsOf func (some s :: rest) = validRatingsOf func rest := by
  simp [validRatingsOf, h]

theorem validRatingsOf_cons_valid (func : Stream → ℚ) (s : Stream) (rest : List (Option Stream))
    (h : func s ≠ -1) :
    validRatingsOf func (some s :: rest) = func s :: validRatingsOf func rest := by
  simp [validRatingsOf, h]

theorem computeOverallQualityLoop_spec (func : Stream → ℚ) (l : List (Option Stream)) :
    ∀ (globalRating : ℚ) (countedStreams : Int),
      (∀ slot ∈ l, slot ≠ none) →
      (∀ s, some s ∈ l → func s = -1 ∨ 0 ≤ func s) →
      ((countedStreams = 0 ∧ globalRating = -1) ∨ (0 < countedStreams ∧ 0 ≤ globalRating)) →
      computeOverallQualityLoop func l globalRating countedStreams = some
        (if validRatingsOf func l = [] then globalRating
          else (if countedStreams = 0 then 0 else globalRating) + (validRatingsOf func l).sum,
         countedStreams + ((validRatingsOf func l).length : Int)) := by
  induction l with
  | nil => intro g c _ _ _; simp [computeOverallQualityLoop, validRatingsOf]
  | cons slot rest ih =>
    intro g c hfull hvalid hinv
    have hfull2 : ∀ slot ∈ rest, slot ≠ none := fun s hs => hfull s (List.mem_cons_of_mem _ hs)
    have hvalid2 : ∀ s, some s ∈ rest → func s = -1 ∨ 0 ≤ func s :=
      fun s hs => hvalid s (List.mem_cons_of_mem _ hs)
    cases slot with
    | none => exact absurd rfl (hfull none (List.mem_cons_self _ _))
    | some stream =>
      have hs := hvalid stream (List.mem_cons_self _ _)
      by_cases hq : func stream = -1
      · simp only [computeOverallQualityLoop, hq, ne_eq, not_true_eq_false, if_false]
        rw [ih g c hfull2 hvalid2 hinv, validRatingsOf_cons_invalid func stream rest hq]
      · have hpos : 0 ≤ func stream := by
          rcases hs with h | h
          · exact absurd h hq
          · exact h
        rw [validRatingsOf_cons_valid func stream rest hq]
        by_cases hg : g = -1
        · have hc : c = 0 := by
            rcases hinv with ⟨h, _⟩ | ⟨_, h⟩
            · exact h
            · rw [hg] at h; norm_num at h
          simp only [computeOverallQualityLoop, ne_eq, hq, not_false_eq_true, if_true, hg]
          rw [ih (func stream) (c + 1) hfull2 hvalid2 (Or.inr ⟨by omega, hpos⟩)]
          have hc1 : ¬ c + 1 = 0 := by omega
          simp only [hc1, if_false, hc, if_true, List.sum_cons, List.length_cons,
            reduceCtorEq, zero_add, Option.some.injEq, Prod.mk.injEq]
          refine ⟨?_, by push_cast; ring⟩
          cases validRatingsOf func rest with
          | nil => simp
          | cons a v => simp
        · have hc : 0 < c ∧ 0 ≤ g := by
            rcases hinv with ⟨_, h⟩ | h
            · exact absurd h hg
            · exact h
          simp only [computeOverallQualityLoop, ne_eq, hq, not_false_eq_true, if_true, hg,
            if_false]
          rw [ih (g + func stream) (c + 1) hfull2 hvalid2
            (Or.inr ⟨by omega, by linarith [hc.2]⟩)]
          have hc1 : ¬ c + 1 = 0 := by omega
          have hc0 : ¬ c = 0 := by omega
          simp only [hc1, hc0, if_false, List.sum_cons, List.length_cons, reduceCtorEq,
            Option.some.injEq, Prod.mk.injEq]
          refine ⟨?_, by push_cast; ring⟩
          cases validRatingsOf func rest with
          | nil => simp
          | cons a v => simp; ring

end StreamsGroup


namespace StreamsGroup

/-- What `computeOverallQuality` returns on a group without empty slot whose valid
quality values are not negative: the arithmetic mean of the valid values when
there is one, and the negative infinity of the division of -1 by zero when there
is none. -/
theorem computeOverallQuality_spec (func : Stream → ℚ) (g : StreamsGroup)
    (hfull : g.noEmptySlot) (hvalid : ∀ s, g.owns s → func s = -1 ∨ 0 ≤ func s) :
    computeOverallQuality func g = some
      (if validRatings func g = [] then FloatValue.infinity true
        else FloatValue.finite
          ((validRatings func g).sum / ((validRatings func g).length : ℚ))) := by
  unfold computeOverallQuality validRatings
  rw [computeOverallQualityLoop_spec func g.mStreams (-1) 0 hfull hvalid (Or.inl ⟨rfl, rfl⟩)]
  cases hv : validRatingsOf func g.mStreams with
  | nil => simp [floatDiv]
  | cons a v =>
    have hne : ¬ ((0 : Int) + ((a :: v).length : Int) = 0) := by
      simp only [List.length_cons]; omega
    simp only [floatDiv, hne, if_false, if_true, reduceCtorEq, zero_add]
    push_cast
    rfl

/-- C22 on groups in which no stream reports a valid quality value: for a group
without stream, whatever the per-stream function, and for `sampleRunningGroup`
when every stream reports the sentinel -1, `getAverageQuality` and
`getCurrentQuality` return the negative infinity and not the sentinel -1.  With
the values of `sampleQuality` (4, 3 and the sentinel) the mean 7/2 is
returned. -/
theorem computeOverallQuality_no_valid :
    (∀ func : Stream → ℚ,
      getAverageQuality func (StreamsGroup.ofSlots []) = some (FloatValue.infinity true) ∧
      getCurrentQuality func (StreamsGroup.ofSlots []) = some (FloatValue.infinity true)) ∧
    getAverageQuality (fun _ => -1) sampleRunningGroup = some (FloatValue.infinity true) ∧
    getCurrentQuality (fun _ => -1) sampleRunningGroup = some (FloatValue.infinity true) ∧
    FloatValue.infinity true ≠ FloatValue.finite (-1) ∧
    getAverageQuality sampleQuality sampleRunningGroup = some (FloatValue.finite (7 / 2)) := by
  refine ⟨fun func => ⟨?_, ?_⟩, ?_, ?_, by simp, ?_⟩
  · simp [getAverageQuality, computeOverallQuality, computeOverallQualityLoop,
      StreamsGroup.ofSlots, floatDiv]
  · simp [getCurrentQuality, computeOverallQuality, computeOverallQualityLoop,
      StreamsGroup.ofSlots, floatDiv]
  · simp [getAverageQuality, computeOverallQuality, computeOverallQualityLoop,
      sampleRunningGroup, StreamsGroup.ofSlots, floatDiv]
  · simp [getCurrentQuality, computeOverallQuality, computeOverallQualityLoop,
      sampleRunningGroup, StreamsGroup.ofSlots, floatDiv]
  · simp [getAverageQuality, computeOverallQuality, computeOverallQualityLoop,
      sampleRunningGroup, StreamsGroup.ofSlots, floatDiv, sampleQuality, Stream.sample,
      Stream.fresh]
    norm_num

end StreamsGroup


/-! ## Verification of the authentication token -/

namespace StreamsGroup

theorem lookupMainStreamLoop_spec (type : SalStreamType) (l : List (Option Stream))
    (hfull : ∀ slot ∈ l, slot ≠ none) :
    lookupMainStreamLoop type l =
      some ((l.filterMap id).find? (fun s => s.isMain && s.getType == type)) := by
  induction l with
  | nil => rfl
  | cons slot rest ih =>
    have hrest := ih (fun s hs => hfull s (List.mem_cons_of_mem _ hs))
    cases slot with
    | none => exact absurd rfl (hfull none (List.mem_cons_self _ _))
    | some stream =>
      by_cases hm : (stream.isMain && stream.getType == type) = true
      · simp [lookupMainStreamLoop, hm, List.find?]
      · simp only [lookupMainStreamLoop, hm, Bool.false_eq_true, if_false, hrest]
        simp [List.find?, hm]

/-- What `setAuthTokenVerified` does on every group without empty slot: without a
main audio stream, with a main audio stream that is not Running, or with one
that has no ZRTP context, the group is unchanged and no call is made; otherwise
the flag becomes `value`, the token is unchanged, and the one call made is the
ZRTP call that accepts or rejects the authentication string. -/
theorem setAuthTokenVerified_spec (g : StreamsGroup) (value : Bool) (hfull : g.noEmptySlot) :
    ∃ r, setAuthTokenVerified g value = some r ∧
      r.1.mAuthToken = g.mAuthToken ∧ r.1.mStreams = g.mStreams ∧
      ((g.mainAudioStream = none ∨
          (∃ s, g.mainAudioStream = some s ∧
            (s.getState ≠ State.Running ∨ s.zrtp_context = false))) →
        r = (g, [])) ∧
      (∀ s, g.mainAudioStream = some s → s.getState = State.Running →
        s.zrtp_context = true →
        r.1.mAuthTokenVerified = value ∧
        r.2 = [if value then GroupEffect.zrtpSasVerified s.ident
               else GroupEffect.zrtpSasResetVerified s.ident]) := by
  have hlook : g.lookupMainStreamInterface SalStreamType.SalAudio = some g.mainAudioStream :=
    lookupMainStreamLoop_spec SalStreamType.SalAudio g.mStreams hfull
  unfold setAuthTokenVerified
  rw [hlook]
  cases hmain : g.mainAudioStream with
  | none => exact ⟨(g, []), rfl, rfl, rfl, fun _ => rfl, fun s hs => by cases hs⟩
  | some s =>
    by_cases hrun : s.getState = State.Running
    · cases hz : s.zrtp_context with
      | false =>
        refine ⟨(g, []), by simp [hrun, hz], rfl, rfl, fun _ => rfl, ?_⟩
        intro s2 hs2 _ hz2
        have : s2 = s := (Option.some.inj hs2).symm
        subst this
        rw [hz] at hz2
        cases hz2
      | true =>
        refine ⟨({ g with mAuthTokenVerified := value },
            [if value then GroupEffect.zrtpSasVerified s.ident
             else GroupEffect.zrtpSasResetVerified s.ident]),
          by simp only [hrun, ne_eq, not_true_eq_false, if_false, hz, Bool.not_true,
            Bool.false_eq_true], rfl, rfl, ?_, ?_⟩
        · rintro (h | ⟨s2, hs2, h⟩)
          · cases h
          · have : s2 = s := (Option.some.inj hs2).symm
            subst this
            rcases h with h | h
            · exact absurd hrun h
            · rw [hz] at h; cases h
        · intro s2 hs2 _ _
          have : s2 = s := (Option.some.inj hs2).symm
          subst this
          exact ⟨rfl, rfl⟩
    · refine ⟨(g, []), by simp [hrun], rfl, rfl, fun _ => rfl, ?_⟩
      intro s2 hs2 hr2 _
      have : s2 = s := (Option.some.inj hs2).symm
      subst this
      exact absurd hr2 hrun

/-- C23 at the group with an empty slot that `createStreams` builds for
`sampleOtherOffer`: the audio stream of `sampleSparseGroup` is Stopped, so the
call should change nothing; `lookupMainStream` dereferences the empty first slot
and `setAuthTokenVerified` has no result, for either value.  On `sampleZrtpGroup`,
which has no empty slot, the flag is set and the token is kept. -/
theorem setAuthTokenVerified_empty_slot :
    createStreams sampleCore sampleOtherOffer sampleEmptyState =
      some { group := sampleSparseGroup, allocated := 1, draws := 0 } ∧
    sampleSparseGroup.lookupMainStream SalStreamType.SalAudio = none ∧
    setAuthTokenVerified sampleSparseGroup true = none ∧
    setAuthTokenVerified sampleSparseGroup false = none ∧
    (setAuthTokenVerified sampleZrtpGroup true).map
      (fun r => (r.1.mAuthToken, r.1.mAuthTokenVerified, r.2)) =
      some ("abcd", true, [GroupEffect.zrtpSasVerified 0]) := by
  decide

end StreamsGroup


/-! ## Adaptive rate control -/

namespace MS2Stream

/-- C24, as stated, fails for an audio stream in advanced mode: with adaptive rate
control enabled, the algorithm "advanced", TMMBR enabled in the result and an
active video stream with a codec (`videoWillBeUsed` is true), the audio stream
`sampleAudioStream` is added to the bandwidth controller. -/
theorem configureAdaptiveRateControl_counterexample :
    sampleAudioStream.getType = SalStreamType.SalAudio ∧
    videoWillBeUsed sampleFindBestStream (sampleRateContext true) = true ∧
    configureAdaptiveRateControl sampleAdvancedCore sampleFindBestStream sampleAudioStream
      (sampleRateContext true) =
      some [Effect.bandwidthControllerAddStream, Effect.enableAdaptiveBitrateControl false] := by
  decide

/-- C24, amended: whenever `configureAdaptiveRateControl` returns, the stream is
added to the bandwidth controller (advanced mode) only if rate control is
enabled, the algorithm is not "basic" and the result stream description enables
TMMBR, and then the adaptive control of the media stream is switched off; when
rate control is enabled and the stream is not added to the controller, the
simple analyzer is selected and the adaptive control of the media stream is
switched on, except for an audio stream while video will be used, for which it
is switched off; when rate control is disabled it is only switched off.  For an
audio stream while video will be used the adaptive control of the media stream
is never switched on, but the advanced mode still adds the stream to the
bandwidth controller. -/
theorem configureAdaptiveRateControl_spec (core : Core)
    (findBestStream : Option SalMediaDescription → SalStreamType → Option SalStreamDescription)
    (s : Stream) (params : OfferAnswerContext) (effects : List Effect)
    (h : configureAdaptiveRateControl core findBestStream s params = some effects) :
    (Effect.bandwidthControllerAddStream ∈ effects →
      core.adaptiveRateControlEnabled = true ∧ core.adaptiveRateAlgorithm ≠ "basic" ∧
      (∃ r, params.resultStreamDescription = some r ∧ r.rtcp_fb_tmmbr_enabled = true) ∧
      effects = [Effect.bandwidthControllerAddStream,
        Effect.enableAdaptiveBitrateControl false]) ∧
    (core.adaptiveRateControlEnabled = true → Effect.bandwidthControllerAddStream ∉ effects →
      effects = [Effect.setAdaptiveBitrateAlgorithmSimple,
        Effect.enableAdaptiveBitrateControl
          !(s.getType == SalStreamType.SalAudio && videoWillBeUsed findBestStream params)]) ∧
    (core.adaptiveRateControlEnabled = true → core.adaptiveRateAlgorithm ≠ "basic" →
      (∃ r, params.resultStreamDescription = some r ∧ r.rtcp_fb_tmmbr_enabled = true) →
      Effect.bandwidthControllerAddStream ∈ effects) ∧
    (core.adaptiveRateControlEnabled = false →
      effects = [Effect.enableAdaptiveBitrateControl false]) ∧
    (s.getType = SalStreamType.SalAudio → videoWillBeUsed findBestStream params = true →
      Effect.enableAdaptiveBitrateControl true ∉ effects) := by
  unfold configureAdaptiveRateControl at h
  cases hen : core.adaptiveRateControlEnabled with
  | false =>
    simp only [hen, Bool.not_false, if_true, Option.some.injEq] at h
    subst h
    simp
  | true =>
    simp only [hen, Bool.not_true, Bool.false_eq_true, if_false] at h
    by_cases hbasic : core.adaptiveRateAlgorithm = "basic"
    · simp only [hbasic, if_true, Bool.false_eq_true, if_false, Option.some.injEq] at h
      subst h
      cases hv : videoWillBeUsed findBestStream params <;>
        cases hty : s.getType <;> simp [hbasic]
    · have hadv : (if core.adaptiveRateAlgorithm = "basic" then false
          else if core.adaptiveRateAlgorithm = "advanced" then true else true) = true := by
        simp [hbasic]
      simp only [hadv, if_true] at h
      cases hr : params.resultStreamDescription with
      | none => rw [hr] at h; cases h
      | some r =>
        rw [hr] at h
        cases ht : r.rtcp_fb_tmmbr_enabled with
        | false =>
          simp only [ht, Bool.not_false, if_true, Option.some.injEq] at h
          subst h
          cases hv : videoWillBeUsed findBestStream params <;>
            cases hty : s.getType <;> simp [ht]
        | true =>
          simp only [ht, Bool.not_true, Bool.false_eq_true, if_false, Option.some.injEq] at h
          subst h
          simp [hbasic, ht]

/-- Instance of `configureAdaptiveRateControl_spec`: the audio stream with the
algorithm "advanced" and a result without TMMBR while video will be used; the
simple analyzer is selected and the adaptive control is switched off. -/
theorem configureAdaptiveRateControl_spec_witness :
    configureAdaptiveRateControl sampleAdvancedCore sampleFindBestStream sampleAudioStream
      (sampleRateContext false) =
      some [Effect.setAdaptiveBitrateAlgorithmSimple,
        Effect.enableAdaptiveBitrateControl false] ∧
    (Effect.bandwidthControllerAddStream ∈ [Effect.setAdaptiveBitrateAlgorithmSimple,
        Effect.enableAdaptiveBitrateControl false] →
      sampleAdvancedCore.adaptiveRateControlEnabled = true ∧
      sampleAdvancedCore.adaptiveRateAlgorithm ≠ "basic" ∧
      (∃ r, (sampleRateContext false).resultStreamDescription = some r ∧
        r.rtcp_fb_tmmbr_enabled = true) ∧
      [Effect.setAdaptiveBitrateAlgorithmSimple, Effect.enableAdaptiveBitrateControl false] =
        [Effect.bandwidthControllerAddStream, Effect.enableAdaptiveBitrateControl false]) ∧
    (sampleAdvancedCore.adaptiveRateControlEnabled = true →
      Effect.bandwidthControllerAddStream ∉ [Effect.setAdaptiveBitrateAlgorithmSimple,
        Effect.enableAdaptiveBitrateControl false] →
      [Effect.setAdaptiveBitrateAlgorithmSimple, Effect.enableAdaptiveBitrateControl false] =
        [Effect.setAdaptiveBitrateAlgorithmSimple,
          Effect.enableAdaptiveBitrateControl
            !(sampleAudioStream.getType == SalStreamType.SalAudio &&
              videoWillBeUsed sampleFindBestStream (sampleRateContext false))]) ∧
    (sampleAdvancedCore.adaptiveRateControlEnabled = true →
      sampleAdvancedCore.adaptiveRateAlgorithm ≠ "basic" →
      (∃ r, (sampleRateContext false).resultStreamDescription = some r ∧
        r.rtcp_fb_tmmbr_enabled = true) →
      Effect.bandwidthControllerAddStream ∈ [Effect.setAdaptiveBitrateAlgorithmSimple,
        Effect.enableAdaptiveBitrateControl false]) ∧
    (sampleAdvancedCore.adaptiveRateControlEnabled = false →
      [Effect.setAdaptiveBitrateAlgorithmSimple, Effect.enableAdaptiveBitrateControl false] =
        [Effect.enableAdaptiveBitrateControl false]) ∧
    (sampleAudioStream.getType = SalStreamType.SalAudio →
      videoWillBeUsed sampleFindBestStream (sampleRateContext false) = true →
      Effect.enableAdaptiveBitrateControl true ∉ [Effect.setAdaptiveBitrateAlgorithmSimple,
        Effect.enableAdaptiveBitrateControl false]) :=
  ⟨by decide,
    configureAdaptiveRateControl_spec sampleAdvancedCore sampleFindBestStream sampleAudioStream
      (sampleRateContext false) _ (by decide)⟩

end MS2Stream


/-! ## Lifecycle of a stream across the operations of the group -/

namespace StreamsGroup

theorem prepareLoop_no_stopped (core : Core) (l : List (Option Stream)) :
    ∀ r, prepareLoop core l = some r → ∀ s, some s ∈ r.1 → s.getState ≠ State.Stopped := by
  induction l with
  | nil =>
    intro r h s hs
    simp only [prepareLoop, Option.some.injEq] at h
    rw [← h] at hs
    cases hs
  | cons slot rest ih =>
    intro r h s hs
    cases slot with
    | none => simp [prepareLoop] at h
    | some stream =>
      simp only [prepareLoop] at h
      cases hrest : prepareLoop core rest with
      | none => rw [hrest] at h; cases h
      | some rr =>
        rw [hrest] at h
        simp only at h
        by_cases hst : stream.getState = State.Stopped
        · rw [if_pos hst, MS2Stream.prepare_eq] at h
          cases hav : MS2Stream.transportsAvailable core stream with
          | false => rw [hav] at h; simp at h
          | true =>
            rw [hav] at h
            simp only [if_true, Option.some.injEq] at h
            rw [← h] at hs
            rcases List.mem_cons.mp hs with h1 | h1
            · rw [Option.some.inj h1]
              unfold MS2Stream.preparedStream
              cases core.rtptf <;> (intro hh; cases hh)
            · exact ih rr hrest s h1
        · rw [if_neg hst] at h
          simp only [Option.some.injEq] at h
          rw [← h] at hs
          rcases List.mem_cons.mp hs with h1 | h1
          · rw [Option.some.inj h1]; exact hst
          · exact ih rr hrest s h1

/-- After `StreamsGroup::prepare` no stream of the group is Stopped. -/
theorem prepare_no_stopped (core : Core) (g : StreamsGroup)
    (r : StreamsGroup × List GroupEffect)
    (h : prepare core g = some r) : ∀ s, r.1.owns s → s.getState ≠ State.Stopped := by
  unfold prepare at h
  cases hl : prepareLoop core g.mStreams with
  | none => rw [hl] at h; cases h
  | some rr =>
    rw [hl] at h
    simp only [Option.some.injEq] at h
    subst h
    exact prepareLoop_no_stopped core g.mStreams rr hl

/-- One round of the loop of `render` and the state of the stream it configures.
Without change of cast the stream of the slot is configured in the state it
has, after `finishPrepare` when that state is Preparing.  With a change of cast
the stream configured is the one that `createStream` has just built, which is
Stopped, and no `finishPrepare` is called: that stream passes from Stopped to
Running. -/
theorem renderStep_lifecycle (core : Core) (changes : Nat → Nat × Nat)
    (params : OfferAnswerContext) (acc acc2 : SessionState × List GroupEffect) (k : Nat)
    (h : renderStep core changes params acc k = some acc2) :
    ∃ stream, acc.1.group.mStreams[k]? = some (some stream) ∧
      ((params.scopeStreamToIndexWithDiff changes stream.getIndex).castChanged = false →
        acc2.1.group.mStreams[k]? = some (some stream.render) ∧
        acc2.2 = acc.2
          ++ (if stream.getState = State.Preparing
              then [GroupEffect.finishPrepare stream.ident] else [])
          ++ [GroupEffect.render stream.ident]) ∧
      ((params.scopeStreamToIndexWithDiff changes stream.getIndex).castChanged = true →
        ∃ created : Stream, created.getState = State.Stopped ∧
          created.ident = acc.1.allocated ∧
          acc2.1.group.mStreams[stream.getIndex]? = some (some created.render) ∧
          created.render.getState = State.Running ∧
          acc2.2 = acc.2 ++ stopCalls core.listener stream
            ++ [GroupEffect.render created.ident]) := by
  obtain ⟨stream, hslot, hcase⟩ := renderStep_spec core changes params acc acc2 k h
  obtain ⟨hslot2, hk⟩ := getD_eq_some _ _ _ hslot
  refine ⟨stream, hslot2, ?_, ?_⟩
  · intro hc
    rcases hcase with ⟨hc2, _⟩ | ⟨_, h1, h2⟩
    · rw [hc] at hc2; cases hc2
    · refine ⟨?_, h2⟩
      rw [h1]
      simp only [List.getElem?_set_self hk]
  · intro hc
    rcases hcase with ⟨_, hlen, created, st2, hcs, h1, h2⟩ | ⟨hc2, _⟩
    · obtain ⟨_, c2, c3, _, c5⟩ := createStream_created _ _ _ _ _ hcs
      have hsi : (params.scopeStreamToIndexWithDiff changes stream.getIndex).streamIndex
          = stream.getIndex := rfl
      rw [hsi] at c5
      simp only at c5
      rw [resizeFor_of_lt _ _ (by simpa using hlen)] at c5
      rw [c3] at h2
      simp only [reduceCtorEq, if_false, List.append_nil] at h2
      refine ⟨created, c3, c2, ?_, rfl, h2⟩
      rw [h1, c5]
      simp only [List.set_set]
      rw [List.getElem?_set_self (by simpa using hlen)]
    · rw [hc] at hc2; cases hc2

/-- C25 on the sequence createStreams, prepare, render with a change of cast of
the video stream: the two streams built for `sampleOffer` are prepared (both
Preparing, each with its event timer); the render stops the video stream of
identity 1 and renders the stream of identity 2 that `createStream` has just
built, without `finishPrepare` for it; that stream ends Running without event
timer, not having been Preparing.  A render that follows createStreams directly
takes both streams from Stopped to Running as well. -/
theorem render_recast_from_stopped :
    createStreams sampleCore sampleOffer sampleEmptyState = some sampleTwoStreamState ∧
    (prepare sampleCore sampleTwoStreamState.group).map (fun r => r.1) =
      some samplePreparedState.group ∧
    (render sampleCore sampleCastChange false sampleAnswer samplePreparedState).map
        (fun r => r.2) = some
      ([GroupEffect.finishPrepare 0, GroupEffect.render 0]
        ++ stopCalls true { Stream.sample 1 1 SalStreamType.SalVideo State.Preparing 9122
              false false with mTimer := true }
        ++ [GroupEffect.render 2, GroupEffect.createTimer,
            GroupEffect.startConnectivityChecks]) ∧
    (render sampleCore sampleCastChange false sampleAnswer samplePreparedState).map
        (fun r => r.1.group.mStreams.map
          (fun slot => slot.map (fun s => (s.ident, s.getState, s.mTimer)))) = some
      [some (0, State.Running, true), some (2, State.Running, false)] ∧
    ((renderStep sampleCore sampleCastChange sampleAnswer (samplePreparedState, []) 0).bind
        (fun acc => createStream sampleCore
          { acc.1 with group := { acc.1.group with
              mStreams := acc.1.group.mStreams.set 1
                (some (MS2Stream.stop true
                  { Stream.sample 1 1 SalStreamType.SalVideo State.Preparing 9122 false false
                    with mTimer := true }).1) } }
          (sampleAnswer.scopeStreamToIndexWithDiff sampleCastChange 1))).map
        (fun r => r.2.map (fun s => (s.ident, s.getState))) =
      some (some (2, State.Stopped)) ∧
    (render sampleCore sampleNoChange false sampleAnswer sampleTwoStreamState).map
        (fun r => (r.2, r.1.group.mStreams.map
          (fun slot => slot.map (fun s => (s.ident, s.getState))))) = some
      ([GroupEffect.render 0, GroupEffect.render 1, GroupEffect.createTimer,
        GroupEffect.startConnectivityChecks],
       [some (0, State.Running), some (1, State.Running)]) := by
  decide

end StreamsGroup


/-! ## The event pump of a stream -/

namespace MS2Stream

theorem tmmbr_calls (index : Nat) (l : List Int) :
    (l.map (PumpEffect.onTmmbrReceived index)).count PumpEffect.propagateEncryptionChanged = 0 ∧
    (l.map (PumpEffect.onTmmbrReceived index)).filterMap PumpEffect.iceEvent = [] := by
  induction l with
  | nil => exact ⟨rfl, rfl⟩
  | cons a rest ih =>
    refine ⟨?_, ?_⟩
    · rw [List.map_cons, List.count_cons, ih.1]
      simp
    · rw [List.map_cons, List.filterMap_cons]
      simp only [PumpEffect.iceEvent]
      exact ih.2

theorem handleEventsSwitch_spec (s : Stream) (ev : OrtpEvent) :
    (handleEventsSwitch s ev).count PumpEffect.propagateEncryptionChanged =
      (if ev.type.isEncryptionChanged = true ∧
          (s.getType ≠ SalStreamType.SalAudio ∨ s.isMain = false) then 1 else 0) ∧
    (handleEventsSwitch s ev).filterMap PumpEffect.iceEvent =
      (if ev.type.isIce = true then [ev] else []) := by
  unfold handleEventsSwitch
  cases hmain : s.isMain <;> cases hty : s.getType <;> cases hev : ev.type <;>
    simp [OrtpEventType.isEncryptionChanged, OrtpEventType.isIce, PumpEffect.iceEvent]

/-- The calls of one round of the loop of the pump: one propagation of the change
of encryption exactly for a ZRTP or DTLS event on a stream that is not the main
audio stream, and the forwarding of the event exactly for an ICE event. -/
theorem handleEventsStep_spec (listener ms : Bool) (s : Stream) (ev : OrtpEvent)
    (calls : List PumpEffect) (h : handleEventsStep listener ms s ev = some calls) :
    calls.count PumpEffect.propagateEncryptionChanged =
      (if ev.type.isEncryptionChanged = true ∧
          (s.getType ≠ SalStreamType.SalAudio ∨ s.isMain = false) then 1 else 0) ∧
    calls.filterMap PumpEffect.iceEvent = (if ev.type.isIce = true then [ev] else []) := by
  unfold handleEventsStep at h
  have hsw := handleEventsSwitch_spec s ev
  have key : ∀ pre : List PumpEffect,
      pre.count PumpEffect.propagateEncryptionChanged = 0 →
      pre.filterMap PumpEffect.iceEvent = [] →
      (pre ++ (if ms = true then [PumpEffect.statsFill ev] else [])
          ++ [PumpEffect.notifyStatsUpdated] ++ handleEventsSwitch s ev
          ++ [PumpEffect.handleEvent ev, PumpEffect.eventDestroy ev]).count
          PumpEffect.propagateEncryptionChanged =
        (if ev.type.isEncryptionChanged = true ∧
            (s.getType ≠ SalStreamType.SalAudio ∨ s.isMain = false) then 1 else 0) ∧
      (pre ++ (if ms = true then [PumpEffect.statsFill ev] else [])
          ++ [PumpEffect.notifyStatsUpdated] ++ handleEventsSwitch s ev
          ++ [PumpEffect.handleEvent ev, PumpEffect.eventDestroy ev]).filterMap
          PumpEffect.iceEvent = (if ev.type.isIce = true then [ev] else []) := by
    intro pre h1 h2
    refine ⟨?_, ?_⟩
    · simp only [List.count_append, h1, hsw.1]
      cases ms <;> simp
    · simp only [List.filterMap_append, h2, hsw.2]
      cases ms <;> simp [PumpEffect.iceEvent]
  by_cases hrtcp : ev.type = OrtpEventType.ORTP_EVENT_RTCP_PACKET_RECEIVED
  · by_cases hnil : ev.tmmbr = []
    · simp only [hrtcp, hnil, if_true, Option.some.injEq] at h
      subst h
      exact key [] rfl rfl
    · cases listener with
      | false => simp [hrtcp, hnil] at h
      | true =>
        simp only [hrtcp, hnil, if_true, if_false, Option.some.injEq] at h
        subst h
        exact key _ (tmmbr_calls s.getIndex ev.tmmbr).1 (tmmbr_calls s.getIndex ev.tmmbr).2
  · simp only [hrtcp, if_false, Option.some.injEq] at h
    subst h
    exact key [] rfl rfl

theorem handleEventsLoop_spec (listener ms : Bool) (s : Stream) (events : List OrtpEvent) :
    ∀ calls, handleEventsLoop listener ms s events = some calls →
      calls.count PumpEffect.propagateEncryptionChanged =
        (if s.getType ≠ SalStreamType.SalAudio ∨ s.isMain = false then
          events.countP (fun ev => ev.type.isEncryptionChanged) else 0) ∧
      calls.filterMap PumpEffect.iceEvent = events.filter (fun ev => ev.type.isIce) := by
  induction events with
  | nil =>
    intro calls h
    simp only [handleEventsLoop, Option.some.injEq] at h
    subst h
    simp
  | cons ev rest ih =>
    intro calls h
    simp only [handleEventsLoop] at h
    cases hstep : handleEventsStep listener ms s ev with
    | none => rw [hstep] at h; cases h
    | some first =>
      rw [hstep] at h
      cases hrest : handleEventsLoop listener ms s rest with
      | none => rw [hrest] at h; cases h
      | some more =>
        rw [hrest] at h
        simp only [Option.some.injEq] at h
        subst h
        obtain ⟨s1, s2⟩ := handleEventsStep_spec listener ms s ev first hstep
        obtain ⟨r1, r2⟩ := ih more hrest
        refine ⟨?_, ?_⟩
        · rw [List.count_append, s1, r1, List.countP_cons]
          by_cases hmain : s.getType ≠ SalStreamType.SalAudio ∨ s.isMain = false
          · cases henc : ev.type.isEncryptionChanged <;> simp [hmain]
            omega
          · simp [hmain]
        · rw [List.filterMap_append, s2, r2, List.filter_cons]
          cases hice : ev.type.isIce <;> simp

end MS2Stream


namespace MS2Stream

theorem handleEventsLoop_defined (listener ms : Bool) (s : Stream) (events : List OrtpEvent) :
    ∀ calls, handleEventsLoop listener ms s events = some calls →
      ∀ ev ∈ events, ∃ round, handleEventsStep listener ms s ev = some round := by
  induction events with
  | nil => intro _ _ ev hev; cases hev
  | cons first rest ih =>
    intro calls h ev hev
    simp only [handleEventsLoop] at h
    cases hstep : handleEventsStep listener ms s first with
    | none => rw [hstep] at h; cases h
    | some round =>
      rw [hstep] at h
      cases hrest : handleEventsLoop listener ms s rest with
      | none => rw [hrest] at h; cases h
      | some more =>
        rcases List.mem_cons.mp hev with h1 | h1
        · rw [h1]; exact ⟨round, hstep⟩
        · exact ih more hrest ev h1

/-- C26: let the pump of a stream run over the events it dequeues (its media
stream, if any, being of a supported type) and return.  The number of
propagations of the change of encryption in its calls is the number of ZRTP and
DTLS events of the queue when the stream is not the main audio stream (its type
is not audio, or it is not main) and zero when it is; the events forwarded to
the handler of ICE events of the session are exactly the ICE events of the
queue, in order.  Round by round: the round of a ZRTP or DTLS event holds the
propagation if and only if the stream is not the main audio stream, and the
round of an ICE event forwards that event and holds no propagation. -/
theorem handleEvents_propagation (listener hasSession : Bool) (ms : Option MSStreamType)
    (events : List OrtpEvent) (s : Stream) (calls : List PumpEffect)
    (h : handleEvents listener hasSession ms (some events) s = some calls)
    (hms : ms ≠ some MSStreamType.other) :
    calls.count PumpEffect.propagateEncryptionChanged =
      (if s.getType ≠ SalStreamType.SalAudio ∨ s.isMain = false then
        events.countP (fun ev => ev.type.isEncryptionChanged) else 0) ∧
    calls.filterMap PumpEffect.iceEvent = events.filter (fun ev => ev.type.isIce) ∧
    ∀ ev ∈ events, ∃ round, handleEventsStep listener ms.isSome s ev = some round ∧
      (ev.type.isEncryptionChanged = true →
        (PumpEffect.propagateEncryptionChanged ∈ round ↔
          (s.getType ≠ SalStreamType.SalAudio ∨ s.isMain = false)) ∧
        round.filterMap PumpEffect.iceEvent = []) ∧
      (ev.type.isIce = true →
        PumpEffect.handleIceEvents ev ∈ round ∧
        PumpEffect.propagateEncryptionChanged ∉ round) := by
  have hloop : ∃ body pre, handleEventsLoop listener ms.isSome s events = some body ∧
      calls = pre ++ body ∧ pre.count PumpEffect.propagateEncryptionChanged = 0 ∧
      pre.filterMap PumpEffect.iceEvent = [] := by
    unfold handleEvents at h
    cases ms with
    | none =>
      simp only at h
      exact ⟨calls, [], h, rfl, rfl, rfl⟩
    | some t =>
      cases hl : handleEventsLoop listener (some t).isSome s events with
      | none =>
        cases t <;> first
          | exact absurd rfl hms
          | (simp only [hl, Option.map_none'] at h; cases h)
      | some body =>
        cases t with
        | other => exact absurd rfl hms
        | MSAudio =>
          simp only [hl, Option.map_some', Option.some.injEq] at h
          refine ⟨body, _, rfl, h.symm, ?_, ?_⟩ <;> cases hasSession <;> rfl
        | MSVideo =>
          simp only [hl, Option.map_some', Option.some.injEq] at h
          refine ⟨body, _, rfl, h.symm, ?_, ?_⟩ <;> cases hasSession <;> rfl
        | MSText =>
          simp only [hl, Option.map_some', Option.some.injEq] at h
          refine ⟨body, _, rfl, h.symm, ?_, ?_⟩ <;> cases hasSession <;> rfl
  obtain ⟨body, pre, hbody, hcalls, hp1, hp2⟩ := hloop
  obtain ⟨b1, b2⟩ := handleEventsLoop_spec listener ms.isSome s events body hbody
  refine ⟨by rw [hcalls, List.count_append, hp1, b1, zero_add],
    by rw [hcalls, List.filterMap_append, hp2, b2, List.nil_append], ?_⟩
  intro ev hev
  obtain ⟨round, hround⟩ := handleEventsLoop_defined listener ms.isSome s events body hbody ev hev
  obtain ⟨r1, r2⟩ := handleEventsStep_spec listener ms.isSome s ev round hround
  refine ⟨round, hround, ?_, ?_⟩
  · intro henc
    have hnotice : ev.type.isIce = false := by
      cases hty : ev.type <;> rw [hty] at henc <;>
        simp_all [OrtpEventType.isEncryptionChanged, OrtpEventType.isIce]
    refine ⟨?_, by rw [r2, hnotice]; rfl⟩
    rw [← List.count_pos_iff, r1]
    by_cases hmain : s.getType ≠ SalStreamType.SalAudio ∨ s.isMain = false
    · simp [henc, hmain]
    · simp [henc, hmain]
  · intro hice
    have hnotenc : ev.type.isEncryptionChanged = false := by
      cases hty : ev.type <;> rw [hty] at hice <;>
        simp_all [OrtpEventType.isEncryptionChanged, OrtpEventType.isIce]
    refine ⟨?_, ?_⟩
    · have hmem : ev ∈ round.filterMap PumpEffect.iceEvent := by rw [r2, hice]; simp
      obtain ⟨e, he, hee⟩ := List.mem_filterMap.mp hmem
      cases e <;> simp only [PumpEffect.iceEvent, reduceCtorEq, Option.some.injEq] at hee
      rw [← hee]
      exact he
    · intro hmem
      have := List.count_pos_iff.mpr hmem
      rw [r1, hnotenc] at this
      simp at this

/-- Instance of `handleEvents_propagation`: the pump of a video stream over
`sampleQueue`; both changes of encryption are propagated and the ICE event is
forwarded. -/
theorem handleEvents_propagation_witness :
    handleEvents true true (some MSStreamType.MSVideo) (some sampleQueue)
      (Stream.sample 1 1 SalStreamType.SalVideo State.Running 9122 false false)
      = some samplePumpCalls ∧
    some MSStreamType.MSVideo ≠ some MSStreamType.other ∧
    samplePumpCalls.count PumpEffect.propagateEncryptionChanged = 2 ∧
    samplePumpCalls.count PumpEffect.propagateEncryptionChanged =
      (if (Stream.sample 1 1 SalStreamType.SalVideo State.Running 9122 false false).getType
            ≠ SalStreamType.SalAudio ∨
          (Stream.sample 1 1 SalStreamType.SalVideo State.Running 9122 false false).isMain
            = false then
        sampleQueue.countP (fun ev => ev.type.isEncryptionChanged) else 0) ∧
    samplePumpCalls.filterMap PumpEffect.iceEvent =
      sampleQueue.filter (fun ev => ev.type.isIce) ∧
    ∀ ev ∈ sampleQueue, ∃ round,
      handleEventsStep true (some MSStreamType.MSVideo).isSome
        (Stream.sample 1 1 SalStreamType.SalVideo State.Running 9122 false false) ev
        = some round ∧
      (ev.type.isEncryptionChanged = true →
        (PumpEffect.propagateEncryptionChanged ∈ round ↔
          ((Stream.sample 1 1 SalStreamType.SalVideo State.Running 9122 false false).getType
              ≠ SalStreamType.SalAudio ∨
            (Stream.sample 1 1 SalStreamType.SalVideo State.Running 9122 false false).isMain
              = false)) ∧
        round.filterMap PumpEffect.iceEvent = []) ∧
      (ev.type.isIce = true →
        PumpEffect.handleIceEvents ev ∈ round ∧
        PumpEffect.propagateEncryptionChanged ∉ round) :=
  ⟨by decide, by decide, by decide,
    handleEvents_propagation true true (some MSStreamType.MSVideo) sampleQueue
      (Stream.sample 1 1 SalStreamType.SalVideo State.Running 9122 false false)
      samplePumpCalls (by decide) (by decide)⟩

end MS2Stream


/-! ## Slots and indices -/

namespace StreamsGroup

theorem foldlM_invariant {σ : Type} (P : σ → Prop) (f : σ → Nat → Option σ)
    (hf : ∀ a k b, P a → f a k = some b → P b) :
    ∀ (ks : List Nat) (a b : σ), P a → ks.foldlM f a = some b → P b := by
  intro ks
  induction ks with
  | nil =>
    intro a b ha h
    simp only [List.foldlM_nil] at h
    have : a = b := Option.some.inj h
    rw [← this]; exact ha
  | cons k ks ih =>
    intro a b ha h
    rw [List.foldlM_cons] at h
    cases hstep : f a k with
    | none => rw [hstep] at h; cases h
    | some mid =>
      rw [hstep] at h
      exact ih mid b (hf a k mid ha hstep) h

theorem getElem?_to_getD (l : List (Option Stream)) (k : Nat) (s : Stream)
    (h : l[k]? = some (some s)) : l.getD k none = some s := by
  rw [List.getD_eq_getElem?_getD, h]; rfl

/-- Storing a stream of index `k` in the slot `k` keeps the slots indexed. -/
theorem indexed_set (g : StreamsGroup) (slots : List (Option Stream)) (k : Nat) (new : Stream)
    (hidx : g.indexed) (hnew : new.getIndex = k)
    (hslots : ∀ j, j ≠ k → slots.getD j none = g.mStreams.getD j none)
    (hk : slots.getD k none = some new) :
    ({ g with mStreams := slots } : StreamsGroup).indexed := by
  intro j s hs
  have hd := getElem?_to_getD slots j s hs
  by_cases hjk : j = k
  · subst hjk
    rw [hk] at hd
    rw [← Option.some.inj hd]
    exact hnew
  · rw [hslots j hjk] at hd
    exact hidx j s (getD_eq_some _ _ _ hd).1

theorem createStream_indexed (core : Core) (st st2 : SessionState) (params : OfferAnswerContext)
    (r : Option Stream) (hidx : st.group.indexed)
    (h : createStream core st params = some (st2, r)) : st2.group.indexed := by
  cases hl : params.localStreamDescription with
  | none =>
    unfold createStream at h
    rw [hl] at h
    cases h
  | some l =>
    rcases createStream_cases core st st2 params l r hl h with
      ⟨_, hst, _⟩ | ⟨_, s, d, hc, _, hst⟩
    · rw [hst]; exact hidx
    · obtain ⟨_, hi, _, _⟩ := MS2Stream.construct_attrs core _ params _ _ l s d hl hc
      rw [hst]
      refine indexed_set st.group _ params.streamIndex s hidx hi ?_ ?_
      · intro j hj
        rw [getD_set_resizeFor, if_neg hj]
      · rw [getD_set_resizeFor, if_pos rfl]

theorem createStreamsStep_indexed (core : Core) (params : OfferAnswerContext)
    (st st2 : SessionState) (index : Nat) (hidx : st.group.indexed)
    (h : createStreamsStep core params st index = some st2) : st2.group.indexed := by
  unfold createStreamsStep at h
  cases hs : st.group.getStream index with
  | none =>
    rw [hs] at h
    simp only at h
    cases hc : createStream core st (params.scopeStreamToIndex index) with
    | none => rw [hc] at h; cases h
    | some res =>
      rw [hc] at h
      simp only [Option.map_some', Option.some.injEq] at h
      rw [← h]
      exact createStream_indexed core st res.1 _ res.2 hidx hc
  | some s =>
    rw [hs] at h
    simp only at h
    cases hl : (params.scopeStreamToIndex index).localStreamDescription with
    | none => rw [hl] at h; cases h
    | some l =>
      rw [hl] at h
      simp only at h
      split_ifs at h <;>
        (rw [← Option.some.inj h]; exact hidx)

theorem renderStep_indexed (core : Core) (changes : Nat → Nat × Nat)
    (params : OfferAnswerContext) (acc acc2 : SessionState × List GroupEffect) (k : Nat)
    (hidx : acc.1.group.indexed)
    (h : renderStep core changes params acc k = some acc2) : acc2.1.group.indexed := by
  obtain ⟨stream, hslot, hcase⟩ := renderStep_spec core changes params acc acc2 k h
  obtain ⟨hslot2, hk⟩ := getD_eq_some _ _ _ hslot
  have hsi : stream.getIndex = k := hidx k stream hslot2
  rw [hsi] at hcase
  rcases hcase with ⟨_, _, created, st2, hcs, h1, _⟩ | ⟨_, h1, _⟩
  · obtain ⟨c1, _, _, _, c5⟩ := createStream_created _ _ _ _ _ hcs
    have hidx2 : (params.scopeStreamToIndexWithDiff changes k).streamIndex = k := rfl
    rw [hidx2] at c1 c5
    simp only at c5
    rw [resizeFor_of_lt _ _ (by simpa using hk), List.set_set] at c5
    rw [h1, c5]
    simp only [List.set_set]
    refine indexed_set acc.1.group _ k created.render hidx c1 ?_ ?_
    · intro j hj
      simp only [List.getD_eq_getElem?_getD]
      rw [List.getElem?_set_ne (fun hh => hj hh.symm)]
    · simp only [List.getD_eq_getElem?_getD]
      rw [List.getElem?_set_self hk]; rfl
  · rw [h1]
    refine indexed_set acc.1.group _ k stream.render hidx hsi ?_ ?_
    · intro j hj
      simp only [List.getD_eq_getElem?_getD]
      rw [List.getElem?_set_ne (fun hh => hj hh.symm)]
    · simp only [List.getD_eq_getElem?_getD]
      rw [List.getElem?_set_self hk]; rfl

/-- In a list of slots whose streams have the index of their slot, counted from
`off`, the indices of the streams met in slot order ascend strictly. -/
theorem indices_ascending (l : List (Option Stream)) :
    ∀ off : Nat, (∀ (k : Nat) (s : Stream), l[k]? = some (some s) → s.getIndex = off + k) →
      ((l.filterMap id).map Stream.getIndex).Pairwise (fun a b => a < b) ∧
      ∀ x ∈ (l.filterMap id).map Stream.getIndex, off ≤ x := by
  induction l with
  | nil => intro _ _; exact ⟨List.Pairwise.nil, fun x hx => by cases hx⟩
  | cons slot rest ih =>
    intro off h
    have hrest : ∀ (k : Nat) (s : Stream), rest[k]? = some (some s) →
        s.getIndex = (off + 1) + k := by
      intro k s hs
      have := h (k + 1) s (by simpa using hs)
      omega
    obtain ⟨p1, p2⟩ := ih (off + 1) hrest
    cases slot with
    | none =>
      refine ⟨by simpa using p1, ?_⟩
      intro x hx
      have := p2 x (by simpa using hx)
      omega
    | some s =>
      have hs : s.getIndex = off := by
        have := h 0 s (by simp)
        omega
      have hfm : ((some s :: rest).filterMap id).map Stream.getIndex =
          s.getIndex :: (rest.filterMap id).map Stream.getIndex := by
        simp [List.filterMap_cons]
      rw [hfm]
      refine ⟨?_, ?_⟩
      · refine List.Pairwise.cons ?_ p1
        intro x hx
        have := p2 x hx
        omega
      · intro x hx
        rcases List.mem_cons.mp hx with hx | hx
        · omega
        · have := p2 x hx
          omega

end StreamsGroup


namespace StreamsGroup

/-- C27: the property that every stream stored in the slot i has the index i holds
for the group without stream and is preserved by `createStream`, by
`createStreams` and by `render`, the replacement of a stream on a change of cast
included, whenever they return.  On a group that has it, `getStream i` returns
nothing or a stream of index i, and the indices of the streams met in slot order
ascend strictly. -/
theorem indexed_preserved (core : Core) (changes : Nat → Nat × Nat) (hasCompleted : Bool)
    (params : OfferAnswerContext) (st : SessionState) (hidx : st.group.indexed) :
    (StreamsGroup.ofSlots []).indexed ∧
    (∀ st2 r, createStream core st params = some (st2, r) → st2.group.indexed) ∧
    (∀ st2, createStreams core params st = some st2 → st2.group.indexed) ∧
    (∀ r, render core changes hasCompleted params st = some r → r.1.group.indexed) ∧
    (∀ (i : Nat) (s : Stream), st.group.getStream i = some s → s.getIndex = i) ∧
    (st.group.ownedStreams.map Stream.getIndex).Pairwise (fun a b => a < b) := by
  refine ⟨?_, ?_, ?_, ?_, ?_, ?_⟩
  · intro k s hs
    simp [StreamsGroup.ofSlots] at hs
  · intro st2 r h
    exact createStream_indexed core st st2 params r hidx h
  · intro st2 h
    unfold createStreams at h
    cases hmd : params.localMediaDescription with
    | none => rw [hmd] at h; cases h
    | some md =>
      rw [hmd] at h
      exact foldlM_invariant (fun s : SessionState => s.group.indexed)
        (createStreamsStep core params)
        (fun a k b ha hb => createStreamsStep_indexed core params a b k ha hb) _ st st2 hidx h
  · intro r h
    obtain ⟨rendered, tail, hloop, hm, _⟩ := render_loop core changes hasCompleted params st r h
    have hr := foldlM_invariant
      (fun a : SessionState × List GroupEffect => a.1.group.indexed)
      (renderStep core changes params)
      (fun a k b ha hb => renderStep_indexed core changes params a b k ha hb) _ (st, [])
      rendered hidx hloop
    intro k s hs
    rw [hm] at hs
    exact hr k s hs
  · intro i s hs
    rw [getStream_eq] at hs
    exact hidx i s (getD_eq_some _ _ _ hs).1
  · exact (indices_ascending st.group.mStreams 0
      (fun k s hs => by rw [hidx k s hs]; omega)).1

/-- Instance of `indexed_preserved`: `samplePreparingState` with the context of
`sampleAnswer` scoped to the video stream and the change of cast of
`sampleCastChange`; the three operations return. -/
theorem indexed_preserved_witness :
    samplePreparingState.group.indexed ∧
    (createStream sampleCore samplePreparingState (sampleAnswer.scopeStreamToIndex 1)).isSome
      = true ∧
    (createStreams sampleCore (sampleAnswer.scopeStreamToIndex 1) samplePreparingState).isSome
      = true ∧
    (render sampleCore sampleCastChange true (sampleAnswer.scopeStreamToIndex 1)
      samplePreparingState).isSome = true ∧
    ((StreamsGroup.ofSlots []).indexed ∧
      (∀ st2 r, createStream sampleCore samplePreparingState (sampleAnswer.scopeStreamToIndex 1)
        = some (st2, r) → st2.group.indexed) ∧
      (∀ st2, createStreams sampleCore (sampleAnswer.scopeStreamToIndex 1) samplePreparingState
        = some st2 → st2.group.indexed) ∧
      (∀ r, render sampleCore sampleCastChange true (sampleAnswer.scopeStreamToIndex 1)
        samplePreparingState = some r → r.1.group.indexed) ∧
      (∀ (i : Nat) (s : Stream), samplePreparingState.group.getStream i = some s →
        s.getIndex = i) ∧
      (samplePreparingState.group.ownedStreams.map Stream.getIndex).Pairwise
        (fun a b => a < b)) :=
  ⟨samplePreparingState_indexed, by decide, by decide, by decide,
    indexed_preserved sampleCore sampleCastChange true (sampleAnswer.scopeStreamToIndex 1)
      samplePreparingState samplePreparingState_indexed⟩

end StreamsGroup


/-! ## Empty slots -/

namespace StreamsGroup

theorem createStreamsStep_length (core : Core) (params : OfferAnswerContext)
    (st st2 : SessionState) (index : Nat)
    (h : createStreamsStep core params st index = some st2) :
    st2.group.mStreams.length ≤ max st.group.mStreams.length (index + 1) := by
  unfold createStreamsStep at h
  cases hs : st.group.getStream index with
  | none =>
    rw [hs] at h
    simp only at h
    cases hc : createStream core st (params.scopeStreamToIndex index) with
    | none => rw [hc] at h; cases h
    | some res =>
      rw [hc] at h
      simp only [Option.map_some', Option.some.injEq] at h
      rw [← h]
      cases hl : (params.scopeStreamToIndex index).localStreamDescription with
      | none =>
        unfold createStream at hc
        rw [hl] at hc
        cases hc
      | some l =>
        have hres : createStream core st (params.scopeStreamToIndex index)
            = some (res.1, res.2) := hc
        rcases createStream_cases core st res.1 _ l res.2 hl hres with
          ⟨_, hst, _⟩ | ⟨_, s, d, _, _, hst⟩
        · rw [hst]; omega
        · rw [hst]
          have hidx : (params.scopeStreamToIndex index).streamIndex = index := rfl
          simp only [hidx, List.length_set]
          unfold resizeFor
          split_ifs with hge
          · simp only [List.length_append, List.length_replicate]; omega
          · omega
  | some s =>
    rw [hs] at h
    simp only at h
    cases hl : (params.scopeStreamToIndex index).localStreamDescription with
    | none => rw [hl] at h; cases h
    | some l =>
      rw [hl] at h
      simp only at h
      split_ifs at h <;> (rw [← Option.some.inj h]; omega)

theorem createStreams_loop_length (core : Core) (params : OfferAnswerContext)
    (st0 : SessionState) :
    ∀ (k : Nat) (st1 : SessionState),
      (List.range k).foldlM (createStreamsStep core params) st0 = some st1 →
      st1.group.mStreams.length ≤ max st0.group.mStreams.length k := by
  intro k
  induction k with
  | zero =>
    intro st1 h
    have : st1 = st0 := by
      simp only [List.range_zero, List.foldlM, pure, Option.some.injEq] at h
      exact h.symm
    rw [this]; omega
  | succ k ih =>
    intro st1 h
    rw [foldlM_range_succ] at h
    cases hmid : (List.range k).foldlM (createStreamsStep core params) st0 with
    | none => rw [hmid] at h; cases h
    | some mid =>
      rw [hmid] at h
      have hstep : createStreamsStep core params mid k = some st1 := h
      have h1 := ih mid hmid
      have h2 := createStreamsStep_length core params mid st1 k hstep
      omega

/-- On a group that holds no slot yet, and for a description none of whose streams
has type other (the descriptions read by the constructors being present),
`createStreams` returns a group without empty slot. -/
theorem createStreams_noEmptySlot (core : Core) (params : OfferAnswerContext)
    (md : SalMediaDescription) (st0 : SessionState)
    (hmd : params.localMediaDescription = some md)
    (hempty : st0.group.mStreams = [])
    (hno : ∀ l ∈ md.streams, l.type ≠ SalStreamType.SalOther)
    (hdef : ∀ i l, md.streams[i]? = some l →
      MS2Stream.initMulticastDefined (params.scopeStreamToIndex i) = true) :
    ∃ st1, createStreams core params st0 = some st1 ∧ st1.group.noEmptySlot := by
  obtain ⟨st1, hst1⟩ := createStreams_loop_defined core params md hmd
    (fun i l hl _ => hdef i l hl) st0 md.nb_streams (le_refl _)
  refine ⟨st1, by unfold createStreams; rw [hmd]; exact hst1, ?_⟩
  have hnone : ∀ j, st0.group.getStream j = none := by
    intro j
    rw [getStream_eq, hempty]; rfl
  obtain ⟨hfresh, _⟩ := createStreams_loop_fresh core params md hmd st0 hnone md.nb_streams
    (le_refl _) st1 hst1
  have hlen := createStreams_loop_length core params st0 md.nb_streams st1 hst1
  rw [hempty] at hlen
  simp only [List.length_nil, Nat.zero_max] at hlen
  intro slot hslot
  obtain ⟨j, hj, hjs⟩ := List.getElem_of_mem hslot
  have hjn : j < md.streams.length := by
    unfold SalMediaDescription.nb_streams at hlen; omega
  have hl : md.streams[j]? = some md.streams[j] := List.getElem?_eq_getElem hjn
  obtain ⟨s, hs, _, _⟩ := (hfresh j hjn _ hl).1 (hno _ (List.getElem_mem hjn))
  rw [getStream_eq, List.getD_eq_getElem?_getD, List.getElem?_eq_getElem hj, hjs] at hs
  intro hnone2
  rw [hnone2] at hs
  cases hs

/-- C28 at the description of `sampleOtherOffer`, whose first stream has type
other: after `createStreams` on a new session the first slot of the collection
is empty, and `prepare`, `render`, `allStreamsEncrypted`, `isMuted`,
`isStarted`, `getActiveStreamsCount` and `lookupMainStream` all dereference
it. -/
theorem createStreams_leaves_empty_slot :
    (sampleOtherOffer.localMediaDescription.map (fun md => md.streams.map (fun l => l.type)))
      = some [SalStreamType.SalOther, SalStreamType.SalAudio] ∧
    (createStreams sampleCore sampleOtherOffer sampleEmptyState).map (fun st => st.group)
      = some sampleSparseGroup ∧
    sampleSparseGroup.mStreams[0]? = some none ∧
    ¬ sampleSparseGroup.noEmptySlot ∧
    prepare sampleCore sampleSparseGroup = none ∧
    render sampleCore sampleNoChange false sampleOtherOffer
      { group := sampleSparseGroup, allocated := 1, draws := 0 } = none ∧
    allStreamsEncrypted sampleSparseGroup = none ∧
    isMuted sampleSparseGroup = none ∧
    isStarted sampleSparseGroup = none ∧
    getActiveStreamsCount sampleSparseGroup = none ∧
    lookupMainStream sampleSparseGroup SalStreamType.SalAudio = none := by
  decide

end StreamsGroup


/-! ## Notifications of a stopped stream -/

namespace MS2Stream

/-- C29 for every stream stopped while a listener is registered: the statistics
types carried by the calls of `onUpdateMediaInfoForReporting` are the single
type audio for a stream of type audio, video or text alike, and none for a stream
of type other; for the video stream and for the text stream of
`sampleRunningGroup` the notification carries the audio type.  The other half of
the claim holds: `onCallSessionConferenceStreamStopping` is called exactly for
a stream of type audio, and without listener nothing is notified. -/
theorem stop_reports_audio_stats (s : Stream) :
    (stop true s).2.filterMap Effect.statsType =
      (if s.getType = SalStreamType.SalOther then []
        else [LinphoneCallStats.LINPHONE_CALL_STATS_AUDIO]) ∧
    (Effect.onCallSessionConferenceStreamStopping ∈ (stop true s).2 ↔
      s.getType = SalStreamType.SalAudio) ∧
    (stop false s).2.any Effect.isListenerNotification = false ∧
    (stop true (Stream.sample 1 1 SalStreamType.SalVideo State.Running 9078 true true)).2 =
      [Effect.onUpdateMediaInfoForReporting LinphoneCallStats.LINPHONE_CALL_STATS_AUDIO,
       Effect.bandwidthControllerRemoveStream, Effect.updateStats, Effect.handleEvents] ∧
    (stop true (Stream.sample 2 2 SalStreamType.SalText State.Stopped 11078 false false)).2 =
      [Effect.onUpdateMediaInfoForReporting LinphoneCallStats.LINPHONE_CALL_STATS_AUDIO,
       Effect.bandwidthControllerRemoveStream, Effect.updateStats, Effect.handleEvents] := by
  refine ⟨?_, ?_, ?_, by decide, by decide⟩
  · unfold stop
    cases hty : s.getType <;> cases hp : s.mRtpProfile <;> cases hio : s.mRtpIoProfile <;>
      cases ht : s.mTimer <;> simp [Effect.statsType]
  · unfold stop
    cases hty : s.getType <;> cases hp : s.mRtpProfile <;> cases hio : s.mRtpIoProfile <;>
      cases ht : s.mTimer <;> simp
  · unfold stop
    cases hp : s.mRtpProfile <;> cases hio : s.mRtpIoProfile <;>
      cases ht : s.mTimer <;> simp [Effect.isListenerNotification]

end MS2Stream

/-! ## Ports of a multicast receiver -/

namespace MS2Stream

/-- What `initMulticast` does for the role receiver: the RTP port becomes 0 and the
RTCP port is left as it is. -/
theorem initMulticast_receiver (s : Stream) (params : OfferAnswerContext)
    (remote : SalStreamDescription)
    (hrole : multicastRoleOf params = some SalMulticastRole.SalMulticastReceiver)
    (hremote : params.remoteStreamDescription = some remote) :
    initMulticast s params =
      some { s with mPortConfig :=
        { s.mPortConfig with
          multicastRole := SalMulticastRole.SalMulticastReceiver
          rtpPort := 0 } } := by
  unfold initMulticast
  rw [hrole]
  simp only [if_true, hremote]

/-- C30 at the remote offer of `sampleMulticastOffer`, for which the local side is
the receiver and the remote RTP port is 5004: for every stream, `initMulticast`
leaves the RTP port 0 and the RTCP port as it was; the stream that the
constructor builds on the fixed audio port 7078 has RTP port 0 and RTCP
port 7079, where the claim has 5004 and 0. -/
theorem initMulticast_receiver_ports :
    multicastRoleOf (sampleMulticastOffer.scopeStreamToIndex 0)
      = some SalMulticastRole.SalMulticastReceiver ∧
    (sampleMulticastOffer.scopeStreamToIndex 0).remoteStreamDescription.map
      (fun d => d.rtp_port) = some 5004 ∧
    (∀ s : Stream,
      (initMulticast s (sampleMulticastOffer.scopeStreamToIndex 0)).map
        (fun r => (r.mPortConfig.rtpPort, r.mPortConfig.rtcpPort))
        = some (0, s.mPortConfig.rtcpPort)) ∧
    (construct sampleCore [] (sampleMulticastOffer.scopeStreamToIndex 0) 0 0).map
      (fun r => (r.1.mPortConfig.multicastRole, r.1.mPortConfig.rtpPort,
        r.1.mPortConfig.rtcpPort))
      = some (SalMulticastRole.SalMulticastReceiver, 0, 7079) := by
  refine ⟨by decide, by decide, ?_, by decide⟩
  intro s
  rw [initMulticast_receiver s _
    { sampleDescription SalStreamType.SalAudio with
      multicast_role := SalMulticastRole.SalMulticastReceiver } (by decide) (by decide)]
  rfl

end MS2Stream

end Linphone
